import Mathlib

/-!
# SmoothLED_8bit: the channel-state engine

A shallow embedding of `src/src/SmoothLED.cpp` / `src/src/SmoothLED.h`.

* A class instance `smoothLED` is a record of its private members; the
  intrusive linked list `_firstLink` / `_nextLink` of instances is a `List`
  in link order, and the linked list `_nextSet` of stored `set()` commands is
  a `List setStructure` (head = first element of the linked list).
* `uint8_t` / `uint16_t` members are `Nat`, `int16_t` is `Int`; arithmetic that
  can leave the machine range is reduced explicitly.
* The memory mapped registers the library touches are the record `Hardware`.
* `new setStructure` may return `nullptr`; whether it succeeds is the
  argument `alloc` of the functions that can reach the allocation. The
  construction of the node in storage that was not provided is recorded in
  `Hardware.nullStored`.
* Where the order of the statements of a function matters (interrupts
  disabled or not at a write), the function is given a second time as the
  list of its statements, and `execute` relates the list to the function.
-/

namespace SmoothLED

/-! ## Constants (`SmoothLED.h`, `SmoothLED.cpp`) -/

/-- Set when PWM is active on the pin (not 0 or 255). -/
def PWM_ACTIVE : Nat := 8
/-- Set when the pin is on TIMER1 and needs special handling. -/
def TIMER1_PIN : Nat := 16
/-- Default: value 0 means off. -/
def NO_INVERT_LED : Nat := 0
/-- A value of 0 denotes 100% duty cycle when set. -/
def INVERT_LED : Nat := 1
/-- Default: interpolate brightness using the CIE table. -/
def CIE_MODE : Nat := 0
/-- Use the PWM value directly. -/
def NO_CIE_MODE : Nat := 2
/-- Default: use hardware PWM where possible. -/
def HARDWARE_MODE : Nat := 0
/-- Use software PWM even on hardware PWM pins. -/
def SOFTWARE_MODE : Nat := 4
/-- Largest `uint16_t`. -/
def UINT16_MAX : Nat := 65535

/-- The table `kcie` of `SmoothLED.h` (CIE 1931 brightness levels). -/
def kcie : List Nat := [
    0,   0,   0,   0,   0,   1,   1,   1,   1,   1,   1,   1,   1,   1,   2,   2,   2,   2,   2,
    2,   2,   2,   2,   2,   2,   3,   3,   3,   3,   3,   3,   3,   4,   4,   4,   4,   4,   4,
    4,   5,   5,   5,   5,   5,   6,   6,   6,   6,   6,   7,   7,   7,   7,   8,   8,   8,   8,
    9,   9,   9,   9,   10,  10,  10,  11,  11,  11,  11,  12,  12,  12,  13,  13,  13,  14,  14,
    15,  15,  15,  16,  16,  16,  17,  17,  18,  18,  19,  19,  19,  20,  20,  21,  21,  22,  22,
    23,  23,  24,  24,  25,  25,  26,  27,  27,  28,  28,  29,  29,  30,  31,  31,  32,  33,  33,
    34,  35,  35,  36,  37,  37,  38,  39,  39,  40,  41,  42,  42,  43,  44,  45,  45,  46,  47,
    48,  49,  50,  50,  51,  52,  53,  54,  55,  56,  57,  58,  59,  59,  60,  61,  62,  63,  64,
    65,  66,  67,  69,  70,  71,  72,  73,  74,  75,  76,  77,  78,  80,  81,  82,  83,  84,  85,
    87,  88,  89,  90,  92,  93,  94,  96,  97,  98,  100, 101, 102, 104, 105, 106, 108, 109, 111,
    112, 114, 115, 117, 118, 120, 121, 123, 124, 126, 127, 129, 131, 132, 134, 136, 137, 139, 141,
    142, 144, 146, 147, 149, 151, 153, 155, 156, 158, 160, 162, 164, 166, 168, 169, 171, 173, 175,
    177, 179, 181, 183, 185, 187, 189, 191, 194, 196, 198, 200, 202, 204, 206, 209, 211, 213, 215,
    218, 220, 222, 224, 227, 229, 231, 234, 236]

/-! ## Data model -/

/-- The linked list node for stacking `set()` commands (`struct setStructure`);
the `next` pointer is the tail of the list that holds the node. -/
structure setStructure where
  /-- next target level (`uint8_t`) -/
  targetLevel : Nat := 0
  /-- next change speed (`uint16_t`) -/
  changeSpeed : Nat := 0
  /-- next wait time (`uint16_t`) -/
  delayMS : Nat := 0
deriving DecidableEq, Repr

/-- The private members of one `smoothLED` instance, with the initial values
of the class declaration. Pointers to registers are `Option` of an address,
`none` being `nullptr`. `_nextLink` is the position in the registry list. -/
structure smoothLED where
  /-- Status bits (`volatile uint8_t`) -/
  _flags : Nat := 0
  /-- Pointer to the PORTn register -/
  _portRegister : Option Nat := none
  /-- bit mask used in PORTn (`uint8_t`) -/
  _registerBitMask : Nat := 0
  /-- Timer to pin number for PWM (`uint8_t`) -/
  _timerPWMPin : Nat := 0
  /-- Pointer to the PWM compare register -/
  _PWMRegister : Option Nat := none
  /-- Current PWM level 0-255 (`volatile uint8_t`) -/
  _currentLevel : Nat := 0
  /-- PWM level from the cie table (`volatile uint8_t`) -/
  _currentCIE : Nat := 0
  /-- Time to wait after a fade (`volatile uint16_t`) -/
  _waitTime : Nat := 0
  /-- Target PWM level 0-255 (`uint8_t`) -/
  _targetLevel : Nat := 0
  /-- Delay milliseconds in fades (`uint16_t`) -/
  _changeDelays : Nat := 0
  /-- Countdown timer for fading (`volatile int16_t`) -/
  _changeTicker : Int := 0
  /-- Stored `set()` commands, first to run at the head -/
  _nextSet : List setStructure := []
deriving DecidableEq, Repr

/-- The registers of the microcontroller that the library reads and writes.
`OCIE0A` is the TIMER0 compare-match-A interrupt enable bit of `TIMSK0`
(the fade tick), `TOIE1` the TIMER1 overflow interrupt enable bit of `TIMSK1`
(the PWM tick), `SREG_I` the global interrupt enable bit of `SREG`.
`port a` is the content of the PORTn register at address `a`, `ocr a` the
content of the compare register at address `a`, and `com t` the compare
output mode bit (`COMnx1`, or `COM00` / `COM21`) of timer channel `t`. -/
structure Hardware where
  /-- global interrupt enable bit of SREG -/
  SREG_I : Bool := true
  /-- fade tick enable -/
  OCIE0A : Bool := false
  /-- PWM tick enable -/
  TOIE1 : Bool := false
  /-- PORTn registers by address -/
  port : Nat → Nat := fun _ => 0
  /-- compare registers by address -/
  ocr : Nat → Nat := fun _ => 0
  /-- compare output mode bit by timer channel -/
  com : Nat → Bool := fun _ => false
  /-- DDRn (data direction) registers by address -/
  ddr : Nat → Nat := fun _ => 0
  /-- whether TIMER1 has the setting that the first `begin()` writes to
  `TCCR1A` / `TCCR1B`: no pre-scaling (`CS10` set, `CS11`, `CS12` clear) and
  fast PWM mode (`WGM10`, `WGM11`, `WGM12` set, `WGM13` clear) -/
  TIMER1_fastPWM : Bool := false
  /-- whether the program has stored through a null pointer: the bytes from
  data address 0 on, which belong to no object (undefined behaviour in C++;
  on the AVR these addresses are the working registers of the CPU) -/
  nullStored : Bool := false

/-- What the Arduino core and the compiler fix and `src/` does not contain.
The theorems hold for every board; the default values, those of a board with
an ATmega328P, serve the examples. -/
structure Board where
  /-- The value of the macro `NOT_ON_TIMER` of `Arduino.h`. -/
  NOT_ON_TIMER : Nat := 0
  /-- Whether the headers of the board define the registers of timer channel
  `t`, that is whether the `switch (_timerPWMPin)` of `switchHardwarePWM`
  is compiled with a `case` for `t`. -/
  hasTimerCase : Nat → Bool := fun _ => true
  /-- The quotient that the 32-bit unsigned division of the platform yields
  for the dividend `a` and the divisor zero (C++ leaves it undefined). -/
  divByZero : Nat → Nat := fun _ => 4294967295
  /-- The value of the macro `NUM_DIGITAL_PINS` (the pins are numbered
  `0 .. NUM_DIGITAL_PINS - 1`). -/
  NUM_DIGITAL_PINS : Nat := 20
  /-- The macro `digitalPinToBitMask(pin)`. -/
  digitalPinToBitMask : Nat → Nat := fun pin =>
    if pin < 8 then 2 ^ pin else if pin < 14 then 2 ^ (pin - 8) else 2 ^ ((pin - 14) % 8)
  /-- The macro `digitalPinToPort(pin)`. -/
  digitalPinToPort : Nat → Nat := fun pin => if pin < 8 then 4 else if pin < 14 then 2 else 3
  /-- The macro `portOutputRegister(port)`: the address of PORTn, `none` for
  a null pointer. -/
  portOutputRegister : Nat → Option Nat := fun port =>
    if port = 2 then some 37 else if port = 3 then some 40 else if port = 4 then some 43
    else none
  /-- The macro `portModeRegister(port)`: the address of DDRn. -/
  portModeRegister : Nat → Nat := fun port =>
    if port = 2 then 36 else if port = 3 then 39 else if port = 4 then 42 else 0
  /-- The macro `digitalPinToTimer(pin)`. -/
  digitalPinToTimer : Nat → Nat := fun pin =>
    if pin = 3 then 8 else if pin = 5 then 2 else if pin = 6 then 1 else if pin = 9 then 3
    else if pin = 10 then 4 else if pin = 11 then 7 else 0
  /-- The address of the compare register that the `switch (_timerPWMPin)` of
  `begin()` stores in `_PWMRegister` for the timer channel `t`. -/
  timerRegister : Nat → Nat := fun t =>
    if t = 1 then 71 else if t = 2 then 72 else if t = 3 then 136 else if t = 4 then 138
    else if t = 7 then 179 else if t = 8 then 180 else 0
  /-- Whether `t` is one of `TIMER1A`, `TIMER1B`, `TIMER1C`. -/
  isTimer1 : Nat → Bool := fun t => t = 3 || t = 4 || t = 5

/-- The static members of the class together with the registers. -/
structure System where
  /-- All class instances, in link order starting at `_firstLink`. -/
  _firstLink : List smoothLED := []
  /-- Static PWM loop counter (`uint8_t`). -/
  _counterPWM : Nat := 0
  /-- The registers. -/
  hw : Hardware := {}

/-! ## Register macros -/

/-- The macro `fadeTimerOn`: `TIMSK0 |= _BV(OCIE0A)`. -/
def fadeTimerOn (hw : Hardware) : Hardware := { hw with OCIE0A := true }
/-- The macro `fadeTimerOff`: `TIMSK0 &= ~_BV(OCIE0A)`. -/
def fadeTimerOff (hw : Hardware) : Hardware := { hw with OCIE0A := false }
/-- The macro `pwmTimerOn`: `TIMSK1 |= _BV(TOIE1)`. -/
def pwmTimerOn (hw : Hardware) : Hardware := { hw with TOIE1 := true }
/-- The macro `pwmTimerOff`: `TIMSK1 &= ~_BV(TOIE1)`. -/
def pwmTimerOff (hw : Hardware) : Hardware := { hw with TOIE1 := false }
/-- The instruction `cli()`: disable interrupts. -/
def cli (hw : Hardware) : Hardware := { hw with SREG_I := false }
/-- The assignment `SREG = originalSREG`. -/
def restoreSREG (originalSREG : Bool) (hw : Hardware) : Hardware :=
  { hw with SREG_I := originalSREG }

/-! ## Machine arithmetic -/

/-- Conversion of an integer to `uint8_t`. -/
def toUInt8 (x : Int) : Nat := (x % 256).toNat

/-- Conversion of an integer to `int16_t` (two's complement wrap). -/
def toInt16 (x : Int) : Int := (x + 32768) % 65536 - 32768

/-- Division of `uint32_t` values, `a / d`; for `d = 0` the board decides. -/
def udiv32 (b : Board) (a d : Nat) : Nat :=
  if d = 0 then b.divByZero a % 4294967296 else a / d

/-- The divisor of the pace computation of `set()`:
`(_currentLevel > _targetLevel) ? _currentLevel - _targetLevel
                                : _targetLevel - _currentLevel`. -/
def levelDelta (currentLevel targetLevel : Nat) : Nat :=
  if currentLevel > targetLevel then currentLevel - targetLevel
  else targetLevel - currentLevel

/-- The clamp of `set()`: `if (temp > UINT16_MAX) temp = UINT16_MAX;
else if (temp < 128) temp = 128;`. -/
def clampDelay (temp : Nat) : Nat :=
  if temp > UINT16_MAX then UINT16_MAX else if temp < 128 then 128 else temp

/-- The value `set()` stores in `_changeDelays` on the fade path:
`temp = ((uint32_t)speed << 7) / temp`, then the clamp. -/
def paceDelay (b : Board) (speed currentLevel targetLevel : Nat) : Nat :=
  clampDelay (udiv32 b ((speed <<< 7) % 4294967296) (levelDelta currentLevel targetLevel))

/-- Conversion of an integer to `uint16_t`. -/
def toUInt16 (x : Int) : Nat := (x % 65536).toNat

/-- The read `pgm_read_word(kcie + level)`: the two bytes of program memory
at `kcie + level`, low byte first (bytes behind the table read as 0 here; the
caller keeps the low byte only). -/
def pgm_read_word (level : Nat) : Nat :=
  kcie.getD level 0 + 256 * kcie.getD (level + 1) 0

/-! ## Foreground operations -/

/-- The function `smoothLED::set(val, speed, delay)`. `alloc` tells whether
`new setStructure` succeeds, should the call reach it. The `new` expression
is not a `nothrow` one, so the compiler does not test the pointer that the
allocation function returns before it constructs the object: when the
allocation function returns a null pointer, as `malloc` does on the
microcontroller when the heap is exhausted, the default member initialisers
of `setStructure` (`targetLevel{0}`, `changeSpeed{0}`, `delayMS{0}`,
`next{nullptr}`) are stored through the null pointer before the test
`if (p != nullptr)` is reached; the test then skips the rest. -/
def smoothLED.set (b : Board) (alloc : Bool) (val speed delay : Nat)
    (led : smoothLED) (hw : Hardware) : smoothLED × Hardware :=
  let originalSREG := hw.SREG_I
  let hw := cli hw
  if led._currentLevel = led._targetLevel ∧ led._waitTime = 0 then
    let led := { led with _targetLevel := val, _waitTime := delay }
    let led :=
      if speed = 0 then { led with _currentLevel := val }
      else { led with _changeDelays := paceDelay b speed led._currentLevel led._targetLevel }
    let hw := pwmTimerOn (fadeTimerOn hw)
    (led, restoreSREG originalSREG hw)
  else
    let led :=
      if alloc then
        { led with _nextSet := led._nextSet ++ [{ targetLevel := val, changeSpeed := speed,
                                                   delayMS := delay }] }
      else led
    let hw : Hardware := if alloc then hw else { hw with nullStored := true }
    (led, restoreSREG originalSREG hw)

/-- The function `smoothLED::setNow(val, speed, delay)`. -/
def smoothLED.setNow (b : Board) (alloc : Bool) (val speed delay : Nat)
    (led : smoothLED) (hw : Hardware) : smoothLED × Hardware :=
  let originalSREG := hw.SREG_I
  let hw := cli hw
  let led := { led with _nextSet := [] }
  let led := { led with _currentLevel := led._targetLevel }
  let led := { led with _waitTime := 0 }
  let r := smoothLED.set b alloc val speed delay led hw
  (r.1, restoreSREG originalSREG r.2)

/-- The operator `smoothLED::operator++()`: `++_targetLevel` on a `uint8_t`. -/
def smoothLED.operator_inc (led : smoothLED) (hw : Hardware) : smoothLED × Hardware :=
  ({ led with _targetLevel := toUInt8 (led._targetLevel + 1) }, pwmTimerOn (fadeTimerOn hw))

/-- The operator `smoothLED::operator--()`: `--_targetLevel` on a `uint8_t`. -/
def smoothLED.operator_dec (led : smoothLED) (hw : Hardware) : smoothLED × Hardware :=
  ({ led with _targetLevel := toUInt8 (led._targetLevel - 1) }, pwmTimerOn (fadeTimerOn hw))

/-- The operator `smoothLED::operator+(value)`: `_targetLevel += value`,
computed in `int` and stored in a `uint8_t`. -/
def smoothLED.operator_plus (value : Int) (led : smoothLED) (hw : Hardware) :
    smoothLED × Hardware :=
  ({ led with _targetLevel := toUInt8 (led._targetLevel + value) }, pwmTimerOn (fadeTimerOn hw))

/-- The operator `smoothLED::operator-(value)`: `_targetLevel -= value`. -/
def smoothLED.operator_minus (value : Int) (led : smoothLED) (hw : Hardware) :
    smoothLED × Hardware :=
  ({ led with _targetLevel := toUInt8 (led._targetLevel - value) }, pwmTimerOn (fadeTimerOn hw))

/-- The operator `smoothLED::operator+=(value)`. -/
def smoothLED.operator_plus_assign (value : Int) (led : smoothLED) (hw : Hardware) :
    smoothLED × Hardware :=
  ({ led with _targetLevel := toUInt8 (led._targetLevel + value) }, pwmTimerOn (fadeTimerOn hw))

/-- The operator `smoothLED::operator-=(value)`. -/
def smoothLED.operator_minus_assign (value : Int) (led : smoothLED) (hw : Hardware) :
    smoothLED × Hardware :=
  ({ led with _targetLevel := toUInt8 (led._targetLevel - value) }, pwmTimerOn (fadeTimerOn hw))

/-! ## Output primitives -/

/-- The function `smoothLED::pinOn()`; a null `_portRegister` writes nothing. -/
def smoothLED.pinOn (led : smoothLED) (hw : Hardware) : Hardware :=
  match led._portRegister with
  | none => hw
  | some a =>
    if led._flags &&& INVERT_LED ≠ 0 then
      { hw with port := Function.update hw.port a (hw.port a &&& (255 ^^^ led._registerBitMask)) }
    else
      { hw with port := Function.update hw.port a (hw.port a ||| led._registerBitMask) }

/-- The function `smoothLED::pinOff()`; a null `_portRegister` writes nothing. -/
def smoothLED.pinOff (led : smoothLED) (hw : Hardware) : Hardware :=
  match led._portRegister with
  | none => hw
  | some a =>
    if led._flags &&& INVERT_LED ≠ 0 then
      { hw with port := Function.update hw.port a (hw.port a ||| led._registerBitMask) }
    else
      { hw with port := Function.update hw.port a (hw.port a &&& (255 ^^^ led._registerBitMask)) }

/-- The function `smoothLED::switchHardwarePWM(state)`: `sbi` / `cbi` of the
compare output mode bit of the timer channel of the pin (the additional
`cbi` of `COM4A0` / `COM4D0` on the 32U4 is not represented). -/
def smoothLED.switchHardwarePWM (b : Board) (state : Bool) (led : smoothLED) (hw : Hardware) :
    smoothLED × Hardware :=
  if led._timerPWMPin = b.NOT_ON_TIMER then
    ({ led with _flags := led._flags ||| SOFTWARE_MODE }, hw)
  else if state = true ∧ led._flags &&& SOFTWARE_MODE = 0 then
    (led, if b.hasTimerCase led._timerPWMPin
          then { hw with com := Function.update hw.com led._timerPWMPin true } else hw)
  else
    (led, if b.hasTimerCase led._timerPWMPin
          then { hw with com := Function.update hw.com led._timerPWMPin false } else hw)

/-- A store through `_PWMRegister`; a null pointer writes nothing. -/
def writePWMRegister (led : smoothLED) (v : Nat) (hw : Hardware) : Hardware :=
  match led._PWMRegister with
  | none => hw
  | some a => { hw with ocr := Function.update hw.ocr a v }

/-! ## The fade tick -/

/-- The registers and the two local flags of `faderISR()` while it runs. -/
structure FaderState where
  /-- The registers. -/
  hw : Hardware
  /-- set to false when any pin has software PWM -/
  turnPWMoff : Bool := true
  /-- set to false when any pin is fading -/
  turnFadeOff : Bool := true

/-- The step "Compute the CIE or use the value directly" of the loop body of
`faderISR()`; the `uint8_t` member keeps the low byte of the word read. -/
def smoothLED.faderISR.cie (p : smoothLED) : smoothLED :=
  if p._flags &&& NO_CIE_MODE ≠ 0 then { p with _currentCIE := p._currentLevel }
  else { p with _currentCIE := pgm_read_word p._currentLevel % 256 }

/-- The step of the loop body of `faderISR()` that drives the pin: "ON" or
"OFF" at the levels 255 and 0, the PWM register otherwise (hardware mode). -/
def smoothLED.faderISR.output (b : Board) (p : smoothLED) (hw : Hardware) :
    smoothLED × Hardware :=
  if p._currentLevel = 0 ∨ p._currentLevel = 255 then
    let r := smoothLED.switchHardwarePWM b false
      { p with _flags := p._flags &&& (255 ^^^ PWM_ACTIVE) } hw
    if r.1._currentLevel = 0 then (r.1, r.1.pinOff r.2) else (r.1, r.1.pinOn r.2)
  else
    if (p._flags ||| PWM_ACTIVE) &&& SOFTWARE_MODE = 0 then
      let r := smoothLED.switchHardwarePWM b true { p with _flags := p._flags ||| PWM_ACTIVE } hw
      if r.1._flags &&& INVERT_LED ≠ 0 then
        if r.1._flags &&& TIMER1_PIN ≠ 0 then
          (r.1, writePWMRegister r.1 (toUInt16 ((255 - (r.1._currentCIE : Int)) * 4)) r.2)
        else
          (r.1, writePWMRegister r.1 (toUInt8 (255 - (r.1._currentCIE : Int))) r.2)
      else
        if r.1._flags &&& TIMER1_PIN ≠ 0 then
          (r.1, writePWMRegister r.1 ((r.1._currentCIE <<< 2) % 65536) r.2)
        else
          (r.1, writePWMRegister r.1 r.1._currentCIE r.2)
    else ({ p with _flags := p._flags ||| PWM_ACTIVE }, hw)

/-- The second half of the loop body of `faderISR()`, from "Compute the CIE"
to the software PWM check. -/
def smoothLED.faderISR.drive (b : Board) (p : smoothLED) (st : FaderState) :
    smoothLED × FaderState :=
  let r := smoothLED.faderISR.output b (smoothLED.faderISR.cie p) st.hw
  (r.1, { hw := r.2,
          turnPWMoff :=
            if r.1._flags &&& PWM_ACTIVE ≠ 0 ∧ r.1._flags &&& SOFTWARE_MODE ≠ 0 then false
            else st.turnPWMoff,
          turnFadeOff := st.turnFadeOff })

/-- The fade step of `faderISR()` for a pin with `_currentLevel != _targetLevel`;
the level cannot leave 0..255 since it moves towards `_targetLevel`. -/
def smoothLED.faderISR.fade (p : smoothLED) : smoothLED :=
  let p : smoothLED := { p with _changeTicker := toInt16 (p._changeTicker - 128) }
  if p._changeTicker ≤ 0 then
    let p : smoothLED :=
      { p with _changeTicker := toInt16 (p._changeTicker + (p._changeDelays : Int)) }
    if p._currentLevel > p._targetLevel then { p with _currentLevel := p._currentLevel - 1 }
    else { p with _currentLevel := p._currentLevel + 1 }
  else p

/-- The loop body of `faderISR()` for the instance `p`; the last component
tells whether the body left the loop with `break`. -/
def smoothLED.faderISR.body (b : Board) (alloc : Bool) (p : smoothLED) (st : FaderState) :
    smoothLED × FaderState × Bool :=
  if p._portRegister = none then (p, st, false)
  else if p._currentLevel ≠ p._targetLevel then
    let r := smoothLED.faderISR.drive b (smoothLED.faderISR.fade p) { st with turnFadeOff := false }
    (r.1, r.2, false)
  else if p._waitTime ≠ 0 then
    let r := smoothLED.faderISR.drive b { p with _waitTime := p._waitTime - 1 }
      { st with turnFadeOff := false }
    (r.1, r.2, false)
  else
    match p._nextSet with
    | tmpPtr :: _ =>
      let r := p.set b alloc tmpPtr.targetLevel tmpPtr.changeSpeed tmpPtr.delayMS st.hw
      ({ r.1 with _nextSet := r.1._nextSet.tail },
       { st with hw := r.2, turnFadeOff := false }, true)
    | [] =>
      let r := smoothLED.faderISR.drive b p st
      (r.1, r.2, false)

/-- The loop `while (p != nullptr)` of `faderISR()` over the instances from
`p` on; after a `break` the remaining instances are untouched. -/
def smoothLED.faderISR.loop (b : Board) (alloc : Bool) :
    List smoothLED → FaderState → List smoothLED × FaderState
  | [], st => ([], st)
  | p :: rest, st =>
    let r := smoothLED.faderISR.body b alloc p st
    if r.2.2 then (r.1 :: rest, r.2.1)
    else
      let t := smoothLED.faderISR.loop b alloc rest r.2.1
      (r.1 :: t.1, t.2)

/-- The function `smoothLED::faderISR()`. -/
def smoothLED.faderISR (b : Board) (alloc : Bool) (sys : System) : System :=
  let r := smoothLED.faderISR.loop b alloc sys._firstLink
    { hw := sys.hw, turnPWMoff := true, turnFadeOff := true }
  let hw :=
    if r.2.turnFadeOff then
      let hw := fadeTimerOff r.2.hw
      if r.2.turnPWMoff then pwmTimerOff hw else hw
    else r.2.hw
  { sys with _firstLink := r.1, hw := hw }

/-- The state after `n` consecutive invocations of `faderISR()`. -/
def faderTicks (b : Board) (alloc : Bool) : Nat → System → System
  | 0, sys => sys
  | n + 1, sys => smoothLED.faderISR b alloc (faderTicks b alloc n sys)

/-- A call of the member function `f` on the instance at position `i` of the
registry (no effect when there is no such instance). -/
def System.call (i : Nat) (f : smoothLED → Hardware → smoothLED × Hardware) (sys : System) :
    System :=
  match sys._firstLink[i]? with
  | none => sys
  | some led =>
    let r := f led sys.hw
    { sys with _firstLink := sys._firstLink.set i r.1, hw := r.2 }

/-! ## The PWM tick -/

/-- The loop body of `pwmISR()` for the instance `p` at the counter value
`counterPWM`. -/
def smoothLED.pwmISR.body (counterPWM : Nat) (p : smoothLED) (hw : Hardware) : Hardware :=
  if p._portRegister ≠ none ∧ p._flags &&& SOFTWARE_MODE ≠ 0 then
    if p._currentCIE = counterPWM then p.pinOff hw
    else if counterPWM = 0 then p.pinOn hw
    else hw
  else hw

/-- The loop `while (p != nullptr)` of `pwmISR()` over the instances from `p` on. -/
def smoothLED.pwmISR.loop (counterPWM : Nat) : List smoothLED → Hardware → Hardware
  | [], hw => hw
  | p :: rest, hw => smoothLED.pwmISR.loop counterPWM rest (smoothLED.pwmISR.body counterPWM p hw)

/-- The function `smoothLED::pwmISR()`; `++_counterPWM` is on a `uint8_t`. -/
def smoothLED.pwmISR (sys : System) : System :=
  { sys with hw := smoothLED.pwmISR.loop sys._counterPWM sys._firstLink sys.hw,
             _counterPWM := (sys._counterPWM + 1) % 256 }

/-- The state after `n` consecutive invocations of `pwmISR()`. -/
def pwmTicks : Nat → System → System
  | 0, sys => sys
  | n + 1, sys => smoothLED.pwmISR (pwmTicks n sys)

/-! ## Construction, `begin()` and destruction -/

/-- The constructor `smoothLED::smoothLED()`: the new instance, with the
member initialisers of the class declaration, becomes the last link. -/
def smoothLED.constructor (sys : System) : System :=
  { sys with _firstLink := sys._firstLink ++ [{}] }

/-- The loop of the destructor and of `setNow()` that frees the stored
commands: `while (_nextSet != nullptr) { ...; _nextSet = _nextSet->next; ... }`. -/
def freeSets : List setStructure → List setStructure
  | [] => []
  | _ :: next => freeSets next

/-- The destructor `smoothLED::~smoothLED()` of the instance at position `i`
of the registry: the members of the instance when the destructor returns, and
the state it leaves. The first link empties the registry and disables both
timers; any other instance makes its predecessor the last link. `none` when
there is no such instance. -/
def smoothLED.destructor (i : Nat) (sys : System) : Option (smoothLED × System) :=
  match sys._firstLink[i]? with
  | none => none
  | some this =>
    let originalSREG := sys.hw.SREG_I
    let hw := cli sys.hw
    let this : smoothLED := { this with _nextSet := freeSets this._nextSet }
    if i = 0 then
      some (this, { sys with _firstLink := [],
                             hw := restoreSREG originalSREG (pwmTimerOff (fadeTimerOff hw)) })
    else
      some (this, { sys with _firstLink := sys._firstLink.take i,
                             hw := restoreSREG originalSREG hw })

/-- The loop of `begin()` over all instances, `k` being the position of the
instance `p` and `i` the position of `this`: `none` when an instance other
than `this` has the port register and the bit mask of `this` (the function
returns false), otherwise the final value of `firstBegin`. -/
def smoothLED.begin.scan (portRegister : Option Nat) (registerBitMask i : Nat) :
    List smoothLED → Nat → Bool → Option Bool
  | [], _, firstBegin => some firstBegin
  | p :: rest, k, firstBegin =>
    if p._portRegister = portRegister ∧ p._registerBitMask = registerBitMask ∧ k ≠ i then none
    else
      smoothLED.begin.scan portRegister registerBitMask i rest (k + 1)
        (if p._portRegister ≠ none ∧ p._portRegister ≠ portRegister then false else firstBegin)

/-- The `switch (_timerPWMPin)` of `begin()`: the compare register of the
timer channel, and the flag `TIMER1_PIN` for the channels of TIMER1; nothing
when the switch has no `case` for the timer channel. -/
def smoothLED.begin.selectRegister (b : Board) (this : smoothLED) : smoothLED :=
  if b.hasTimerCase this._timerPWMPin then
    if b.isTimer1 this._timerPWMPin then
      { this with _flags := this._flags ||| TIMER1_PIN,
                  _PWMRegister := some (b.timerRegister this._timerPWMPin) }
    else { this with _PWMRegister := some (b.timerRegister this._timerPWMPin) }
  else this

/-- The part of `begin()` from `_timerPWMPin = digitalPinToTimer(pin)` to the
end of the `if (_timerPWMPin != NOT_ON_TIMER)` statement. -/
def smoothLED.begin.timerSetup (b : Board) (pin : Nat) (this : smoothLED) (hw : Hardware) :
    smoothLED × Hardware :=
  let this : smoothLED := { this with _timerPWMPin := b.digitalPinToTimer pin }
  if this._timerPWMPin ≠ b.NOT_ON_TIMER then
    if this._flags &&& SOFTWARE_MODE = 0 then
      let r := this.switchHardwarePWM b true hw
      (smoothLED.begin.selectRegister b r.1, r.2)
    else (this, hw)
  else
    smoothLED.switchHardwarePWM b false { this with _flags := this._flags ||| SOFTWARE_MODE } hw

/-- The first three assignments of `begin()`: `_flags = flags & B1111`,
`_registerBitMask = digitalPinToBitMask(pin)` and
`_portRegister = portOutputRegister(digitalPinToPort(pin))`. -/
def smoothLED.begin.assign (b : Board) (pin flags : Nat) (this : smoothLED) : smoothLED :=
  { this with _flags := flags &&& 15,
              _registerBitMask := b.digitalPinToBitMask pin,
              _portRegister := b.portOutputRegister (b.digitalPinToPort pin) }

/-- The function `smoothLED::begin(pin, flags)` called on the instance at
position `i` of the registry: the value returned and the state it leaves
(false and no effect when there is no such instance). -/
def smoothLED.begin (b : Board) (alloc : Bool) (i pin flags : Nat) (sys : System) :
    Bool × System :=
  match sys._firstLink[i]? with
  | none => (false, sys)
  | some this =>
    if pin > b.NUM_DIGITAL_PINS then (false, sys)
    else
      let originalSREG := sys.hw.SREG_I
      let hw := cli sys.hw
      let this : smoothLED := smoothLED.begin.assign b pin flags this
      match smoothLED.begin.scan this._portRegister this._registerBitMask i
          (sys._firstLink.set i this) 0 true with
      | none =>
        (false, { sys with _firstLink := sys._firstLink.set i { this with _portRegister := none },
                           hw := restoreSREG originalSREG hw })
      | some firstBegin =>
        let hw : Hardware :=
          if firstBegin then { pwmTimerOff (fadeTimerOff hw) with TIMER1_fastPWM := true }
          else hw
        let r := smoothLED.begin.timerSetup b pin this hw
        let hw : Hardware :=
          { r.2 with ddr := Function.update r.2.ddr (b.portModeRegister (b.digitalPinToPort pin))
                      (r.2.ddr (b.portModeRegister (b.digitalPinToPort pin)) |||
                        r.1._registerBitMask) }
        let r := r.1.set b alloc 0 0 0 hw
        (true, { sys with _firstLink := sys._firstLink.set i r.1,
                          hw := restoreSREG originalSREG r.2 })

/-! ## The wording of the specification, for comparison -/

/-- The specification's `round(a / d)`: the quotient rounded to the nearest
integer (halves upwards). -/
def specRound (a d : Nat) : Nat := (2 * a + d) / (2 * d)

/-- The specification's `clamp(x, lo, hi)`. -/
def specClamp (x lo hi : Nat) : Nat := min hi (max lo x)

/-- The specification's pace increment
`clamp(round(pace_speed_ms * SCALE / delta), MIN, MAX)` with SCALE = 128,
MIN = 128 and MAX = 65535. -/
def specPaceIncrement (speed delta : Nat) : Nat :=
  specClamp (specRound (speed * 128) delta) 128 65535

/-- The specification's saturation of a level to the range 0..255. -/
def specSaturate (x : Int) : Nat := (min 255 (max 0 x)).toNat

/-- The channel is idle in the sense of the test of `set()`:
`_currentLevel == _targetLevel && _waitTime == 0`. -/
def smoothLED.idle (led : smoothLED) : Prop :=
  led._currentLevel = led._targetLevel ∧ led._waitTime = 0

instance (led : smoothLED) : Decidable led.idle := by
  unfold smoothLED.idle; infer_instance

/-- The instance `led` with the node `cmd` linked to the end of `_nextSet`. -/
def smoothLED.enqueue (led : smoothLED) (cmd : setStructure) : smoothLED :=
  { led with _nextSet := led._nextSet ++ [cmd] }

/-- The number of passes of the fade step that an instance with the ticker
value `t` needs until `_changeTicker <= 0` holds after the decrement. -/
def tickerWait (t : Int) : Nat :=
  1 + (if toInt16 (t - 128) ≤ 0 then 0 else ((toInt16 (t - 128) + 127) / 128).toNat)

/-- An upper bound of the number of passes of the loop body of `faderISR()`
after which the instance satisfies the test of `set()`: 258 passes for each
level still to go, the passes to the next level and the hold. -/
def busyTime (p : smoothLED) : Nat :=
  levelDelta p._currentLevel p._targetLevel * 258 +
    (if p._currentLevel = p._targetLevel then 0 else tickerWait p._changeTicker) + p._waitTime

/-- The number of stored commands of the first `i` instances of the registry. -/
def queuedBefore (l : List smoothLED) (i : Nat) : Nat :=
  ((l.take i).map fun p => p._nextSet.length).sum

/-- The instances `p` and `q` agree in every member except `_flags` and
`_currentCIE`. -/
def DriveFrame (p q : smoothLED) : Prop :=
  q._portRegister = p._portRegister ∧ q._registerBitMask = p._registerBitMask ∧
  q._timerPWMPin = p._timerPWMPin ∧ q._PWMRegister = p._PWMRegister ∧
  q._currentLevel = p._currentLevel ∧ q._waitTime = p._waitTime ∧
  q._targetLevel = p._targetLevel ∧ q._changeDelays = p._changeDelays ∧
  q._changeTicker = p._changeTicker ∧ q._nextSet = p._nextSet

/-- What one pass of the loop body of `faderISR()` can do to the queue of an
instance `p`, giving `p'`: either queue, target and pace are as they were and
the hold has not grown, or `p` satisfied the test of `set()`, the head of its
queue was removed and applied with `set()`. -/
def TickStep (b : Board) (p p' : smoothLED) : Prop :=
  (p'._nextSet = p._nextSet ∧ p'._targetLevel = p._targetLevel ∧
    p'._changeDelays = p._changeDelays ∧ p'._waitTime ≤ p._waitTime) ∨
  (∃ cmd rest, p._nextSet = cmd :: rest ∧ p.idle ∧ ∀ alloc hw,
    p' = { (p.set b alloc cmd.targetLevel cmd.changeSpeed cmd.delayMS hw).1 with
           _nextSet := rest })

/-- Invocation number `n + 1` of `faderISR()` after the state `sys` pops the
command `cmd` for the instance at position `i`: before it the instance has
`cmd` at the head of its queue, `_currentLevel == _targetLevel` and
`_waitTime == 0`; after it the queue is the remainder `rest` and the other
members are those that `set(cmd)` gives. -/
def PoppedAt (b : Board) (alloc : Bool) (sys : System) (i n : Nat) (cmd : setStructure)
    (rest : List setStructure) : Prop :=
  ∃ p p', (faderTicks b alloc n sys)._firstLink[i]? = some p ∧
    (faderTicks b alloc (n + 1) sys)._firstLink[i]? = some p' ∧
    p._nextSet = cmd :: rest ∧ p._currentLevel = p._targetLevel ∧ p._waitTime = 0 ∧
    p'._nextSet = rest ∧ p'._targetLevel = cmd.targetLevel ∧ p'._waitTime = cmd.delayMS ∧
    (cmd.changeSpeed = 0 → p'._currentLevel = cmd.targetLevel) ∧
    (cmd.changeSpeed ≠ 0 → p'._currentLevel = p._currentLevel) ∧
    ∀ alloc' hw, p' =
      { (p.set b alloc' cmd.targetLevel cmd.changeSpeed cmd.delayMS hw).1 with
        _nextSet := rest }

/-- Whether no element of the list is larger than its successor. -/
def nondecreasing : List Nat → Bool
  | a :: c :: rest => decide (a ≤ c) && nondecreasing (c :: rest)
  | _ => true

/-- The bits of the pin of `led` in its PORTn register (0 without a register). -/
def smoothLED.pinBits (led : smoothLED) (hw : Hardware) : Nat :=
  match led._portRegister with
  | none => 0
  | some a => hw.port a &&& led._registerBitMask

/-- The pin is in the state that `pinOn()` writes: high, or low with `INVERT_LED`. -/
def smoothLED.outputOn (led : smoothLED) (hw : Hardware) : Prop :=
  led.pinBits hw = if led._flags &&& INVERT_LED ≠ 0 then 0 else led._registerBitMask

/-- The pin is in the state that `pinOff()` writes: low, or high with `INVERT_LED`. -/
def smoothLED.outputOff (led : smoothLED) (hw : Hardware) : Prop :=
  led.pinBits hw = if led._flags &&& INVERT_LED ≠ 0 then led._registerBitMask else 0

instance (led : smoothLED) (hw : Hardware) : Decidable (led.outputOn hw) := by
  unfold smoothLED.outputOn; infer_instance

instance (led : smoothLED) (hw : Hardware) : Decidable (led.outputOff hw) := by
  unfold smoothLED.outputOff; infer_instance

/-- The instance `q` has the port register and the bit mask that `begin(pin)`
stores, which is the test of `begin()` for a pin already defined. -/
def smoothLED.holdsPin (b : Board) (pin : Nat) (q : smoothLED) : Prop :=
  q._portRegister = b.portOutputRegister (b.digitalPinToPort pin) ∧
  q._registerBitMask = b.digitalPinToBitMask pin

instance (b : Board) (pin : Nat) (q : smoothLED) : Decidable (q.holdsPin b pin) := by
  unfold smoothLED.holdsPin; infer_instance

/-- The registers `hw` and `hw'` agree in everything but the PORTn registers,
and no store through a null pointer lies between them. -/
def PortFrame (hw hw' : Hardware) : Prop :=
  hw'.SREG_I = hw.SREG_I ∧ hw'.OCIE0A = hw.OCIE0A ∧ hw'.TOIE1 = hw.TOIE1 ∧
  hw'.ocr = hw.ocr ∧ hw'.com = hw.com ∧ hw'.ddr = hw.ddr ∧
  hw'.TIMER1_fastPWM = hw.TIMER1_fastPWM ∧ hw'.nullStored = hw.nullStored

/-- The instance `p` after one pass of the loop body of `faderISR()`; neither
the registers nor the local flags of the function have a part in it. -/
def smoothLED.faderISR.pass (b : Board) (p : smoothLED) : smoothLED :=
  (smoothLED.faderISR.body b true p { hw := {} }).1

/-- The instance `p` after `n` passes of the loop body of `faderISR()`. -/
def smoothLED.faderISR.passes (b : Board) : Nat → smoothLED → smoothLED
  | 0, p => p
  | n + 1, p => smoothLED.faderISR.pass b (smoothLED.faderISR.passes b n p)

/-- The registers and the local flags `turnPWMoff` and `turnFadeOff` of
`faderISR()` when its loop has ended: with `turnFadeOff` the function runs
`fadeTimerOff`, with both flags `pwmTimerOff` as well. -/
def smoothLED.faderISR.sweep (b : Board) (alloc : Bool) (sys : System) : FaderState :=
  (smoothLED.faderISR.loop b alloc sys._firstLink
    { hw := sys.hw, turnPWMoff := true, turnFadeOff := true }).2

/-- The test `(p->_flags & PWM_ACTIVE) && (p->_flags & SOFTWARE_MODE)` of
`faderISR()`: the channel is in software drive with the active-PWM flag set. -/
def smoothLED.softwareActive (p : smoothLED) : Prop :=
  p._flags &&& PWM_ACTIVE ≠ 0 ∧ p._flags &&& SOFTWARE_MODE ≠ 0

instance (p : smoothLED) : Decidable p.softwareActive := by
  unfold smoothLED.softwareActive; infer_instance

/-- The channel has no work for the fade tick: it is not fading, not holding
and has no stored command. -/
def smoothLED.atRest (p : smoothLED) : Prop :=
  p._currentLevel = p._targetLevel ∧ p._waitTime = 0 ∧ p._nextSet = []

instance (p : smoothLED) : Decidable p.atRest := by
  unfold smoothLED.atRest; infer_instance

/-- An upper bound of the number of passes of the fade step after which a
fading instance has `_currentLevel == _targetLevel`: the passes to the next
level, and 257 passes for each further level. -/
def fadeTime (p : smoothLED) : Nat :=
  (levelDelta p._currentLevel p._targetLevel - 1) * 257 + tickerWait p._changeTicker

/-- The level `y` lies between the level `x` and the target `t`: going from
`x` to `y` does not move away from the target and does not pass it. -/
def towards (x y t : Nat) : Prop :=
  (x ≤ t → x ≤ y ∧ y ≤ t) ∧ (t ≤ x → t ≤ y ∧ y ≤ x)

/-- One statement of a member function, as what it does to the members of
the instance and to the registers. -/
abbrev Statement := smoothLED × Hardware → smoothLED × Hardware

/-- The statements of a list run one after the other. -/
def execute : List Statement → smoothLED × Hardware → smoothLED × Hardware
  | [], s => s
  | f :: rest, s => execute rest (f s)

/-- Whether every statement of the list that changes a member of the
instance finds the global interrupt enable bit clear when it runs. -/
def writesMasked : List Statement → smoothLED × Hardware → Bool
  | [], _ => true
  | f :: rest, s => (decide ((f s).1 = s.1) || !s.2.SREG_I) && writesMasked rest (f s)

/-- The three statements that the bodies of the six operators consist of:
the assignment to `_targetLevel`, `fadeTimerOn` and `pwmTimerOn`. -/
def nudgeStatements (newTarget : Nat → Nat) : List Statement :=
  [fun s => ({ s.1 with _targetLevel := newTarget s.1._targetLevel }, s.2),
   fun s => (s.1, fadeTimerOn s.2),
   fun s => (s.1, pwmTimerOn s.2)]

/-- The statements of `operator++()`: `++_targetLevel; fadeTimerOn; pwmTimerOn;`. -/
def smoothLED.operator_inc.statements : List Statement :=
  nudgeStatements fun t => toUInt8 (t + 1)

/-- The statements of `operator--()`: `--_targetLevel; fadeTimerOn; pwmTimerOn;`. -/
def smoothLED.operator_dec.statements : List Statement :=
  nudgeStatements fun t => toUInt8 (t - 1)

/-- The statements of `operator+(value)`:
`this->_targetLevel += value; fadeTimerOn; pwmTimerOn;`. -/
def smoothLED.operator_plus.statements (value : Int) : List Statement :=
  nudgeStatements fun t => toUInt8 (t + value)

/-- The statements of `operator-(value)`:
`this->_targetLevel -= value; fadeTimerOn; pwmTimerOn;`. -/
def smoothLED.operator_minus.statements (value : Int) : List Statement :=
  nudgeStatements fun t => toUInt8 (t - value)

/-- The statements of `operator+=(value)`, those of `operator+(value)`. -/
def smoothLED.operator_plus_assign.statements (value : Int) : List Statement :=
  nudgeStatements fun t => toUInt8 (t + value)

/-- The statements of `operator-=(value)`, those of `operator-(value)`. -/
def smoothLED.operator_minus_assign.statements (value : Int) : List Statement :=
  nudgeStatements fun t => toUInt8 (t - value)

/-- The statements that `set(val, speed, delay)` runs when it is called with
the members `led` and the registers `hw`: `cli()`, the assignments of the
branch that the test of `led` selects (the construction of the node in
storage that `new` did not provide, when the allocation fails), and
`SREG = originalSREG`. -/
def smoothLED.set.statements (b : Board) (alloc : Bool) (val speed delay : Nat)
    (led : smoothLED) (hw : Hardware) : List Statement :=
  [fun s => (s.1, cli s.2)] ++
  (if led._currentLevel = led._targetLevel ∧ led._waitTime = 0 then
    [fun s => ({ s.1 with _targetLevel := val }, s.2),
     fun s => ({ s.1 with _waitTime := delay }, s.2),
     fun s =>
       if speed = 0 then ({ s.1 with _currentLevel := val }, s.2)
       else ({ s.1 with _changeDelays :=
                paceDelay b speed s.1._currentLevel s.1._targetLevel }, s.2),
     fun s => (s.1, fadeTimerOn s.2),
     fun s => (s.1, pwmTimerOn s.2)]
  else if alloc then
    [fun s => ({ s.1 with _nextSet := s.1._nextSet ++
        [{ targetLevel := val, changeSpeed := speed, delayMS := delay }] }, s.2)]
  else [fun s => (s.1, { s.2 with nullStored := true })]) ++
  [fun s => (s.1, restoreSREG hw.SREG_I s.2)]

/-- The state after a sequence of interrupts with no foreground call between
them: `true` stands for an invocation of `faderISR()`, `false` for one of
`pwmISR()`. -/
def isrTicks (b : Board) (alloc : Bool) : List Bool → System → System
  | [], sys => sys
  | true :: rest, sys => isrTicks b alloc rest (smoothLED.faderISR b alloc sys)
  | false :: rest, sys => isrTicks b alloc rest (smoothLED.pwmISR sys)

/-- The wording of the specification for `setNow(val, speed, delay)`:
`set(val, speed, delay)` applied to the state with the queue emptied,
`_waitTime` zeroed and `_currentLevel` replaced by `_targetLevel`. -/
def specSetNow (b : Board) (alloc : Bool) (val speed delay : Nat) (led : smoothLED)
    (hw : Hardware) : smoothLED × Hardware :=
  smoothLED.set b alloc val speed delay
    { led with _nextSet := [], _waitTime := 0, _currentLevel := led._targetLevel } hw

/-- The value that `faderISR()` writes to the PWM register of a channel in
hardware mode with the flags `flags` and the corrected level `cie`:
`cie`, or `255 - cie` with `INVERT_LED`, times 4 for a pin of TIMER1. -/
def driveValue (flags cie : Nat) : Nat :=
  if flags &&& INVERT_LED ≠ 0 then
    if flags &&& TIMER1_PIN ≠ 0 then (255 - cie) * 4 else 255 - cie
  else
    if flags &&& TIMER1_PIN ≠ 0 then cie * 4 else cie

/-! ## Example states -/

/-- One initialised software PWM channel on port address 37, bit 5, idle at
level 0, as `begin()` leaves a pin that is not on a timer. -/
def exampleLED : smoothLED :=
  { _flags := 4, _portRegister := some 37, _registerBitMask := 32 }

/-- The channel `exampleLED` holding at level 10 for one more millisecond,
with the command `set(20, 0, 0)` stored. -/
def exampleBusyLED : smoothLED :=
  { exampleLED with _currentLevel := 10, _targetLevel := 10, _waitTime := 1,
                    _nextSet := [{ targetLevel := 20, changeSpeed := 0, delayMS := 0 }] }

/-- A software PWM channel on port address 37, bit 4, with the corrected
level 100. -/
def examplePwmLED : smoothLED :=
  { _flags := 12, _portRegister := some 37, _registerBitMask := 16, _currentLevel := 181,
    _targetLevel := 181, _currentCIE := 100 }

/-- The channel `exampleLED` as `faderISR()` leaves it at level 255: the
active-PWM flag clear, the corrected level `kcie[255]`, the pin driven on. -/
def exampleFullOnLED : smoothLED :=
  { exampleLED with _currentLevel := 255, _targetLevel := 255, _currentCIE := 236 }

/-- Two software PWM channels on the pins 5 and 4 of port address 37 after
`set(255, 0, 0)` on the first, `set(181, 0, 0)` on the second and one
invocation of `faderISR()`. -/
def exampleTwoLEDs : System :=
  smoothLED.faderISR {} true
    (System.call 1 (smoothLED.set {} true 181 0 0)
      (System.call 0 (smoothLED.set {} true 255 0 0)
        { _firstLink := [exampleLED, { exampleLED with _registerBitMask := 16 }] }))

/-- A registry of three channels, the second with a stored command, with
both ticks enabled. -/
def exampleThree : System :=
  { _firstLink := [exampleLED, exampleBusyLED, examplePwmLED],
    hw := { OCIE0A := true, TOIE1 := true } }

/-- A registry that holds `exampleLED` only. -/
def exampleSystem : System := { _firstLink := [exampleLED] }

/-- The state of `exampleSystem` after `set(10, 0, 1)`, `set(20, 0, 0)` and
one invocation of `faderISR()`. -/
def exampleQueuedSystem : System :=
  smoothLED.faderISR {} true
    ((exampleSystem.call 0 (smoothLED.set {} true 10 0 1)).call 0 (smoothLED.set {} true 20 0 0))

/-- A registry with the channel `exampleLED`, which has no work, and both
ticks enabled. -/
def exampleRestSystem : System :=
  { _firstLink := [exampleLED], hw := { OCIE0A := true, TOIE1 := true } }

/-- A registry with one channel that holds its level for one more
millisecond and has nothing stored, and both ticks enabled. -/
def exampleHoldSystem : System :=
  { _firstLink := [{ exampleLED with _waitTime := 1 }],
    hw := { OCIE0A := true, TOIE1 := true } }

/-- A channel on bit 4 that is idle at level 0 with the command
`set(20, 0, 0)` stored. -/
def exampleReadyLED : smoothLED :=
  { exampleLED with _registerBitMask := 16,
                    _nextSet := [{ targetLevel := 20, changeSpeed := 0, delayMS := 0 }] }

/-- A channel on bit 3 that holds level 181 for three more milliseconds. -/
def exampleWaitingLED : smoothLED :=
  { examplePwmLED with _registerBitMask := 8, _waitTime := 3 }

/-- A registry of three channels with both ticks enabled: the first holds,
the second is idle with a stored command, the third holds. -/
def examplePopSystem : System :=
  { _firstLink := [exampleBusyLED, exampleReadyLED, exampleWaitingLED],
    hw := { OCIE0A := true, TOIE1 := true } }

/-- A software PWM channel at level 181 with the active-PWM flag set, idle,
with the command `set(0, 0, 0)` stored. -/
def exampleDimmingLED : smoothLED :=
  { examplePwmLED with _nextSet := [{ targetLevel := 0, changeSpeed := 0, delayMS := 0 }] }

/-- A hardware PWM channel on the timer channel 3 (`TIMER1A`, compare
register at address 136), bit 1 of port address 37, idle at level 0 with the
command `set(20, 0, 0)` stored. -/
def exampleTimerLED : smoothLED :=
  { _flags := 16, _portRegister := some 37, _registerBitMask := 2, _timerPWMPin := 3,
    _PWMRegister := some 136,
    _nextSet := [{ targetLevel := 20, changeSpeed := 0, delayMS := 0 }] }

/-- Two freshly constructed instances after `begin(13)` on the first and
`begin(12)` on the second, both successful. -/
def exampleTwoBegun : System :=
  (smoothLED.begin {} true 1 12 0
    (smoothLED.begin {} true 0 13 0 (smoothLED.constructor (smoothLED.constructor {}))).2).2

/-- Registers with every bit of every PORTn register set. -/
def exampleHighPorts : Hardware := { port := fun _ => 255 }

/-- A registry with the channel `exampleDimmingLED` and every port bit set. -/
def exampleDimmingSystem : System :=
  { _firstLink := [exampleDimmingLED], hw := exampleHighPorts }

theorem driveFrame_refl (p : smoothLED) : DriveFrame p p :=
  ⟨rfl, rfl, rfl, rfl, rfl, rfl, rfl, rfl, rfl, rfl⟩

theorem driveFrame_trans {p q r : smoothLED} (h1 : DriveFrame p q) (h2 : DriveFrame q r) :
    DriveFrame p r := by
  obtain ⟨a1, a2, a3, a4, a5, a6, a7, a8, a9, a10⟩ := h1
  obtain ⟨b1, b2, b3, b4, b5, b6, b7, b8, b9, b10⟩ := h2
  exact ⟨b1.trans a1, b2.trans a2, b3.trans a3, b4.trans a4, b5.trans a5, b6.trans a6,
    b7.trans a7, b8.trans a8, b9.trans a9, b10.trans a10⟩

/-- `switchHardwarePWM` changes no member of the instance but `_flags`. -/
theorem switchHardwarePWM_frame (b : Board) (state : Bool) (p : smoothLED) (hw : Hardware) :
    DriveFrame p (p.switchHardwarePWM b state hw).1 := by
  unfold smoothLED.switchHardwarePWM
  split_ifs <;> exact driveFrame_refl p

/-- The instance that the drive step returns, by branch. -/
theorem output_cases (b : Board) (p : smoothLED) (hw : Hardware) :
    (smoothLED.faderISR.output b p hw).1 =
        (smoothLED.switchHardwarePWM b false
          { p with _flags := p._flags &&& (255 ^^^ PWM_ACTIVE) } hw).1 ∨
    (smoothLED.faderISR.output b p hw).1 =
        (smoothLED.switchHardwarePWM b true { p with _flags := p._flags ||| PWM_ACTIVE } hw).1 ∨
    (smoothLED.faderISR.output b p hw).1 = { p with _flags := p._flags ||| PWM_ACTIVE } := by
  unfold smoothLED.faderISR.output
  dsimp only
  split_ifs
  all_goals first
    | exact Or.inl rfl
    | exact Or.inr (Or.inl rfl)
    | exact Or.inr (Or.inr rfl)

/-- The drive step changes no member but `_flags`. -/
theorem output_frame (b : Board) (p : smoothLED) (hw : Hardware) :
    DriveFrame p (smoothLED.faderISR.output b p hw).1 := by
  rcases output_cases b p hw with h | h | h <;> rw [h]
  · exact driveFrame_trans (q := { p with _flags := p._flags &&& (255 ^^^ PWM_ACTIVE) })
      (driveFrame_refl p) (switchHardwarePWM_frame b false _ hw)
  · exact driveFrame_trans (q := { p with _flags := p._flags ||| PWM_ACTIVE })
      (driveFrame_refl p) (switchHardwarePWM_frame b true _ hw)
  · exact driveFrame_refl p

/-- The CIE step changes no member but `_currentCIE`. -/
theorem cie_frame (p : smoothLED) : DriveFrame p (smoothLED.faderISR.cie p) := by
  unfold smoothLED.faderISR.cie
  split_ifs <;> exact driveFrame_refl p

/-- The second half of the loop body changes `_flags` and `_currentCIE` only. -/
theorem drive_frame (b : Board) (p : smoothLED) (st : FaderState) :
    DriveFrame p (smoothLED.faderISR.drive b p st).1 :=
  driveFrame_trans (cie_frame p) (output_frame b _ st.hw)

/-- The fade step leaves queue, target, pace and hold alone. -/
theorem fade_frame (p : smoothLED) :
    (smoothLED.faderISR.fade p)._nextSet = p._nextSet ∧
    (smoothLED.faderISR.fade p)._targetLevel = p._targetLevel ∧
    (smoothLED.faderISR.fade p)._changeDelays = p._changeDelays ∧
    (smoothLED.faderISR.fade p)._waitTime = p._waitTime := by
  simp only [smoothLED.faderISR.fade]
  split_ifs <;> exact ⟨rfl, rfl, rfl, rfl⟩

theorem tickStep_refl (b : Board) (p : smoothLED) : TickStep b p p :=
  Or.inl ⟨rfl, rfl, rfl, le_refl _⟩

/-- On an idle instance the result of `set` depends neither on the allocator
nor on the registers. -/
theorem set_idle_led (b : Board) (alloc alloc' : Bool) (val speed delay : Nat)
    (p : smoothLED) (hw hw' : Hardware) (h : p.idle) :
    (p.set b alloc val speed delay hw).1 = (p.set b alloc' val speed delay hw').1 := by
  obtain ⟨h1, h2⟩ := h
  simp [smoothLED.set, h1, h2]

/-- One pass of the loop body is a `TickStep`. -/
theorem body_tickStep (b : Board) (alloc : Bool) (p : smoothLED) (st : FaderState) :
    TickStep b p (smoothLED.faderISR.body b alloc p st).1 := by
  unfold smoothLED.faderISR.body
  split_ifs with h0 h1 h2
  · exact tickStep_refl b p
  · left
    obtain ⟨_, _, _, _, _, d6, d7, d8, _, d10⟩ :=
      drive_frame b (smoothLED.faderISR.fade p) { st with turnFadeOff := false }
    obtain ⟨f1, f2, f3, f4⟩ := fade_frame p
    exact ⟨d10.trans f1, d7.trans f2, d8.trans f3, le_of_eq (d6.trans f4)⟩
  · left
    obtain ⟨_, _, _, _, _, d6, d7, d8, _, d10⟩ :=
      drive_frame b { p with _waitTime := p._waitTime - 1 } { st with turnFadeOff := false }
    exact ⟨d10, d7, d8, d6.trans_le (Nat.sub_le _ _)⟩
  · split
    · rename_i tmpPtr rest hq
      right
      have hidle : p.idle := ⟨not_not.mp h1, not_not.mp h2⟩
      refine ⟨tmpPtr, rest, hq, hidle, ?_⟩
      intro alloc' hw'
      dsimp only
      rw [set_idle_led b alloc alloc' _ _ _ p st.hw hw' hidle]
      have hq' : (p.set b alloc' tmpPtr.targetLevel tmpPtr.changeSpeed tmpPtr.delayMS
          hw').1._nextSet = tmpPtr :: rest := by
        obtain ⟨h1, h2⟩ := hidle
        by_cases hs : tmpPtr.changeSpeed = 0 <;> simp [smoothLED.set, h1, h2, hs, hq]
      rw [hq']
      rfl
    · left
      obtain ⟨_, _, _, _, _, d6, d7, d8, _, d10⟩ := drive_frame b p st
      exact ⟨d10, d7, d8, le_of_eq d6⟩

/-- Every instance of the registry makes a `TickStep` in the loop (the
instances behind a `break` stay as they are). -/
theorem loop_tickStep (b : Board) (alloc : Bool) :
    ∀ (l : List smoothLED) (st : FaderState) (i : Nat) (p : smoothLED), l[i]? = some p →
      ∃ p', (smoothLED.faderISR.loop b alloc l st).1[i]? = some p' ∧ TickStep b p p'
  | [], _, _, _, h => by simp at h
  | q :: rest, st, 0, p, h => by
    simp only [List.getElem?_cons_zero, Option.some.injEq] at h
    subst h
    unfold smoothLED.faderISR.loop
    dsimp only
    split_ifs <;> exact ⟨_, by simp, body_tickStep b alloc q st⟩
  | q :: rest, st, i + 1, p, h => by
    simp only [List.getElem?_cons_succ] at h
    unfold smoothLED.faderISR.loop
    dsimp only
    split_ifs
    · exact ⟨p, by simpa using h, tickStep_refl b p⟩
    · obtain ⟨p', hp', hstep⟩ := loop_tickStep b alloc rest
        (smoothLED.faderISR.body b alloc q st).2.1 i p h
      exact ⟨p', by simpa using hp', hstep⟩

/-- Every instance of the registry makes a `TickStep` in `faderISR()`. -/
theorem faderISR_tickStep (b : Board) (alloc : Bool) (sys : System) (i : Nat) (p : smoothLED)
    (h : sys._firstLink[i]? = some p) :
    ∃ p', (smoothLED.faderISR b alloc sys)._firstLink[i]? = some p' ∧ TickStep b p p' := by
  unfold smoothLED.faderISR
  exact loop_tickStep b alloc sys._firstLink _ i p h

/-- The instance at position `i` after a call of `f` on it. -/
theorem call_getElem (sys : System) (i : Nat) (f : smoothLED → Hardware → smoothLED × Hardware)
    (led : smoothLED) (h : sys._firstLink[i]? = some led) :
    (sys.call i f)._firstLink[i]? = some (f led sys.hw).1 := by
  have hi : i < sys._firstLink.length := by
    rcases List.getElem?_eq_some.mp h with ⟨hi, _⟩
    exact hi
  simp [System.call, h, hi]

/-- On a fading or holding instance `set` links the command to the queue and
does nothing else. -/
theorem set_busy_led (b : Board) (led : smoothLED) (hw : Hardware) (cmd : setStructure)
    (hbusy : ¬ led.idle) :
    led.set b true cmd.targetLevel cmd.changeSpeed cmd.delayMS hw = (led.enqueue cmd, hw) := by
  have h : ¬ (led._currentLevel = led._targetLevel ∧ led._waitTime = 0) := hbusy
  simp [smoothLED.set, smoothLED.enqueue, h, cli, restoreSREG]

theorem enqueue_idle (led : smoothLED) (cmd : setStructure) (hbusy : ¬ led.idle) :
    ¬ (led.enqueue cmd).idle := hbusy

theorem call_set_busy (b : Board) (sys : System) (i : Nat) (led : smoothLED)
    (cmd : setStructure) (h : sys._firstLink[i]? = some led) (hbusy : ¬ led.idle) :
    (sys.call i (smoothLED.set b true cmd.targetLevel cmd.changeSpeed
      cmd.delayMS))._firstLink[i]? = some (led.enqueue cmd) := by
  rw [call_getElem sys i _ led h, set_busy_led b led sys.hw cmd hbusy]

/-- The members that `set` writes on an idle instance. -/
theorem set_idle_fields (b : Board) (alloc : Bool) (led : smoothLED) (hw : Hardware)
    (val speed delay : Nat) (hidle : led.idle) :
    (led.set b alloc val speed delay hw).1._nextSet = led._nextSet ∧
    (led.set b alloc val speed delay hw).1._targetLevel = val ∧
    (led.set b alloc val speed delay hw).1._waitTime = delay ∧
    (speed = 0 → (led.set b alloc val speed delay hw).1._currentLevel = val) ∧
    (speed ≠ 0 → (led.set b alloc val speed delay hw).1._currentLevel = led._currentLevel) := by
  obtain ⟨h1, h2⟩ := hidle
  by_cases hs : speed = 0 <;> simp [smoothLED.set, h1, h2, hs]

/-- The registry keeps its instances under `faderISR()`. -/
theorem faderTicks_getElem (b : Board) (alloc : Bool) (sys : System) (i : Nat) (led : smoothLED)
    (h : sys._firstLink[i]? = some led) :
    ∀ n, ∃ p, (faderTicks b alloc n sys)._firstLink[i]? = some p
  | 0 => ⟨led, h⟩
  | n + 1 => by
    obtain ⟨p, hp⟩ := faderTicks_getElem b alloc sys i led h n
    obtain ⟨p', hp', _⟩ := faderISR_tickStep b alloc (faderTicks b alloc n sys) i p hp
    exact ⟨p', hp'⟩

/-! ## Lemmas: progress of the fade tick -/

theorem tickerWait_le (t : Int) : tickerWait t ≤ 257 := by
  unfold tickerWait toInt16
  split_ifs <;> omega

/-- A fade step lowers `busyTime`. -/
theorem fade_progress (p : smoothLED) (h : p._currentLevel ≠ p._targetLevel) :
    busyTime (smoothLED.faderISR.fade p) < busyTime p := by
  have hb := tickerWait_le (toInt16 (toInt16 (p._changeTicker - 128) + (p._changeDelays : Int)))
  unfold smoothLED.faderISR.fade
  dsimp only
  split_ifs with h1 h2
  · simp only [busyTime, levelDelta, h, if_false]
    have : 1 ≤ tickerWait p._changeTicker := by unfold tickerWait; omega
    split_ifs <;> omega
  · simp only [busyTime, levelDelta, h, if_false]
    have : 1 ≤ tickerWait p._changeTicker := by unfold tickerWait; omega
    split_ifs <;> omega
  · simp only [busyTime, h, if_false]
    have : tickerWait (toInt16 (p._changeTicker - 128)) < tickerWait p._changeTicker := by
      unfold tickerWait
      have h3 : toInt16 (toInt16 (p._changeTicker - 128) - 128) =
          toInt16 (p._changeTicker - 128) - 128 := by
        unfold toInt16 at h1 ⊢
        omega
      rw [h3]
      simp only [h1, if_false]
      split_ifs <;> omega
    omega

/-- The loop body never changes `_portRegister`. -/
theorem body_portRegister (b : Board) (alloc : Bool) (p : smoothLED) (st : FaderState) :
    (smoothLED.faderISR.body b alloc p st).1._portRegister = p._portRegister := by
  unfold smoothLED.faderISR.body
  split_ifs with h0 h1 h2
  · rfl
  · have hf : (smoothLED.faderISR.fade p)._portRegister = p._portRegister := by
      unfold smoothLED.faderISR.fade
      dsimp only
      split_ifs <;> rfl
    exact (drive_frame b _ _).1.trans hf
  · exact (drive_frame b _ _).1
  · split
    · dsimp only
      unfold smoothLED.set
      dsimp only
      split_ifs <;> rfl
    · exact (drive_frame b _ _).1

theorem busyTime_frame {p q : smoothLED} (h : DriveFrame p q) : busyTime q = busyTime p := by
  obtain ⟨_, _, _, _, d5, d6, d7, _, d9, _⟩ := h
  unfold busyTime
  rw [d5, d6, d7, d9]

/-- A pass of the loop body over an initialised instance with a stored
command lowers `busyTime` or pops a command. -/
theorem body_progress (b : Board) (alloc : Bool) (p : smoothLED) (st : FaderState)
    (hinit : p._portRegister ≠ none) (hq : p._nextSet ≠ []) :
    ((smoothLED.faderISR.body b alloc p st).1._nextSet = p._nextSet ∧
      busyTime (smoothLED.faderISR.body b alloc p st).1 < busyTime p) ∨
    (smoothLED.faderISR.body b alloc p st).1._nextSet.length < p._nextSet.length := by
  by_cases h1 : p._currentLevel ≠ p._targetLevel
  · left
    have hb : (smoothLED.faderISR.body b alloc p st).1 =
        (smoothLED.faderISR.drive b (smoothLED.faderISR.fade p)
          { st with turnFadeOff := false }).1 := by
      unfold smoothLED.faderISR.body
      rw [if_neg hinit, if_pos h1]
    rw [hb, busyTime_frame (drive_frame b _ _)]
    exact ⟨(drive_frame b _ _).2.2.2.2.2.2.2.2.2.trans (fade_frame p).1, fade_progress p h1⟩
  · by_cases h2 : p._waitTime ≠ 0
    · left
      have hb : (smoothLED.faderISR.body b alloc p st).1 =
          (smoothLED.faderISR.drive b { p with _waitTime := p._waitTime - 1 }
            { st with turnFadeOff := false }).1 := by
        unfold smoothLED.faderISR.body
        rw [if_neg hinit, if_neg h1, if_pos h2]
      rw [hb, busyTime_frame (drive_frame b _ _)]
      refine ⟨(drive_frame b _ _).2.2.2.2.2.2.2.2.2, ?_⟩
      have h1' : p._currentLevel = p._targetLevel := not_not.mp h1
      simp only [busyTime, h1', if_true]
      omega
    · right
      rcases body_tickStep b alloc p st with ⟨s1, _, _, _⟩ | ⟨cmd, rest, hcons, _, heq⟩
      · exfalso
        obtain ⟨cmd, rest, hcons⟩ := List.exists_cons_of_ne_nil hq
        have hidle : p.idle := ⟨not_not.mp h1, not_not.mp h2⟩
        have hs := (set_idle_fields b alloc p st.hw cmd.targetLevel cmd.changeSpeed
          cmd.delayMS hidle).1
        unfold smoothLED.faderISR.body at s1
        rw [if_neg hinit, if_neg h1, if_neg h2] at s1
        simp only [hcons] at s1
        rw [hs, hcons] at s1
        simp at s1
      · rw [heq true {}, hcons]
        simp

/-- The loop body never lengthens the queue, and shortens it when it leaves
the loop with `break`. -/
theorem body_queue_le (b : Board) (alloc : Bool) (p : smoothLED) (st : FaderState) :
    (smoothLED.faderISR.body b alloc p st).1._nextSet.length ≤ p._nextSet.length ∧
    ((smoothLED.faderISR.body b alloc p st).2.2 = true →
      (smoothLED.faderISR.body b alloc p st).1._nextSet.length < p._nextSet.length) := by
  constructor
  · rcases body_tickStep b alloc p st with ⟨s1, _⟩ | ⟨cmd, rest, hcons, _, heq⟩
    · exact le_of_eq (congrArg List.length s1)
    · rw [heq true {}, hcons]
      simp
  · unfold smoothLED.faderISR.body
    split_ifs with h0 h1 h2
    · simp
    · simp
    · simp
    · split
      · rename_i tmpPtr rest hcons
        intro _
        have hidle : p.idle := ⟨not_not.mp h1, not_not.mp h2⟩
        have := (set_idle_fields b alloc p st.hw tmpPtr.targetLevel tmpPtr.changeSpeed
          tmpPtr.delayMS hidle).1
        dsimp only
        rw [this, hcons]
        simp
      · simp

theorem queuedBefore_cons (q : smoothLED) (rest : List smoothLED) (i : Nat) :
    queuedBefore (q :: rest) (i + 1) = q._nextSet.length + queuedBefore rest i := by
  simp [queuedBefore]

/-- In one run of the loop the instance at position `i` is either processed
by the loop body, or an instance before it has popped a command. -/
theorem loop_progress (b : Board) (alloc : Bool) :
    ∀ (l : List smoothLED) (st : FaderState) (i : Nat) (p : smoothLED), l[i]? = some p →
      ∃ p', (smoothLED.faderISR.loop b alloc l st).1[i]? = some p' ∧
        queuedBefore (smoothLED.faderISR.loop b alloc l st).1 i ≤ queuedBefore l i ∧
        ((∃ st', p' = (smoothLED.faderISR.body b alloc p st').1) ∨
         (p' = p ∧ queuedBefore (smoothLED.faderISR.loop b alloc l st).1 i < queuedBefore l i))
  | [], _, _, _, h => by simp at h
  | q :: rest, st, 0, p, h => by
    simp only [List.getElem?_cons_zero, Option.some.injEq] at h
    subst h
    refine ⟨(smoothLED.faderISR.body b alloc q st).1, ?_, by simp [queuedBefore],
      Or.inl ⟨st, rfl⟩⟩
    unfold smoothLED.faderISR.loop
    dsimp only
    split_ifs <;> simp
  | q :: rest, st, i + 1, p, h => by
    simp only [List.getElem?_cons_succ] at h
    obtain ⟨hle, hlt⟩ := body_queue_le b alloc q st
    unfold smoothLED.faderISR.loop
    dsimp only
    split_ifs with hbr
    · refine ⟨p, by simpa using h, ?_, Or.inr ⟨rfl, ?_⟩⟩
      · rw [queuedBefore_cons, queuedBefore_cons]
        omega
      · rw [queuedBefore_cons, queuedBefore_cons]
        have := hlt hbr
        omega
    · obtain ⟨p', hp', hsum, hcase⟩ := loop_progress b alloc rest
        (smoothLED.faderISR.body b alloc q st).2.1 i p h
      refine ⟨p', by simpa using hp', ?_, ?_⟩
      · rw [queuedBefore_cons, queuedBefore_cons]
        omega
      · rcases hcase with hc | ⟨hc1, hc2⟩
        · exact Or.inl hc
        · refine Or.inr ⟨hc1, ?_⟩
          rw [queuedBefore_cons, queuedBefore_cons]
          omega

theorem faderTicks_shift (b : Board) (alloc : Bool) (sys : System) :
    ∀ n, faderTicks b alloc n (smoothLED.faderISR b alloc sys) = faderTicks b alloc (n + 1) sys
  | 0 => rfl
  | n + 1 => by
    show smoothLED.faderISR b alloc (faderTicks b alloc n (smoothLED.faderISR b alloc sys)) = _
    rw [faderTicks_shift b alloc sys n]
    rfl

/-- An initialised instance with a stored command pops a command after
finitely many invocations of `faderISR()`. -/
theorem eventually_shorter (b : Board) (alloc : Bool) (i : Nat) :
    ∀ (m1 m2 : Nat) (sys : System) (p : smoothLED), sys._firstLink[i]? = some p →
      p._portRegister ≠ none → p._nextSet ≠ [] →
      queuedBefore sys._firstLink i = m1 → busyTime p = m2 →
      ∃ n p', (faderTicks b alloc n sys)._firstLink[i]? = some p' ∧
        p'._portRegister ≠ none ∧ p'._nextSet.length < p._nextSet.length := by
  intro m1
  induction m1 using Nat.strong_induction_on with
  | _ m1 ih1 =>
    intro m2
    induction m2 using Nat.strong_induction_on with
    | _ m2 ih2 =>
      intro sys p hp hinit hq hm1 hm2
      obtain ⟨p1, hp1, hsum, hcase⟩ := loop_progress b alloc sys._firstLink
        { hw := sys.hw, turnPWMoff := true, turnFadeOff := true } i p hp
      have hp1' : (smoothLED.faderISR b alloc sys)._firstLink[i]? = some p1 := hp1
      have hsum' : queuedBefore (smoothLED.faderISR b alloc sys)._firstLink i ≤ m1 :=
        hm1 ▸ hsum
      rcases hcase with ⟨st', hbody⟩ | ⟨hsame, hlt⟩
      · have hinit1 : p1._portRegister ≠ none := by
          rw [hbody, body_portRegister]; exact hinit
        rcases body_progress b alloc p st' hinit hq with ⟨hq1, hbt⟩ | hpop
        · rw [← hbody] at hq1 hbt
          have hq1' : p1._nextSet ≠ [] := by rw [hq1]; exact hq
          have hrec : ∃ n p', (faderTicks b alloc n
              (smoothLED.faderISR b alloc sys))._firstLink[i]? = some p' ∧
              p'._portRegister ≠ none ∧ p'._nextSet.length < p1._nextSet.length := by
            rcases Nat.lt_or_eq_of_le hsum' with hlt | heq
            · exact ih1 _ hlt _ _ p1 hp1' hinit1 hq1' rfl rfl
            · exact ih2 _ (hm2 ▸ hbt) _ p1 hp1' hinit1 hq1' heq rfl
          obtain ⟨n, p', hn, hi', hl'⟩ := hrec
          rw [faderTicks_shift] at hn
          exact ⟨n + 1, p', hn, hi', by rw [hq1] at hl'; exact hl'⟩
        · exact ⟨1, p1, hp1', hinit1, by rw [hbody]; exact hpop⟩
      · have hlt' : queuedBefore (smoothLED.faderISR b alloc sys)._firstLink i < m1 :=
          hm1 ▸ hlt
        obtain ⟨n, p', hn, hi', hl'⟩ := ih1 _ hlt' _ _ p1 hp1' (hsame ▸ hinit)
          (hsame ▸ hq) rfl rfl
        rw [faderTicks_shift] at hn
        exact ⟨n + 1, p', hn, hi', by rw [hsame] at hl'; exact hl'⟩

theorem faderTicks_add (b : Board) (alloc : Bool) (sys : System) (m : Nat) :
    ∀ n, faderTicks b alloc n (faderTicks b alloc m sys) = faderTicks b alloc (m + n) sys
  | 0 => rfl
  | n + 1 => by
    show smoothLED.faderISR b alloc (faderTicks b alloc n (faderTicks b alloc m sys)) = _
    rw [faderTicks_add b alloc sys m n]
    rfl

/-- The queue of an initialised instance is empty after finitely many
invocations of `faderISR()`. -/
theorem eventually_empty (b : Board) (alloc : Bool) (i : Nat) :
    ∀ (k : Nat) (sys : System) (p : smoothLED), sys._firstLink[i]? = some p →
      p._portRegister ≠ none → p._nextSet.length = k →
      ∃ n p', (faderTicks b alloc n sys)._firstLink[i]? = some p' ∧ p'._nextSet = [] := by
  intro k
  induction k using Nat.strong_induction_on with
  | _ k ih =>
    intro sys p hp hinit hk
    by_cases hq : p._nextSet = []
    · exact ⟨0, p, hp, hq⟩
    · obtain ⟨n, p', hn, hi', hl'⟩ := eventually_shorter b alloc i _ _ sys p hp hinit hq rfl rfl
      obtain ⟨n', p'', hn', hq''⟩ := ih _ (hk ▸ hl') _ p' hn hi' rfl
      rw [faderTicks_add] at hn'
      exact ⟨n + n', p'', hn', hq''⟩

/-! ## Lemmas: a sequence of queues that loses its head now and then -/

/-- If the queue is `c :: rest` at step `n0` and empty at step `N`, some step
in between removes `c`. -/
theorem next_pop {α : Type} (f : Nat → List α)
    (hstep : ∀ n, f (n + 1) = f n ∨ ∃ c rest, f n = c :: rest ∧ f (n + 1) = rest)
    (N : Nat) (hN : f N = []) (c : α) (rest : List α) :
    ∀ (d n0 : Nat), N = n0 + d → f n0 = c :: rest →
      ∃ n, n0 ≤ n ∧ n < N ∧ f n = c :: rest ∧ f (n + 1) = rest
  | 0, n0, hd, h0 => by
    have : N = n0 := by omega
    rw [this, h0] at hN
    exact absurd hN (by simp)
  | d + 1, n0, hd, h0 => by
    rcases hstep n0 with hs | ⟨c', rest', hc, hs⟩
    · obtain ⟨n, h1, h2, h3, h4⟩ := next_pop f hstep N hN c rest d (n0 + 1) (by omega)
        (hs.trans h0)
      exact ⟨n, by omega, h2, h3, h4⟩
    · rw [h0] at hc
      simp only [List.cons.injEq] at hc
      exact ⟨n0, le_refl _, by omega, h0, by rw [hs, hc.2]⟩

/-- If the queue is `pre ++ s` at step `n0` and empty at step `N`, it is `s` at
some step in between. -/
theorem drain_front {α : Type} (f : Nat → List α)
    (hstep : ∀ n, f (n + 1) = f n ∨ ∃ c rest, f n = c :: rest ∧ f (n + 1) = rest)
    (N : Nat) (hN : f N = []) (s : List α) :
    ∀ (pre : List α) (n0 : Nat), n0 ≤ N → f n0 = pre ++ s →
      ∃ n1, n0 ≤ n1 ∧ n1 ≤ N ∧ f n1 = s
  | [], n0, hle, h0 => ⟨n0, le_refl _, hle, by simpa using h0⟩
  | c :: pre, n0, hle, h0 => by
    obtain ⟨n, h1, h2, _, h4⟩ := next_pop f hstep N hN c (pre ++ s) (N - n0) n0 (by omega)
      (by simpa using h0)
    obtain ⟨n1, h5, h6, h7⟩ := drain_front f hstep N hN s pre (n + 1) (by omega) h4
    exact ⟨n1, by omega, h6, h7⟩

/-! ## Lemmas: the queue of one instance, tick by tick -/

/-- One invocation of `faderISR()` leaves queue and target of an instance
alone or pops the head of its queue. -/
theorem tick_cases (b : Board) (alloc : Bool) (sys : System) (i n : Nat) (p : smoothLED)
    (hp : (faderTicks b alloc n sys)._firstLink[i]? = some p) :
    ∃ p', (faderTicks b alloc (n + 1) sys)._firstLink[i]? = some p' ∧
      ((p'._nextSet = p._nextSet ∧ p'._targetLevel = p._targetLevel) ∨
       ∃ cmd rest, PoppedAt b alloc sys i n cmd rest) := by
  obtain ⟨p', hp', hstep⟩ := faderISR_tickStep b alloc _ i p hp
  refine ⟨p', hp', ?_⟩
  rcases hstep with ⟨s1, s2, _⟩ | ⟨cmd, rest, hcons, hidle, heq⟩
  · exact Or.inl ⟨s1, s2⟩
  · right
    obtain ⟨_, f2, f3, f4, f5⟩ :=
      set_idle_fields b true p {} cmd.targetLevel cmd.changeSpeed cmd.delayMS hidle
    refine ⟨cmd, rest, p, p', hp, hp', hcons, hidle.1, hidle.2, ?_, ?_, ?_, ?_, ?_, heq⟩
    · rw [heq true {}]
    · rw [heq true {}]; exact f2
    · rw [heq true {}]; exact f3
    · intro hs; rw [heq true {}]; exact f4 hs
    · intro hs; rw [heq true {}]; exact f5 hs

/-- An invocation that turns the queue `cmd :: rest` into `rest` has popped
`cmd`. -/
theorem poppedAt_of_queue (b : Board) (alloc : Bool) (sys : System) (i n : Nat)
    (cmd : setStructure) (rest : List setStructure) (p p' : smoothLED)
    (hp : (faderTicks b alloc n sys)._firstLink[i]? = some p)
    (hp' : (faderTicks b alloc (n + 1) sys)._firstLink[i]? = some p')
    (hq : p._nextSet = cmd :: rest) (hq' : p'._nextSet = rest) :
    PoppedAt b alloc sys i n cmd rest := by
  obtain ⟨p'', hp'', hcase⟩ := tick_cases b alloc sys i n p hp
  rw [hp'] at hp''
  simp only [Option.some.injEq] at hp''
  subst hp''
  rcases hcase with ⟨s1, _⟩ | ⟨cmd', rest', hpop⟩
  · rw [hq, hq'] at s1
    exact absurd (congrArg List.length s1) (by simp)
  · obtain ⟨q, q', h1, h2, h3, h4⟩ := hpop
    rw [hp] at h1
    rw [hp'] at h2
    simp only [Option.some.injEq] at h1 h2
    subst h1 h2
    rw [hq] at h3
    simp only [List.cons.injEq] at h3
    obtain ⟨hc, hr⟩ := h3
    subst hc hr
    exact ⟨p, p', hp, hp', hq, h4⟩

/-! ## Theorems: `set()` -/

/-- C1: on an idle channel `set(val, 0, delay)` sets `_targetLevel = val`,
`_currentLevel = val` and `_waitTime = delay`, leaves the pending queue (and
every other member) unchanged, and enables the fade tick and the PWM tick. -/
theorem C1_set_immediate (b : Board) (alloc : Bool) (led : smoothLED) (hw : Hardware)
    (val delay : Nat) (hidle : led.idle) :
    (led.set b alloc val 0 delay hw).1._targetLevel = val ∧
    (led.set b alloc val 0 delay hw).1._currentLevel = val ∧
    (led.set b alloc val 0 delay hw).1._waitTime = delay ∧
    (led.set b alloc val 0 delay hw).1._nextSet = led._nextSet ∧
    (led.set b alloc val 0 delay hw).2.OCIE0A = true ∧
    (led.set b alloc val 0 delay hw).2.TOIE1 = true ∧
    (led.set b alloc val 0 delay hw).1 =
      { led with _targetLevel := val, _currentLevel := val, _waitTime := delay } ∧
    (led.set b alloc val 0 delay hw).2 = { hw with OCIE0A := true, TOIE1 := true } := by
  obtain ⟨h1, h2⟩ := hidle
  simp [smoothLED.set, h1, h2, cli, restoreSREG, pwmTimerOn, fadeTimerOn]

/-- Witness of C1: `set(200, 0, 50)` on an idle channel at level 0. -/
theorem C1_set_immediate_witness :
    (exampleLED.set {} true 200 0 50 {}).1._targetLevel = 200 ∧
    (exampleLED.set {} true 200 0 50 {}).1._currentLevel = 200 ∧
    (exampleLED.set {} true 200 0 50 {}).1._waitTime = 50 ∧
    (exampleLED.set {} true 200 0 50 {}).1._nextSet = exampleLED._nextSet ∧
    (exampleLED.set {} true 200 0 50 {}).2.OCIE0A = true ∧
    (exampleLED.set {} true 200 0 50 {}).2.TOIE1 = true ∧
    (exampleLED.set {} true 200 0 50 {}).1 =
      { exampleLED with _targetLevel := 200, _currentLevel := 200, _waitTime := 50 } ∧
    (exampleLED.set {} true 200 0 50 {}).2 =
      { ({} : Hardware) with OCIE0A := true, TOIE1 := true } :=
  C1_set_immediate {} true exampleLED {} 200 50 (by decide)

/-- Counterexample to C2 as worded: from level 0, `set(3, 4, 0)` has
`delta = 3` and `4 * 128 / 3 = 170.67`; the code stores 170 (the quotient
truncated), the nearest integer is 171. -/
theorem C2_round_counterexample :
    exampleLED.idle ∧ (4 : Nat) ≠ 0 ∧ levelDelta exampleLED._currentLevel 3 ≠ 0 ∧
    (exampleLED.set {} true 3 4 0 {}).1._changeDelays = 170 ∧
    specPaceIncrement 4 (levelDelta exampleLED._currentLevel 3) = 171 ∧
    (exampleLED.set {} true 3 4 0 {}).1._changeDelays ≠
      specPaceIncrement 4 (levelDelta exampleLED._currentLevel 3) := by
  decide

/-- C2 (amended): on an idle channel `set(val, speed, delay)` with
`speed != 0` and `delta = |val - _currentLevel| != 0` sets `_targetLevel = val`
and `_waitTime = delay`, leaves `_currentLevel` (and the queue) unchanged and
stores `_changeDelays = clamp(floor(speed * 128 / delta), 128, 65535)`: the
quotient is truncated, not rounded to the nearest integer. -/
theorem C2_set_fade_pace (b : Board) (alloc : Bool) (led : smoothLED) (hw : Hardware)
    (val speed delay : Nat) (hidle : led.idle) (hspeed : speed ≠ 0)
    (hspeed16 : speed ≤ 65535) (hdelta : levelDelta led._currentLevel val ≠ 0) :
    (led.set b alloc val speed delay hw).1._targetLevel = val ∧
    (led.set b alloc val speed delay hw).1._waitTime = delay ∧
    (led.set b alloc val speed delay hw).1._currentLevel = led._currentLevel ∧
    (led.set b alloc val speed delay hw).1._nextSet = led._nextSet ∧
    (led.set b alloc val speed delay hw).1._changeDelays =
      specClamp (speed * 128 / levelDelta led._currentLevel val) 128 65535 := by
  obtain ⟨h1, h2⟩ := hidle
  have hs : (speed <<< 7) % 4294967296 = speed * 128 := by
    rw [Nat.shiftLeft_eq]
    apply Nat.mod_eq_of_lt
    omega
  have hc : ∀ x : Nat, clampDelay x = specClamp x 128 65535 := by
    intro x
    unfold clampDelay specClamp UINT16_MAX
    split_ifs <;> omega
  rw [h1] at hdelta
  simp [smoothLED.set, h1, h2, hspeed, paceDelay, udiv32, hdelta, hs, hc]

/-- Witness of C2: from level 0, `set(255, 1000, 0)`. -/
theorem C2_set_fade_pace_witness :
    (exampleLED.set {} true 255 1000 0 {}).1._targetLevel = 255 ∧
    (exampleLED.set {} true 255 1000 0 {}).1._waitTime = 0 ∧
    (exampleLED.set {} true 255 1000 0 {}).1._currentLevel = exampleLED._currentLevel ∧
    (exampleLED.set {} true 255 1000 0 {}).1._nextSet = exampleLED._nextSet ∧
    (exampleLED.set {} true 255 1000 0 {}).1._changeDelays =
      specClamp (1000 * 128 / levelDelta exampleLED._currentLevel 255) 128 65535 :=
  C2_set_fade_pace {} true exampleLED {} 255 1000 0 (by decide) (by decide) (by decide)
    (by decide)

/-- C3 (code evaluated at the failing input): a request with `speed != 0`
whose level equals the current level of an idle channel takes the fade path
with the divisor 0, and `_changeDelays` becomes the clamp of whatever the
division by zero yields. This happens for `set`, for `setNow` (whose level
equals the old target) and for a command popped by `faderISR`. -/
theorem C3_fade_path_zero_divisor (b : Board) :
    exampleLED.idle ∧ (100 : Nat) ≠ 0 ∧ levelDelta exampleLED._currentLevel 0 = 0 ∧
    (exampleLED.set b true 0 100 0 {}).1._changeDelays =
      clampDelay (b.divByZero 12800 % 4294967296) ∧
    (exampleLED.setNow b true 0 100 0 {}).1._changeDelays =
      clampDelay (b.divByZero 12800 % 4294967296) ∧
    (smoothLED.faderISR.body b true
      { exampleLED with _nextSet := [{ targetLevel := 0, changeSpeed := 100, delayMS := 0 }] }
      { hw := {} }).1._changeDelays = clampDelay (b.divByZero 12800 % 4294967296) := by
  refine ⟨by decide, by decide, by decide, ?_, ?_, ?_⟩ <;>
    simp [smoothLED.set, smoothLED.setNow, smoothLED.faderISR.body, exampleLED, paceDelay,
      udiv32, levelDelta]

/-- C4: on a channel that is fading or holding, `set(val, speed, delay)` with a
successful allocation appends the command at the tail of the pending queue
and changes nothing else, neither in the channel nor in the registers. -/
theorem C4_set_busy_appends (b : Board) (led : smoothLED) (hw : Hardware)
    (val speed delay : Nat)
    (hbusy : led._currentLevel ≠ led._targetLevel ∨ led._waitTime > 0) :
    (led.set b true val speed delay hw).1 =
      { led with _nextSet := led._nextSet ++
          [{ targetLevel := val, changeSpeed := speed, delayMS := delay }] } ∧
    (led.set b true val speed delay hw).2 = hw := by
  have h : ¬ (led._currentLevel = led._targetLevel ∧ led._waitTime = 0) := by
    rintro ⟨h1, h2⟩
    rcases hbusy with h | h
    · exact h h1
    · omega
  simp [smoothLED.set, h, cli, restoreSREG]

/-- Witness of C4: `set(30, 5, 7)` on a holding channel with one stored command. -/
theorem C4_set_busy_appends_witness :
    (exampleBusyLED.set {} true 30 5 7 {}).1 =
      { exampleBusyLED with _nextSet := exampleBusyLED._nextSet ++
          [{ targetLevel := 30, changeSpeed := 5, delayMS := 7 }] } ∧
    (exampleBusyLED.set {} true 30 5 7 {}).2 = {} :=
  C4_set_busy_appends {} exampleBusyLED {} 30 5 7 (by decide)

/-- Counterexample to C5 as worded. On an idle channel `set(10, 0, 1)` is
applied and `set(20, 0, 0)` is queued; one tick later the hold has run out,
so `_currentLevel == _targetLevel`, `_waitTime == 0` and the queue holds the
second command. `set(30, 0, 0)` is then applied at once, not appended, and
the following tick pops the older command `set(20, 0, 0)`. -/
theorem C5_overtake_counterexample :
    (exampleQueuedSystem._firstLink.map
      fun p => (p._currentLevel, p._targetLevel, p._waitTime, p._nextSet)) =
      [(10, 10, 0, [{ targetLevel := 20, changeSpeed := 0, delayMS := 0 }])] ∧
    ((exampleQueuedSystem.call 0 (smoothLED.set {} true 30 0 0))._firstLink.map
      fun p => (p._currentLevel, p._targetLevel, p._waitTime, p._nextSet)) =
      [(30, 30, 0, [{ targetLevel := 20, changeSpeed := 0, delayMS := 0 }])] ∧
    ((smoothLED.faderISR {} true
        (exampleQueuedSystem.call 0 (smoothLED.set {} true 30 0 0)))._firstLink.map
      fun p => (p._currentLevel, p._targetLevel, p._waitTime, p._nextSet)) =
      [(20, 20, 0, [])] ∧
    ¬ ∀ (led : smoothLED), led._nextSet ≠ [] →
        (led.set {} true 30 0 0 {}).1._nextSet =
          led._nextSet ++ [{ targetLevel := 30, changeSpeed := 0, delayMS := 0 }] := by
  refine ⟨by decide, by decide, by decide, ?_⟩
  intro h
  exact absurd (h { exampleBusyLED with _waitTime := 0 } (by decide)) (by decide)

/-- C5 (amended): whatever the pending queue holds, `set(val, speed, delay)`
appends the request at the tail of the queue (allocation succeeding) when the
channel is fading or holding; when `_currentLevel == _targetLevel` and
`_waitTime == 0` it applies the request at once and leaves the queue as it
is, also when the queue is not empty. -/
theorem C5_set_queue_or_apply (b : Board) (led : smoothLED) (hw : Hardware)
    (val speed delay : Nat) :
    ((led._currentLevel ≠ led._targetLevel ∨ led._waitTime > 0) →
      (led.set b true val speed delay hw).1 =
        { led with _nextSet := led._nextSet ++
            [{ targetLevel := val, changeSpeed := speed, delayMS := delay }] }) ∧
    (led.idle → ∀ alloc,
      (led.set b alloc val speed delay hw).1._nextSet = led._nextSet ∧
      (led.set b alloc val speed delay hw).1._targetLevel = val ∧
      (led.set b alloc val speed delay hw).1._waitTime = delay ∧
      (speed = 0 → (led.set b alloc val speed delay hw).1._currentLevel = val)) := by
  constructor
  · intro hbusy
    have h : ¬ (led._currentLevel = led._targetLevel ∧ led._waitTime = 0) := by
      rintro ⟨h1, h2⟩
      rcases hbusy with h | h
      · exact h h1
      · omega
    simp [smoothLED.set, h]
  · rintro ⟨h1, h2⟩ alloc
    by_cases hs : speed = 0 <;> simp [smoothLED.set, h1, h2, hs]

/-- Witness of C5 (amended): a holding channel with a stored command queues
`set(30, 0, 0)`; the same channel with the hold run out applies it. -/
theorem C5_set_queue_or_apply_witness :
    (exampleBusyLED.set {} true 30 0 0 {}).1 =
      { exampleBusyLED with _nextSet := exampleBusyLED._nextSet ++
          [{ targetLevel := 30, changeSpeed := 0, delayMS := 0 }] } ∧
    (({ exampleBusyLED with _waitTime := 0 } : smoothLED).set {} true 30 0 0 {}).1._nextSet =
        [{ targetLevel := 20, changeSpeed := 0, delayMS := 0 }] ∧
    (({ exampleBusyLED with _waitTime := 0 } : smoothLED).set {} true 30 0 0
        {}).1._targetLevel = 30 :=
  ⟨(C5_set_queue_or_apply {} exampleBusyLED {} 30 0 0).1 (by decide),
   ((C5_set_queue_or_apply {} { exampleBusyLED with _waitTime := 0 } {} 30 0 0).2
      (by decide) true).1,
   ((C5_set_queue_or_apply {} { exampleBusyLED with _waitTime := 0 } {} 30 0 0).2
      (by decide) true).2.1⟩

/-- C6 (code evaluated at the failing input): `set` on a channel that is
fading or holding when the allocation of the queue node fails. The members of
the channel and the registers of the microcontroller, both tick enables among
them, are as before the call and nothing is stored in the queue; but the call
has stored through the null pointer, because the `new` expression constructs
the node in the storage that the allocation did not provide before the test
`p != nullptr` is reached. With a successful allocation there is no such
store. -/
theorem C6_alloc_failure_null_store (b : Board) :
    (∀ (led : smoothLED) (hw : Hardware) (val speed delay : Nat),
      (led._currentLevel ≠ led._targetLevel ∨ led._waitTime > 0) →
      led.set b false val speed delay hw = (led, { hw with nullStored := true })) ∧
    (exampleBusyLED._currentLevel ≠ exampleBusyLED._targetLevel ∨
      exampleBusyLED._waitTime > 0) ∧
    ({} : Hardware).nullStored = false ∧
    (exampleBusyLED.set b false 30 5 7 {}).1 = exampleBusyLED ∧
    (exampleBusyLED.set b false 30 5 7 {}).2.nullStored = true ∧
    (exampleBusyLED.set b true 30 5 7 {}).2.nullStored = false := by
  have hgen : ∀ (led : smoothLED) (hw : Hardware) (val speed delay : Nat),
      (led._currentLevel ≠ led._targetLevel ∨ led._waitTime > 0) →
      led.set b false val speed delay hw = (led, { hw with nullStored := true }) := by
    intro led hw val speed delay hbusy
    have h : ¬ (led._currentLevel = led._targetLevel ∧ led._waitTime = 0) := by
      rintro ⟨h1, h2⟩
      rcases hbusy with h | h
      · exact h h1
      · omega
    simp [smoothLED.set, h, cli, restoreSREG]
  have hbusy : exampleBusyLED._currentLevel ≠ exampleBusyLED._targetLevel ∨
      exampleBusyLED._waitTime > 0 := by decide
  refine ⟨hgen, hbusy, rfl, ?_, ?_, ?_⟩
  · rw [hgen exampleBusyLED {} 30 5 7 hbusy]
  · rw [hgen exampleBusyLED {} 30 5 7 hbusy]
  · have h : ¬ (exampleBusyLED._currentLevel = exampleBusyLED._targetLevel ∧
        exampleBusyLED._waitTime = 0) := by decide
    simp [smoothLED.set, h, cli, restoreSREG]

/-! ## Theorems: the nudge operators -/

/-- Counterexample to C8 as worded: `++` at target 255 gives 0 (saturation
would give 255), `--` at target 0 gives 255 (saturation would give 0), and
`+= 100` at target 200 gives 44 (saturation would give 255). -/
theorem C8_saturation_counterexample :
    (({ exampleLED with _targetLevel := 255 } : smoothLED).operator_inc {}).1._targetLevel = 0 ∧
    specSaturate (255 + 1) = 255 ∧
    (({ exampleLED with _targetLevel := 0 } : smoothLED).operator_dec {}).1._targetLevel = 255 ∧
    specSaturate (0 - 1) = 0 ∧
    (({ exampleLED with _targetLevel := 200 } : smoothLED).operator_plus_assign 100
      {}).1._targetLevel = 44 ∧
    specSaturate (200 + 100) = 255 := by
  decide

/-- C8 (amended): the nudge operators change the target level with the
wrapping arithmetic of a `uint8_t`: the new `_targetLevel` is `(t + d) mod 256`
(`t - d` for the subtracting operators, `d = 1` for `++` and `--`); it is
`min(255, max(0, t + d))` whenever `0 <= t + d <= 255`. -/
theorem C8_nudge_wraps (led : smoothLED) (hw : Hardware) (d : Int) :
    (((led.operator_inc hw).1._targetLevel : Int) = (led._targetLevel + 1) % 256 ∧
     ((led.operator_dec hw).1._targetLevel : Int) = (led._targetLevel - 1) % 256 ∧
     ((led.operator_plus d hw).1._targetLevel : Int) = (led._targetLevel + d) % 256 ∧
     ((led.operator_minus d hw).1._targetLevel : Int) = (led._targetLevel - d) % 256 ∧
     ((led.operator_plus_assign d hw).1._targetLevel : Int) = (led._targetLevel + d) % 256 ∧
     ((led.operator_minus_assign d hw).1._targetLevel : Int) = (led._targetLevel - d) % 256) ∧
    ((0 ≤ led._targetLevel + d ∧ led._targetLevel + d ≤ 255) →
      (led.operator_plus d hw).1._targetLevel = specSaturate (led._targetLevel + d) ∧
      (led.operator_plus_assign d hw).1._targetLevel = specSaturate (led._targetLevel + d)) ∧
    ((0 ≤ led._targetLevel - d ∧ led._targetLevel - d ≤ 255) →
      (led.operator_minus d hw).1._targetLevel = specSaturate (led._targetLevel - d) ∧
      (led.operator_minus_assign d hw).1._targetLevel = specSaturate (led._targetLevel - d)) ∧
    (led._targetLevel + 1 ≤ 255 →
      (led.operator_inc hw).1._targetLevel = specSaturate (led._targetLevel + 1)) ∧
    (1 ≤ led._targetLevel ∧ led._targetLevel ≤ 256 →
      (led.operator_dec hw).1._targetLevel = specSaturate (led._targetLevel - 1)) := by
  have hw8 : ∀ x : Int, ((toUInt8 x : Nat) : Int) = x % 256 := by
    intro x
    unfold toUInt8
    exact Int.toNat_of_nonneg (Int.emod_nonneg x (by decide))
  have hsat : ∀ x : Int, 0 ≤ x → x ≤ 255 → toUInt8 x = specSaturate x := by
    intro x h0 h1
    unfold toUInt8 specSaturate
    congr 1
    omega
  dsimp only [smoothLED.operator_inc, smoothLED.operator_dec, smoothLED.operator_plus,
    smoothLED.operator_minus, smoothLED.operator_plus_assign, smoothLED.operator_minus_assign]
  refine ⟨⟨hw8 _, hw8 _, hw8 _, hw8 _, hw8 _, hw8 _⟩, ?_, ?_, ?_, ?_⟩
  · rintro ⟨h0, h1⟩
    exact ⟨hsat _ h0 h1, hsat _ h0 h1⟩
  · rintro ⟨h0, h1⟩
    exact ⟨hsat _ h0 h1, hsat _ h0 h1⟩
  · intro h1
    exact hsat _ (by omega) (by omega)
  · rintro ⟨h0, h1⟩
    exact hsat _ (by omega) (by omega)

/-- Witness of C8 (amended): target 100 and offset 50. -/
theorem C8_nudge_wraps_witness :
    (({ exampleLED with _targetLevel := 100 } : smoothLED).operator_plus 50 {}).1._targetLevel =
      specSaturate (((100 : Nat) : Int) + 50) ∧
    (({ exampleLED with _targetLevel := 100 } : smoothLED).operator_minus 50 {}).1._targetLevel =
      specSaturate (((100 : Nat) : Int) - 50) ∧
    (({ exampleLED with _targetLevel := 100 } : smoothLED).operator_inc {}).1._targetLevel =
      specSaturate (((100 : Nat) : Int) + 1) ∧
    (({ exampleLED with _targetLevel := 100 } : smoothLED).operator_dec {}).1._targetLevel =
      specSaturate (((100 : Nat) : Int) - 1) :=
  ⟨((C8_nudge_wraps { exampleLED with _targetLevel := 100 } {} 50).2.1 (by decide)).1,
   ((C8_nudge_wraps { exampleLED with _targetLevel := 100 } {} 50).2.2.1 (by decide)).1,
   (C8_nudge_wraps { exampleLED with _targetLevel := 100 } {} 50).2.2.2.1 (by decide),
   (C8_nudge_wraps { exampleLED with _targetLevel := 100 } {} 50).2.2.2.2 (by decide)⟩

/-- C9: each nudge operator modifies only `_targetLevel` and the two tick
enables: every other member of the channel (levels, pacing, hold, flags,
queue) and every other register is unchanged, and after the call the fade
tick and the PWM tick are both enabled. -/
theorem C9_nudge_frame (led : smoothLED) (hw : Hardware) (d : Int) :
    ∀ r ∈ [led.operator_inc hw, led.operator_dec hw, led.operator_plus d hw,
           led.operator_minus d hw, led.operator_plus_assign d hw,
           led.operator_minus_assign d hw],
      { r.1 with _targetLevel := led._targetLevel } = led ∧
      r.1._currentLevel = led._currentLevel ∧ r.1._changeDelays = led._changeDelays ∧
      r.1._changeTicker = led._changeTicker ∧ r.1._waitTime = led._waitTime ∧
      r.1._flags = led._flags ∧ r.1._nextSet = led._nextSet ∧
      r.2.OCIE0A = true ∧ r.2.TOIE1 = true ∧
      { r.2 with OCIE0A := hw.OCIE0A, TOIE1 := hw.TOIE1 } = hw := by
  intro r hr
  simp only [List.mem_cons, List.mem_singleton, List.not_mem_nil, or_false] at hr
  rcases hr with h | h | h | h | h | h <;> subst h <;>
    simp [smoothLED.operator_inc, smoothLED.operator_dec, smoothLED.operator_plus,
      smoothLED.operator_minus, smoothLED.operator_plus_assign,
      smoothLED.operator_minus_assign, pwmTimerOn, fadeTimerOn]

/-- Witness of C9: `+= 5` on the example channel. -/
theorem C9_nudge_frame_witness :
    { (exampleLED.operator_plus_assign 5 {}).1 with _targetLevel := exampleLED._targetLevel } =
      exampleLED ∧
    (exampleLED.operator_plus_assign 5 {}).2.OCIE0A = true ∧
    (exampleLED.operator_plus_assign 5 {}).2.TOIE1 = true :=
  have h := C9_nudge_frame exampleLED {} 5 (exampleLED.operator_plus_assign 5 {}) (by simp)
  ⟨h.1, h.2.2.2.2.2.2.2.1, h.2.2.2.2.2.2.2.2.1⟩

/-! ## Theorems: `setNow()` and the pending queue under the fade tick -/

/-- C7: in every state of the channel `setNow(val, speed, delay)` leaves the
pending queue empty, `_targetLevel = val` and `_waitTime = delay` (and
`_currentLevel = val` when `speed == 0`); after any number of `faderISR`
invocations that follow, the queue is still empty and target and pace are
those of the `setNow` call, so no tick has applied a command (a tick applies
a command only by popping it from a non-empty queue). -/
theorem C7_setNow_discards_queue (b : Board) (alloc : Bool) (sys : System) (i : Nat)
    (led : smoothLED) (val speed delay : Nat) (hled : sys._firstLink[i]? = some led) :
    (sys.call i (smoothLED.setNow b alloc val speed delay))._firstLink[i]? =
      some (led.setNow b alloc val speed delay sys.hw).1 ∧
    (led.setNow b alloc val speed delay sys.hw).1._nextSet = [] ∧
    (led.setNow b alloc val speed delay sys.hw).1._targetLevel = val ∧
    (led.setNow b alloc val speed delay sys.hw).1._waitTime = delay ∧
    (speed = 0 → (led.setNow b alloc val speed delay sys.hw).1._currentLevel = val) ∧
    ∀ (alloc' : Bool) (n : Nat), ∃ p,
      (faderTicks b alloc' n
        (sys.call i (smoothLED.setNow b alloc val speed delay)))._firstLink[i]? = some p ∧
      p._nextSet = [] ∧ p._targetLevel = val ∧ p._waitTime ≤ delay ∧
      p._changeDelays = (led.setNow b alloc val speed delay sys.hw).1._changeDelays := by
  have hcall := call_getElem sys i (smoothLED.setNow b alloc val speed delay) led hled
  have hf : (led.setNow b alloc val speed delay sys.hw).1._nextSet = [] ∧
      (led.setNow b alloc val speed delay sys.hw).1._targetLevel = val ∧
      (led.setNow b alloc val speed delay sys.hw).1._waitTime = delay ∧
      (speed = 0 → (led.setNow b alloc val speed delay sys.hw).1._currentLevel = val) := by
    by_cases hs : speed = 0 <;> simp [smoothLED.setNow, smoothLED.set, hs]
  refine ⟨hcall, hf.1, hf.2.1, hf.2.2.1, hf.2.2.2, ?_⟩
  intro alloc' n
  induction n with
  | zero => exact ⟨_, hcall, hf.1, hf.2.1, le_of_eq hf.2.2.1, rfl⟩
  | succ n ih =>
    obtain ⟨p, hp, hq, ht, hw, hc⟩ := ih
    obtain ⟨p', hp', hstep⟩ := faderISR_tickStep b alloc' _ i p hp
    refine ⟨p', hp', ?_⟩
    rcases hstep with ⟨s1, s2, s3, s4⟩ | ⟨cmd, rest, hcons, _⟩
    · exact ⟨s1.trans hq, s2.trans ht, le_trans s4 hw, s3.trans hc⟩
    · rw [hq] at hcons
      exact absurd hcons (by simp)

/-- Witness of C7: `setNow(99, 0, 3)` on a holding channel with a stored command. -/
theorem C7_setNow_discards_queue_witness :
    (exampleBusyLED.setNow {} true 99 0 3 {}).1._nextSet = [] ∧
    (exampleBusyLED.setNow {} true 99 0 3 {}).1._targetLevel = 99 ∧
    ∃ p, (faderTicks {} true 10
        (System.call 0 (smoothLED.setNow {} true 99 0 3)
          { _firstLink := [exampleBusyLED] }))._firstLink[0]? = some p ∧
      p._nextSet = [] ∧ p._targetLevel = 99 :=
  have h := C7_setNow_discards_queue {} true { _firstLink := [exampleBusyLED] } 0
    exampleBusyLED 99 0 3 rfl
  ⟨h.2.1, h.2.2.1, (h.2.2.2.2.2 true 10).imp fun _ hp => ⟨hp.1, hp.2.1, hp.2.2.1⟩⟩

/-- Counterexample to C10 as stated: the channel of `exampleQueuedSystem` is
busy in the sense of the specification, since it has the command
`set(20, 0, 0)` stored, but it has `_currentLevel == _targetLevel` and
`_waitTime == 0`. The calls `set(30, 0, 0)`, `set(40, 0, 0)` and
`set(50, 0, 0)` are applied by the calls themselves, one after the other and
without any tick, and none of them is stored: after them the level is 50 and
the queue holds `set(20, 0, 0)` alone, which the next tick applies after
them. -/
theorem C10_busy_by_queue_counterexample :
    (exampleQueuedSystem._firstLink.map
      fun p => (decide (p._portRegister ≠ none), p._currentLevel, p._targetLevel, p._waitTime,
        p._nextSet)) =
      [(true, 10, 10, 0, [{ targetLevel := 20, changeSpeed := 0, delayMS := 0 }])] ∧
    ((exampleQueuedSystem.call 0 (smoothLED.set {} true 30 0 0))._firstLink.map
      fun p => (p._currentLevel, p._nextSet)) =
      [(30, [{ targetLevel := 20, changeSpeed := 0, delayMS := 0 }])] ∧
    (((exampleQueuedSystem.call 0 (smoothLED.set {} true 30 0 0)).call 0
        (smoothLED.set {} true 40 0 0))._firstLink.map
      fun p => (p._currentLevel, p._nextSet)) =
      [(40, [{ targetLevel := 20, changeSpeed := 0, delayMS := 0 }])] ∧
    ((((exampleQueuedSystem.call 0 (smoothLED.set {} true 30 0 0)).call 0
        (smoothLED.set {} true 40 0 0)).call 0 (smoothLED.set {} true 50 0 0))._firstLink.map
      fun p => (p._currentLevel, p._targetLevel, p._waitTime, p._nextSet)) =
      [(50, 50, 0, [{ targetLevel := 20, changeSpeed := 0, delayMS := 0 }])] ∧
    ((smoothLED.faderISR {} true
        (((exampleQueuedSystem.call 0 (smoothLED.set {} true 30 0 0)).call 0
          (smoothLED.set {} true 40 0 0)).call 0 (smoothLED.set {} true 50 0 0)))._firstLink.map
      fun p => (p._currentLevel, p._targetLevel, p._waitTime, p._nextSet)) =
      [(20, 20, 0, [])] := by
  refine ⟨by decide, by decide, by decide, by decide, by decide⟩

/-- C10 (amended): the pending queue is first in, first out. After three
`set` calls
with the commands A, B, C on an initialised channel that is fading or holding
(allocation succeeding) the queue is the old queue followed by A, B, C. In
every later `faderISR` invocation the queue and the target of the channel
are either unchanged, or the channel had `_currentLevel == _targetLevel` and
`_waitTime == 0` at the start of the invocation and exactly the head of the
queue is removed and applied as `set` applies it, so the queue is always a
tail of the queue after the three calls. And there are invocations
`nA < nB < nC` that pop and apply A, then B, then C. -/
theorem C10_queue_fifo (b : Board) (alloc : Bool) (sys : System) (i : Nat) (led : smoothLED)
    (A B C : setStructure) (hled : sys._firstLink[i]? = some led)
    (hinit : led._portRegister ≠ none)
    (hbusy : led._currentLevel ≠ led._targetLevel ∨ led._waitTime > 0)
    (sys3 : System)
    (hsys3 : sys3 =
      ((sys.call i (smoothLED.set b true A.targetLevel A.changeSpeed A.delayMS)).call i
        (smoothLED.set b true B.targetLevel B.changeSpeed B.delayMS)).call i
        (smoothLED.set b true C.targetLevel C.changeSpeed C.delayMS)) :
    sys3._firstLink[i]? = some { led with _nextSet := led._nextSet ++ [A, B, C] } ∧
    (∀ n, ∃ p p',
      (faderTicks b alloc n sys3)._firstLink[i]? = some p ∧
      (faderTicks b alloc (n + 1) sys3)._firstLink[i]? = some p' ∧
      (∃ k, p._nextSet = (led._nextSet ++ [A, B, C]).drop k) ∧
      ((p'._nextSet = p._nextSet ∧ p'._targetLevel = p._targetLevel) ∨
       ∃ cmd rest, PoppedAt b alloc sys3 i n cmd rest)) ∧
    ∃ nA nB nC, nA < nB ∧ nB < nC ∧
      PoppedAt b alloc sys3 i nA A [B, C] ∧
      PoppedAt b alloc sys3 i nB B [C] ∧
      PoppedAt b alloc sys3 i nC C [] := by
  have hb : ¬ led.idle := by
    rintro ⟨h1, h2⟩
    rcases hbusy with h | h
    · exact h h1
    · omega
  have h1 := call_set_busy b sys i led A hled hb
  have h2 := call_set_busy b _ i _ B h1 (enqueue_idle led A hb)
  have h3 := call_set_busy b _ i _ C h2 (enqueue_idle _ B (enqueue_idle led A hb))
  have he : ((led.enqueue A).enqueue B).enqueue C =
      { led with _nextSet := led._nextSet ++ [A, B, C] } := by
    simp [smoothLED.enqueue]
  rw [he, ← hsys3] at h3
  clear h1 h2 he hsys3
  have hinv : ∀ n, ∃ p, (faderTicks b alloc n sys3)._firstLink[i]? = some p ∧
      ∃ k, p._nextSet = (led._nextSet ++ [A, B, C]).drop k := by
    intro n
    induction n with
    | zero => exact ⟨_, h3, 0, rfl⟩
    | succ n ih =>
      obtain ⟨p, hp, k, hk⟩ := ih
      obtain ⟨p', hp', hcase⟩ := tick_cases b alloc sys3 i n p hp
      refine ⟨p', hp', ?_⟩
      rcases hcase with ⟨s1, _⟩ | ⟨cmd, rest, q, q', hq, hq', hcons, _, _, hrest, _⟩
      · exact ⟨k, s1.trans hk⟩
      · rw [hp] at hq
        rw [hp'] at hq'
        simp only [Option.some.injEq] at hq hq'
        subst hq hq'
        refine ⟨k + 1, ?_⟩
        rw [hrest, ← List.drop_drop, ← hk, hcons]
        rfl
  refine ⟨h3, ?_, ?_⟩
  · intro n
    obtain ⟨p, hp, hk⟩ := hinv n
    obtain ⟨p', hp', hcase⟩ := tick_cases b alloc sys3 i n p hp
    exact ⟨p, p', hp, hp', hk, hcase⟩
  · obtain ⟨N, pN, hN, hNq⟩ := eventually_empty b alloc i _ sys3 _ h3 hinit rfl
    have hex : ∀ n, ∃ p, (faderTicks b alloc n sys3)._firstLink[i]? = some p :=
      fun n => (hinv n).imp fun _ h => h.1
    let f : Nat → List setStructure := fun n =>
      ((faderTicks b alloc n sys3)._firstLink[i]?).elim [] smoothLED._nextSet
    have hf : ∀ n p, (faderTicks b alloc n sys3)._firstLink[i]? = some p → f n = p._nextSet := by
      intro n p hp
      show ((faderTicks b alloc n sys3)._firstLink[i]?).elim [] smoothLED._nextSet = _
      rw [hp]
      rfl
    have hstep : ∀ n, f (n + 1) = f n ∨ ∃ c rest, f n = c :: rest ∧ f (n + 1) = rest := by
      intro n
      obtain ⟨p, hp⟩ := hex n
      obtain ⟨p', hp', hcase⟩ := tick_cases b alloc sys3 i n p hp
      rw [hf n p hp, hf (n + 1) p' hp']
      rcases hcase with ⟨s1, _⟩ | ⟨cmd, rest, q, q', hq, hq', hcons, _, _, hrest, _⟩
      · exact Or.inl s1
      · rw [hp] at hq
        rw [hp'] at hq'
        simp only [Option.some.injEq] at hq hq'
        subst hq hq'
        exact Or.inr ⟨cmd, rest, hcons, hrest⟩
    have hfN : f N = [] := (hf N pN hN).trans hNq
    have hf0 : f 0 = led._nextSet ++ [A, B, C] := hf 0 _ h3
    have hpop : ∀ n cmd rest, f n = cmd :: rest → f (n + 1) = rest →
        PoppedAt b alloc sys3 i n cmd rest := by
      intro n cmd rest hq hq'
      obtain ⟨p, hp⟩ := hex n
      obtain ⟨p', hp'⟩ := hex (n + 1)
      rw [hf n p hp] at hq
      rw [hf (n + 1) p' hp'] at hq'
      exact poppedAt_of_queue b alloc sys3 i n cmd rest p p' hp hp' hq hq'
    obtain ⟨n1, _, hn1, hq1⟩ := drain_front f hstep N hfN [A, B, C] led._nextSet 0
      (Nat.zero_le _) hf0
    obtain ⟨nA, _, hA2, hA3, hA4⟩ := next_pop f hstep N hfN A [B, C] (N - n1) n1 (by omega) hq1
    obtain ⟨nB, hB1, hB2, hB3, hB4⟩ := next_pop f hstep N hfN B [C] (N - (nA + 1)) (nA + 1)
      (by omega) hA4
    obtain ⟨nC, hC1, _, hC3, hC4⟩ := next_pop f hstep N hfN C [] (N - (nB + 1)) (nB + 1)
      (by omega) hB4
    exact ⟨nA, nB, nC, by omega, by omega, hpop nA A [B, C] hA3 hA4, hpop nB B [C] hB3 hB4,
      hpop nC C [] hC3 hC4⟩

/-- Witness of C10: three commands stored on a holding channel that already
has one stored command. -/
theorem C10_queue_fifo_witness :
    ∃ nA nB nC, nA < nB ∧ nB < nC ∧
      PoppedAt {} true
        (((System.call 0 (smoothLED.set {} true 30 0 2) { _firstLink := [exampleBusyLED] }).call 0
          (smoothLED.set {} true 40 5 0)).call 0 (smoothLED.set {} true 50 0 0)) 0 nA
        { targetLevel := 30, changeSpeed := 0, delayMS := 2 }
        [{ targetLevel := 40, changeSpeed := 5, delayMS := 0 },
         { targetLevel := 50, changeSpeed := 0, delayMS := 0 }] ∧
      PoppedAt {} true
        (((System.call 0 (smoothLED.set {} true 30 0 2) { _firstLink := [exampleBusyLED] }).call 0
          (smoothLED.set {} true 40 5 0)).call 0 (smoothLED.set {} true 50 0 0)) 0 nB
        { targetLevel := 40, changeSpeed := 5, delayMS := 0 }
        [{ targetLevel := 50, changeSpeed := 0, delayMS := 0 }] ∧
      PoppedAt {} true
        (((System.call 0 (smoothLED.set {} true 30 0 2) { _firstLink := [exampleBusyLED] }).call 0
          (smoothLED.set {} true 40 5 0)).call 0 (smoothLED.set {} true 50 0 0)) 0 nC
        { targetLevel := 50, changeSpeed := 0, delayMS := 0 } [] :=
  (C10_queue_fifo {} true { _firstLink := [exampleBusyLED] } 0 exampleBusyLED
    { targetLevel := 30, changeSpeed := 0, delayMS := 2 }
    { targetLevel := 40, changeSpeed := 5, delayMS := 0 }
    { targetLevel := 50, changeSpeed := 0, delayMS := 0 }
    rfl (by decide) (by decide) _ rfl).2.2

/-! ## Theorems: the brightness table -/

/-- A list that passes the check `nondecreasing` is a chain for `≤`. -/
theorem nondecreasing_chain : ∀ l : List Nat, nondecreasing l = true → List.Chain' (· ≤ ·) l
  | [], _ => List.chain'_nil
  | [_], _ => List.chain'_singleton _
  | a :: c :: rest, h => by
    simp only [nondecreasing, Bool.and_eq_true, decide_eq_true_eq] at h
    exact List.Chain'.cons h.1 (nondecreasing_chain (c :: rest) h.2)

/-- In a list that passes the check `nondecreasing` an earlier element is at
most a later one. -/
theorem nondecreasing_getD (l : List Nat) (h : nondecreasing l = true) (i j : Nat)
    (hij : i ≤ j) (hj : j < l.length) : l.getD i 0 ≤ l.getD j 0 := by
  have hp : List.Pairwise (· ≤ ·) l := List.chain'_iff_pairwise.mp (nondecreasing_chain l h)
  rw [List.getD_eq_getElem l 0 (lt_of_le_of_lt hij hj), List.getD_eq_getElem l 0 hj]
  rcases Nat.lt_or_eq_of_le hij with hlt | heq
  · exact List.pairwise_iff_getElem.mp hp i j _ hj hlt
  · subst heq
    exact le_refl _

set_option maxRecDepth 8000 in
/-- The table has 256 entries. -/
theorem kcie_length : kcie.length = 256 := by rfl

set_option maxRecDepth 8000 in
/-- The table passes the check `nondecreasing`. -/
theorem kcie_nondecreasing : nondecreasing kcie = true := by rfl

set_option maxRecDepth 8000 in
/-- The first and the last entry of the table. -/
theorem kcie_ends : kcie.getD 0 0 = 0 ∧ kcie.getD 255 0 = 236 := ⟨by rfl, by rfl⟩

set_option maxRecDepth 8000 in
/-- The low byte of the word read for the levels 0 and 255. -/
theorem cie_ends :
    (smoothLED.faderISR.cie { _currentLevel := 0 })._currentCIE = 0 ∧
    (smoothLED.faderISR.cie { _currentLevel := 255 })._currentCIE = 236 := ⟨by rfl, by rfl⟩

/-- C11: the table `kcie` has exactly 256 entries and is monotonic
non-decreasing: `kcie[i] <= kcie[j]` for all levels `i <= j` in 0..255. -/
theorem C11_kcie_monotone :
    kcie.length = 256 ∧
    ∀ i j : Nat, i ≤ j → j ≤ 255 → kcie.getD i 0 ≤ kcie.getD j 0 := by
  refine ⟨kcie_length, ?_⟩
  intro i j hij hj
  exact nondecreasing_getD kcie kcie_nondecreasing i j hij (by rw [kcie_length]; omega)

/-- Witness of C11: the levels 100 and 200. -/
theorem C11_kcie_monotone_witness : kcie.getD 100 0 ≤ kcie.getD 200 0 :=
  C11_kcie_monotone.2 100 200 (by decide) (by decide)

/-- Counterexample to C12 as worded: the last entry of the table is 236, not 255. -/
theorem C12_kcie_last_counterexample :
    kcie.getD 255 0 = 236 ∧ ¬ (kcie.getD 0 0 = 0 ∧ kcie.getD 255 0 = 255) := by
  refine ⟨kcie_ends.2, ?_⟩
  rintro ⟨_, h⟩
  rw [kcie_ends.2] at h
  exact absurd h (by decide)

/-- C12 (amended): the table maps the end points of its domain to the end
points of its own range: `kcie[0] == 0` and `kcie[255] == 236`, and 236 is
the largest value in the table (so no level is mapped to a drive value
above 236); `faderISR` stores exactly these values in `_currentCIE` for the
levels 0 and 255 of a channel without `NO_CIE_MODE`. -/
theorem C12_kcie_end_points :
    kcie.getD 0 0 = 0 ∧ kcie.getD 255 0 = 236 ∧
    (∀ i : Nat, kcie.getD i 0 ≤ 236) ∧
    (smoothLED.faderISR.cie { _currentLevel := 0 })._currentCIE = 0 ∧
    (smoothLED.faderISR.cie { _currentLevel := 255 })._currentCIE = 236 := by
  refine ⟨kcie_ends.1, kcie_ends.2, ?_, cie_ends.1, cie_ends.2⟩
  intro i
  by_cases hi : i ≤ 255
  · exact kcie_ends.2 ▸ nondecreasing_getD kcie kcie_nondecreasing i 255 hi (by
      rw [kcie_length]; omega)
  · rw [List.getD_eq_default kcie 0 (by rw [kcie_length]; omega)]
    exact Nat.zero_le _

/-! ## Lemmas: bit masks -/

/-- Setting the bits of a mask sets them. -/
theorem or_and_mask (x m : Nat) : (x ||| m) &&& m = m := by
  apply Nat.eq_of_testBit_eq
  intro i
  simp only [Nat.testBit_and, Nat.testBit_or]
  cases x.testBit i <;> cases m.testBit i <;> rfl

/-- Clearing the bits of an 8-bit mask clears them. -/
theorem clear_and_mask (x m : Nat) (hm : m < 256) : (x &&& (255 ^^^ m)) &&& m = 0 := by
  apply Nat.eq_of_testBit_eq
  intro i
  have h255 : (255 : Nat).testBit i = decide (i < 8) := Nat.testBit_two_pow_sub_one 8 i
  simp only [Nat.testBit_and, Nat.testBit_xor, Nat.zero_testBit, h255]
  by_cases hi : i < 8
  · simp only [hi, decide_True]
    cases x.testBit i <;> cases m.testBit i <;> rfl
  · have hmi : m.testBit i = false :=
      Nat.testBit_lt_two_pow (lt_of_lt_of_le hm
        (Nat.pow_le_pow_right (show 2 > 0 by decide) (show 8 ≤ i by omega)))
    simp [hmi]

/-- Setting the bits of a disjoint mask leaves the bits of a mask alone. -/
theorem or_and_disjoint (x m m' : Nat) (h : m' &&& m = 0) : (x ||| m') &&& m = x &&& m := by
  apply Nat.eq_of_testBit_eq
  intro i
  have hi := congrArg (fun n => Nat.testBit n i) h
  simp only [Nat.testBit_and, Nat.zero_testBit] at hi
  simp only [Nat.testBit_and, Nat.testBit_or]
  revert hi
  cases x.testBit i <;> cases m.testBit i <;> cases m'.testBit i <;> simp

/-- Clearing the bits of a disjoint mask leaves the bits of an 8-bit mask alone. -/
theorem clear_and_disjoint (x m m' : Nat) (h : m' &&& m = 0) (hm : m < 256) :
    (x &&& (255 ^^^ m')) &&& m = x &&& m := by
  apply Nat.eq_of_testBit_eq
  intro i
  have hi := congrArg (fun n => Nat.testBit n i) h
  have h255 : (255 : Nat).testBit i = decide (i < 8) := Nat.testBit_two_pow_sub_one 8 i
  simp only [Nat.testBit_and, Nat.zero_testBit] at hi
  simp only [Nat.testBit_and, Nat.testBit_xor, h255]
  by_cases h8 : i < 8
  · simp only [h8, decide_True]
    revert hi
    cases x.testBit i <;> cases m.testBit i <;> cases m'.testBit i <;> simp
  · have hmi : m.testBit i = false :=
      Nat.testBit_lt_two_pow (lt_of_lt_of_le hm
        (Nat.pow_le_pow_right (show 2 > 0 by decide) (show 8 ≤ i by omega)))
    simp [hmi]

/-! ## Lemmas: the PWM tick -/

theorem portFrame_refl (hw : Hardware) : PortFrame hw hw :=
  ⟨rfl, rfl, rfl, rfl, rfl, rfl, rfl, rfl⟩

theorem portFrame_trans {hw1 hw2 hw3 : Hardware} (h1 : PortFrame hw1 hw2)
    (h2 : PortFrame hw2 hw3) : PortFrame hw1 hw3 := by
  obtain ⟨a1, a2, a3, a4, a5, a6, a7, a8⟩ := h1
  obtain ⟨b1, b2, b3, b4, b5, b6, b7, b8⟩ := h2
  exact ⟨b1.trans a1, b2.trans a2, b3.trans a3, b4.trans a4, b5.trans a5, b6.trans a6,
    b7.trans a7, b8.trans a8⟩

/-- `pinOn()` writes the PORTn register of the instance only. -/
theorem pinOn_frame (p : smoothLED) (hw : Hardware) :
    PortFrame hw (p.pinOn hw) ∧
    ∀ a, p._portRegister ≠ some a → (p.pinOn hw).port a = hw.port a := by
  unfold smoothLED.pinOn
  split
  · exact ⟨portFrame_refl hw, fun _ _ => rfl⟩
  · rename_i a0 ha0
    split_ifs
    all_goals
      refine ⟨portFrame_refl hw, fun a ha => ?_⟩
      have : a ≠ a0 := fun h => ha (by rw [h, ha0])
      simp [Function.update, this]

/-- `pinOff()` writes the PORTn register of the instance only. -/
theorem pinOff_frame (p : smoothLED) (hw : Hardware) :
    PortFrame hw (p.pinOff hw) ∧
    ∀ a, p._portRegister ≠ some a → (p.pinOff hw).port a = hw.port a := by
  unfold smoothLED.pinOff
  split
  · exact ⟨portFrame_refl hw, fun _ _ => rfl⟩
  · rename_i a0 ha0
    split_ifs
    all_goals
      refine ⟨portFrame_refl hw, fun a ha => ?_⟩
      have : a ≠ a0 := fun h => ha (by rw [h, ha0])
      simp [Function.update, this]

/-- The loop body of `pwmISR()` writes the PORTn register of the instance only. -/
theorem pwm_body_frame (c : Nat) (p : smoothLED) (hw : Hardware) :
    PortFrame hw (smoothLED.pwmISR.body c p hw) ∧
    ∀ a, p._portRegister ≠ some a → (smoothLED.pwmISR.body c p hw).port a = hw.port a := by
  unfold smoothLED.pwmISR.body
  split_ifs
  · exact pinOff_frame p hw
  · exact pinOn_frame p hw
  · exact ⟨portFrame_refl hw, fun _ _ => rfl⟩
  · exact ⟨portFrame_refl hw, fun _ _ => rfl⟩

/-- The loop of `pwmISR()` writes PORTn registers of its instances only. -/
theorem pwm_loop_frame (c : Nat) :
    ∀ (l : List smoothLED) (hw : Hardware),
      PortFrame hw (smoothLED.pwmISR.loop c l hw) ∧
      ∀ a, (∀ p ∈ l, p._portRegister ≠ some a) →
        (smoothLED.pwmISR.loop c l hw).port a = hw.port a
  | [], hw => ⟨portFrame_refl hw, fun _ _ => rfl⟩
  | p :: rest, hw => by
    obtain ⟨h1, h2⟩ := pwm_body_frame c p hw
    obtain ⟨h3, h4⟩ := pwm_loop_frame c rest (smoothLED.pwmISR.body c p hw)
    refine ⟨portFrame_trans h1 h3, fun a ha => ?_⟩
    show (smoothLED.pwmISR.loop c rest (smoothLED.pwmISR.body c p hw)).port a = _
    rw [h4 a (fun q hq => ha q (List.mem_cons_of_mem _ hq)), h2 a (ha p (List.mem_cons_self _ _))]

/-- The registry after `n` invocations of `pwmISR()` is the registry before. -/
theorem pwmTicks_firstLink (sys : System) : ∀ n, (pwmTicks n sys)._firstLink = sys._firstLink
  | 0 => rfl
  | n + 1 => by
    show (pwmTicks n sys)._firstLink = _
    exact pwmTicks_firstLink sys n

/-- The counter after `n` invocations of `pwmISR()`. -/
theorem pwmTicks_counter (sys : System) (h : sys._counterPWM < 256) :
    ∀ n, (pwmTicks n sys)._counterPWM = (sys._counterPWM + n) % 256
  | 0 => by
    show sys._counterPWM = _
    rw [Nat.add_zero, Nat.mod_eq_of_lt h]
  | n + 1 => by
    show ((pwmTicks n sys)._counterPWM + 1) % 256 = _
    rw [pwmTicks_counter sys h n]
    omega

/-- After its own `pinOn()` the pin of an initialised instance is on. -/
theorem outputOn_pinOn (led : smoothLED) (hw : Hardware) (hinit : led._portRegister ≠ none)
    (hmask : led._registerBitMask < 256) : led.outputOn (led.pinOn hw) := by
  unfold smoothLED.outputOn smoothLED.pinBits smoothLED.pinOn
  cases h : led._portRegister with
  | none => exact absurd h hinit
  | some a =>
    dsimp only
    split_ifs
    · simp only [Function.update_same]
      exact clear_and_mask _ _ hmask
    · simp only [Function.update_same]
      exact or_and_mask _ _

/-- After its own `pinOff()` the pin of an initialised instance is off. -/
theorem outputOff_pinOff (led : smoothLED) (hw : Hardware) (hinit : led._portRegister ≠ none)
    (hmask : led._registerBitMask < 256) : led.outputOff (led.pinOff hw) := by
  unfold smoothLED.outputOff smoothLED.pinBits smoothLED.pinOff
  cases h : led._portRegister with
  | none => exact absurd h hinit
  | some a =>
    dsimp only
    split_ifs
    · simp only [Function.update_same]
      exact or_and_mask _ _
    · simp only [Function.update_same]
      exact clear_and_mask _ _ hmask

/-- The `pinOn()` and `pinOff()` of an instance on another pin leave the pin
of `led` alone. -/
theorem pinBits_other (led q : smoothLED) (hw : Hardware)
    (hdis : q._portRegister = led._portRegister →
      q._registerBitMask &&& led._registerBitMask = 0)
    (hmask : led._registerBitMask < 256) :
    led.pinBits (q.pinOn hw) = led.pinBits hw ∧ led.pinBits (q.pinOff hw) = led.pinBits hw := by
  unfold smoothLED.pinBits smoothLED.pinOn smoothLED.pinOff
  cases hq : q._portRegister with
  | none => exact ⟨rfl, rfl⟩
  | some a' =>
    cases hl : led._portRegister with
    | none => exact ⟨rfl, rfl⟩
    | some a =>
      dsimp only
      by_cases ha : a = a'
      · subst ha
        have hd := hdis (by rw [hq, hl])
        constructor <;> split_ifs <;> simp only [Function.update_same]
        · exact clear_and_disjoint _ _ _ hd hmask
        · exact or_and_disjoint _ _ _ hd
        · exact or_and_disjoint _ _ _ hd
        · exact clear_and_disjoint _ _ _ hd hmask
      · constructor <;> split_ifs <;> simp [Function.update, ha]

/-- The loop body of `pwmISR()` for an instance on another pin leaves the pin
of `led` alone. -/
theorem pinBits_body_other (c : Nat) (led q : smoothLED) (hw : Hardware)
    (hdis : q._portRegister = led._portRegister →
      q._registerBitMask &&& led._registerBitMask = 0)
    (hmask : led._registerBitMask < 256) :
    led.pinBits (smoothLED.pwmISR.body c q hw) = led.pinBits hw := by
  obtain ⟨h1, h2⟩ := pinBits_other led q hw hdis hmask
  unfold smoothLED.pwmISR.body
  split_ifs
  · exact h2
  · exact h1
  · rfl
  · rfl

/-- The loop of `pwmISR()` over instances on other pins leaves the pin of
`led` alone. -/
theorem pinBits_loop_others (c : Nat) (led : smoothLED)
    (hmask : led._registerBitMask < 256) :
    ∀ (l : List smoothLED) (hw : Hardware),
      (∀ q ∈ l, q._portRegister = led._portRegister →
        q._registerBitMask &&& led._registerBitMask = 0) →
      led.pinBits (smoothLED.pwmISR.loop c l hw) = led.pinBits hw
  | [], _, _ => rfl
  | q :: rest, hw, h => by
    show led.pinBits (smoothLED.pwmISR.loop c rest (smoothLED.pwmISR.body c q hw)) = _
    rw [pinBits_loop_others c led hmask rest _ (fun p hp => h p (List.mem_cons_of_mem _ hp)),
      pinBits_body_other c led q hw (h q (List.mem_cons_self _ _)) hmask]

/-- What the loop body of `pwmISR()` does to the pin of its own instance,
initialised and in software mode. -/
theorem pwm_body_self (c : Nat) (led : smoothLED) (hw : Hardware)
    (hinit : led._portRegister ≠ none) (hsoft : led._flags &&& SOFTWARE_MODE ≠ 0)
    (hmask : led._registerBitMask < 256) :
    (led._currentCIE = c → led.outputOff (smoothLED.pwmISR.body c led hw)) ∧
    (led._currentCIE ≠ c → c = 0 → led.outputOn (smoothLED.pwmISR.body c led hw)) ∧
    (led._currentCIE ≠ c → c ≠ 0 →
      led.pinBits (smoothLED.pwmISR.body c led hw) = led.pinBits hw) := by
  unfold smoothLED.pwmISR.body
  rw [if_pos ⟨hinit, hsoft⟩]
  refine ⟨fun h => ?_, fun h h0 => ?_, fun h h0 => ?_⟩
  · rw [if_pos h]
    exact outputOff_pinOff led hw hinit hmask
  · rw [if_neg h, if_pos h0]
    exact outputOn_pinOn led hw hinit hmask
  · rw [if_neg h, if_neg h0]

/-- The pin of `led` after the loop of `pwmISR()` depends on the pin before
the loop only, when every other instance of the registry is on another pin. -/
theorem pwm_loop_self (c : Nat) (led : smoothLED) (hinit : led._portRegister ≠ none)
    (hsoft : led._flags &&& SOFTWARE_MODE ≠ 0) (hmask : led._registerBitMask < 256) :
    ∀ (l : List smoothLED) (i : Nat) (hw : Hardware), l[i]? = some led →
      (∀ j q, l[j]? = some q → j ≠ i → q._portRegister = led._portRegister →
        q._registerBitMask &&& led._registerBitMask = 0) →
      (led._currentCIE = c → led.outputOff (smoothLED.pwmISR.loop c l hw)) ∧
      (led._currentCIE ≠ c → c = 0 → led.outputOn (smoothLED.pwmISR.loop c l hw)) ∧
      (led._currentCIE ≠ c → c ≠ 0 →
        led.pinBits (smoothLED.pwmISR.loop c l hw) = led.pinBits hw)
  | [], _, _, h, _ => by simp at h
  | q :: rest, 0, hw, h, hothers => by
    simp only [List.getElem?_cons_zero, Option.some.injEq] at h
    subst h
    have hrest : ∀ p ∈ rest, p._portRegister = q._portRegister →
        p._registerBitMask &&& q._registerBitMask = 0 := by
      intro p hp
      obtain ⟨n, hn⟩ := List.getElem?_of_mem hp
      exact hothers (n + 1) p (by simpa using hn) (by omega)
    have hkeep := pinBits_loop_others c q hmask rest (smoothLED.pwmISR.body c q hw) hrest
    obtain ⟨b1, b2, b3⟩ := pwm_body_self c q hw hinit hsoft hmask
    refine ⟨fun h => ?_, fun h h0 => ?_, fun h h0 => ?_⟩
    · have := b1 h
      unfold smoothLED.outputOff at this ⊢
      exact hkeep.trans this
    · have := b2 h h0
      unfold smoothLED.outputOn at this ⊢
      exact hkeep.trans this
    · exact hkeep.trans (b3 h h0)
  | q :: rest, i + 1, hw, h, hothers => by
    simp only [List.getElem?_cons_succ] at h
    have hq := pinBits_body_other c led q hw (hothers 0 q List.getElem?_cons_zero (by omega)) hmask
    obtain ⟨r1, r2, r3⟩ := pwm_loop_self c led hinit hsoft hmask rest i
      (smoothLED.pwmISR.body c q hw) h
      (fun j p hj hji => hothers (j + 1) p (by simpa using hj) (by omega))
    exact ⟨r1, r2, fun h h0 => (r3 h h0).trans hq⟩

/-- The pin of an instance with a non-zero mask is not on and off at once. -/
theorem not_on_and_off (led : smoothLED) (hw : Hardware) (hmask : led._registerBitMask ≠ 0) :
    ¬ (led.outputOn hw ∧ led.outputOff hw) := by
  unfold smoothLED.outputOn smoothLED.outputOff
  rintro ⟨h1, h2⟩
  rw [h1] at h2
  split_ifs at h2
  · exact hmask h2.symm
  · exact hmask h2

/-- The pin of an initialised software PWM instance after `k + 1` invocations
of `pwmISR()` that start with the counter 0. -/
theorem pwm_pin_after (sys : System) (i : Nat) (led : smoothLED)
    (hled : sys._firstLink[i]? = some led) (hinit : led._portRegister ≠ none)
    (hsoft : led._flags &&& SOFTWARE_MODE ≠ 0) (hmask : led._registerBitMask < 256)
    (hcounter : sys._counterPWM = 0)
    (hothers : ∀ j q, sys._firstLink[j]? = some q → j ≠ i →
      q._portRegister = led._portRegister → q._registerBitMask &&& led._registerBitMask = 0) :
    ∀ k, k < 256 →
      (k < led._currentCIE → led.outputOn (pwmTicks (k + 1) sys).hw) ∧
      (led._currentCIE ≤ k → led.outputOff (pwmTicks (k + 1) sys).hw) := by
  have hstep : ∀ k, k < 256 → (pwmTicks (k + 1) sys).hw =
      smoothLED.pwmISR.loop k sys._firstLink (pwmTicks k sys).hw := by
    intro k hk
    show smoothLED.pwmISR.loop (pwmTicks k sys)._counterPWM (pwmTicks k sys)._firstLink
      (pwmTicks k sys).hw = _
    rw [pwmTicks_firstLink, pwmTicks_counter sys (by omega) k, hcounter, Nat.zero_add,
      Nat.mod_eq_of_lt hk]
  intro k
  induction k with
  | zero =>
    intro hk
    obtain ⟨r1, r2, _⟩ := pwm_loop_self 0 led hinit hsoft hmask sys._firstLink i
      (pwmTicks 0 sys).hw hled hothers
    rw [hstep 0 hk]
    exact ⟨fun h => r2 (by omega) rfl, fun h => r1 (by omega)⟩
  | succ k ih =>
    intro hk
    obtain ⟨ih1, ih2⟩ := ih (by omega)
    obtain ⟨r1, _, r3⟩ := pwm_loop_self (k + 1) led hinit hsoft hmask sys._firstLink i
      (pwmTicks (k + 1) sys).hw hled hothers
    rw [hstep (k + 1) hk]
    refine ⟨fun h => ?_, fun h => ?_⟩
    · have hb := r3 (by omega) (by omega)
      have := ih1 (by omega)
      unfold smoothLED.outputOn at this ⊢
      exact hb.trans this
    · by_cases hL : led._currentCIE = k + 1
      · exact r1 hL
      · have hb := r3 hL (by omega)
        have := ih2 (by omega)
        unfold smoothLED.outputOff at this ⊢
        exact hb.trans this

/-! ## Theorems: the PWM tick -/

/-- C13: PWM duty cycle. For an initialised channel in software mode with the
corrected level `L = _currentCIE`, in any registry whose other channels are on
other pins, 256 consecutive `pwmISR` invocations that start with the shared
counter at 0 leave the channel (and so `L`) as it is; after the invocation
with counter `k` the output is on when `k < L` and off when `L <= k`, so it
is on after exactly `L` of the invocations and off after the other
`256 - L`. -/
theorem C13_pwm_duty_cycle (sys : System) (i : Nat) (led : smoothLED)
    (hled : sys._firstLink[i]? = some led) (hinit : led._portRegister ≠ none)
    (hsoft : led._flags &&& SOFTWARE_MODE ≠ 0)
    (hmask0 : led._registerBitMask ≠ 0) (hmask : led._registerBitMask < 256)
    (hL : led._currentCIE ≤ 255) (hcounter : sys._counterPWM = 0)
    (hothers : ∀ j q, sys._firstLink[j]? = some q → j ≠ i →
      q._portRegister = led._portRegister → q._registerBitMask &&& led._registerBitMask = 0) :
    (∀ n, (pwmTicks n sys)._firstLink[i]? = some led) ∧
    (∀ k, k < 256 →
      (k < led._currentCIE → led.outputOn (pwmTicks (k + 1) sys).hw ∧
        ¬ led.outputOff (pwmTicks (k + 1) sys).hw) ∧
      (led._currentCIE ≤ k → led.outputOff (pwmTicks (k + 1) sys).hw ∧
        ¬ led.outputOn (pwmTicks (k + 1) sys).hw)) ∧
    ((Finset.range 256).filter fun k => led.outputOn (pwmTicks (k + 1) sys).hw).card =
      led._currentCIE ∧
    ((Finset.range 256).filter fun k => led.outputOff (pwmTicks (k + 1) sys).hw).card =
      256 - led._currentCIE := by
  have hpin := pwm_pin_after sys i led hled hinit hsoft hmask hcounter hothers
  have hex : ∀ k, k < 256 →
      (k < led._currentCIE → led.outputOn (pwmTicks (k + 1) sys).hw ∧
        ¬ led.outputOff (pwmTicks (k + 1) sys).hw) ∧
      (led._currentCIE ≤ k → led.outputOff (pwmTicks (k + 1) sys).hw ∧
        ¬ led.outputOn (pwmTicks (k + 1) sys).hw) := by
    intro k hk
    obtain ⟨h1, h2⟩ := hpin k hk
    exact ⟨fun h => ⟨h1 h, fun hoff => not_on_and_off led _ hmask0 ⟨h1 h, hoff⟩⟩,
      fun h => ⟨h2 h, fun hon => not_on_and_off led _ hmask0 ⟨hon, h2 h⟩⟩⟩
  refine ⟨fun n => by rw [pwmTicks_firstLink]; exact hled, hex, ?_, ?_⟩
  · have : ((Finset.range 256).filter fun k => led.outputOn (pwmTicks (k + 1) sys).hw) =
        Finset.range led._currentCIE := by
      ext k
      simp only [Finset.mem_filter, Finset.mem_range]
      constructor
      · rintro ⟨hk, hon⟩
        by_contra hlt
        exact ((hex k hk).2 (by omega)).2 hon
      · intro hk
        exact ⟨by omega, ((hex k (by omega)).1 hk).1⟩
    rw [this, Finset.card_range]
  · have : ((Finset.range 256).filter fun k => led.outputOff (pwmTicks (k + 1) sys).hw) =
        Finset.Ico led._currentCIE 256 := by
      ext k
      simp only [Finset.mem_filter, Finset.mem_range, Finset.mem_Ico]
      constructor
      · rintro ⟨hk, hoff⟩
        refine ⟨?_, hk⟩
        by_contra hlt
        exact ((hex k hk).1 (by omega)).2 hoff
      · rintro ⟨hk1, hk2⟩
        exact ⟨hk2, ((hex k hk2).2 hk1).1⟩
    rw [this, Nat.card_Ico]

/-- Witness of C13: the channel `examplePwmLED` with the corrected level 100,
second in a registry of two channels on the same port. -/
theorem C13_pwm_duty_cycle_witness :
    ((Finset.range 256).filter fun k => examplePwmLED.outputOn
      (pwmTicks (k + 1) { _firstLink := [exampleFullOnLED, examplePwmLED] }).hw).card = 100 ∧
    ((Finset.range 256).filter fun k => examplePwmLED.outputOff
      (pwmTicks (k + 1) { _firstLink := [exampleFullOnLED, examplePwmLED] }).hw).card = 156 :=
  have h := C13_pwm_duty_cycle { _firstLink := [exampleFullOnLED, examplePwmLED] } 1
    examplePwmLED rfl (by decide) (by decide) (by decide) (by decide) (by decide) rfl
    (by
      intro j q hj hji _
      match j, hj, hji with
      | 0, hj, _ =>
        simp only [List.getElem?_cons_zero, Option.some.injEq] at hj
        subst hj
        decide
      | 1, _, hji => exact absurd rfl hji
      | j + 2, hj, _ => simp at hj)
  ⟨h.2.2.1, h.2.2.2⟩

set_option maxRecDepth 100000 in
/-- C14 (code evaluated at the failing input): two software PWM channels, the
first at level 255 and the second at level 181. After `faderISR` the first
has the active-PWM flag clear, the corrected level 236 and its pin driven on,
and the PWM tick stays enabled for the second. `pwmISR` tests `SOFTWARE_MODE`
only: the invocation with the counter 236 (the 237th after counter 0) drives
the pin of the first channel off. -/
theorem C14_pwmISR_ignores_active_flag :
    exampleTwoLEDs._firstLink = [exampleFullOnLED, examplePwmLED] ∧
    exampleFullOnLED._flags &&& PWM_ACTIVE = 0 ∧
    exampleTwoLEDs.hw.TOIE1 = true ∧
    exampleFullOnLED.outputOn exampleTwoLEDs.hw ∧
    exampleFullOnLED.outputOn (pwmTicks 236 exampleTwoLEDs).hw ∧
    exampleFullOnLED.outputOff (pwmTicks 237 exampleTwoLEDs).hw ∧
    exampleFullOnLED.outputOff
      (smoothLED.pwmISR { exampleTwoLEDs with _counterPWM := 236 }).hw := by
  refine ⟨by decide, by decide, by decide, by decide, by decide, by decide, by decide⟩

/-- C15: one `pwmISR` invocation changes no member of any channel (levels,
corrected level, hold, pacing, flags, queue) and no register except PORTn
registers of channels of the registry, in particular neither tick enable; it
increments the shared counter by 1 modulo 256, so 256 invocations return an
8-bit counter to its starting value. -/
theorem C15_pwmISR_read_only (sys : System) :
    (smoothLED.pwmISR sys)._firstLink = sys._firstLink ∧
    (smoothLED.pwmISR sys).hw.OCIE0A = sys.hw.OCIE0A ∧
    (smoothLED.pwmISR sys).hw.TOIE1 = sys.hw.TOIE1 ∧
    PortFrame sys.hw (smoothLED.pwmISR sys).hw ∧
    (∀ a, (∀ p ∈ sys._firstLink, p._portRegister ≠ some a) →
      (smoothLED.pwmISR sys).hw.port a = sys.hw.port a) ∧
    (smoothLED.pwmISR sys)._counterPWM = (sys._counterPWM + 1) % 256 ∧
    (sys._counterPWM < 256 →
      (pwmTicks 256 sys)._counterPWM = sys._counterPWM ∧
      (pwmTicks 256 sys)._firstLink = sys._firstLink) := by
  obtain ⟨h1, h2⟩ := pwm_loop_frame sys._counterPWM sys._firstLink sys.hw
  refine ⟨rfl, h1.2.1, h1.2.2.1, h1, h2, rfl, fun hc => ⟨?_, pwmTicks_firstLink sys 256⟩⟩
  rw [pwmTicks_counter sys hc 256]
  omega

/-- Witness of C15: 256 invocations on the two example channels, counter 7. -/
theorem C15_pwmISR_read_only_witness :
    (pwmTicks 256 { exampleTwoLEDs with _counterPWM := 7 })._counterPWM = 7 ∧
    (pwmTicks 256 { exampleTwoLEDs with _counterPWM := 7 })._firstLink =
      exampleTwoLEDs._firstLink :=
  (C15_pwmISR_read_only { exampleTwoLEDs with _counterPWM := 7 }).2.2.2.2.2.2 (by decide)

/-! ## Lemmas: `begin()` -/

/-- The loop of `begin()` finds an instance other than `this` with the port
register and the bit mask of `this`. -/
theorem scan_none_of_dup (pr : Option Nat) (m i : Nat) :
    ∀ (l : List smoothLED) (k : Nat) (fb : Bool) (j : Nat) (q : smoothLED),
      l[j]? = some q → k + j ≠ i → q._portRegister = pr → q._registerBitMask = m →
      smoothLED.begin.scan pr m i l k fb = none
  | [], _, _, _, _, h, _, _, _ => by simp at h
  | p :: rest, k, fb, 0, q, h, hk, h1, h2 => by
    simp only [List.getElem?_cons_zero, Option.some.injEq] at h
    subst h
    unfold smoothLED.begin.scan
    rw [if_pos ⟨h1, h2, by omega⟩]
  | p :: rest, k, fb, j + 1, q, h, hk, h1, h2 => by
    simp only [List.getElem?_cons_succ] at h
    unfold smoothLED.begin.scan
    by_cases hdup : p._portRegister = pr ∧ p._registerBitMask = m ∧ k ≠ i
    · rw [if_pos hdup]
    · rw [if_neg hdup]
      exact scan_none_of_dup pr m i rest (k + 1) _ j q h (by omega) h1 h2

/-- The loop of `begin()` runs to its end when no instance other than `this`
has the port register and the bit mask of `this`. -/
theorem scan_some_of_free (pr : Option Nat) (m i : Nat) :
    ∀ (l : List smoothLED) (k : Nat) (fb : Bool),
      (∀ j q, l[j]? = some q → k + j ≠ i →
        ¬ (q._portRegister = pr ∧ q._registerBitMask = m)) →
      ∃ fb', smoothLED.begin.scan pr m i l k fb = some fb'
  | [], _, fb, _ => ⟨fb, rfl⟩
  | p :: rest, k, fb, h => by
    unfold smoothLED.begin.scan
    by_cases hdup : p._portRegister = pr ∧ p._registerBitMask = m ∧ k ≠ i
    · exact absurd ⟨hdup.1, hdup.2.1⟩ (h 0 p List.getElem?_cons_zero (by
        have := hdup.2.2
        omega))
    · rw [if_neg hdup]
      exact scan_some_of_free pr m i rest (k + 1) _
        (fun j q hj hk => h (j + 1) q (by simpa using hj) (by omega))

/-- `set()` changes neither the port register, nor the bit mask, nor the flags. -/
theorem set_keeps_pin (b : Board) (alloc : Bool) (val speed delay : Nat) (led : smoothLED)
    (hw : Hardware) :
    (led.set b alloc val speed delay hw).1._portRegister = led._portRegister ∧
    (led.set b alloc val speed delay hw).1._registerBitMask = led._registerBitMask ∧
    (led.set b alloc val speed delay hw).1._flags = led._flags := by
  unfold smoothLED.set
  dsimp only
  split_ifs <;> exact ⟨rfl, rfl, rfl⟩

/-- The timer part of `begin()` changes only `_timerPWMPin`, `_PWMRegister`
and `_flags`. -/
theorem timerSetup_frame (b : Board) (pin : Nat) (this : smoothLED) (hw : Hardware) :
    (smoothLED.begin.timerSetup b pin this hw).1._portRegister = this._portRegister ∧
    (smoothLED.begin.timerSetup b pin this hw).1._registerBitMask = this._registerBitMask ∧
    (smoothLED.begin.timerSetup b pin this hw).1._currentLevel = this._currentLevel ∧
    (smoothLED.begin.timerSetup b pin this hw).1._targetLevel = this._targetLevel ∧
    (smoothLED.begin.timerSetup b pin this hw).1._waitTime = this._waitTime ∧
    (smoothLED.begin.timerSetup b pin this hw).1._nextSet = this._nextSet := by
  unfold smoothLED.begin.timerSetup
  dsimp only
  split_ifs
  · obtain ⟨d1, d2, _, _, d5, d6, d7, _, _, d10⟩ := switchHardwarePWM_frame b true
      { this with _timerPWMPin := b.digitalPinToTimer pin } hw
    unfold smoothLED.begin.selectRegister
    split_ifs <;> exact ⟨d1, d2, d5, d7, d6, d10⟩
  · exact ⟨rfl, rfl, rfl, rfl, rfl, rfl⟩
  · obtain ⟨d1, d2, _, _, d5, d6, d7, _, _, d10⟩ := switchHardwarePWM_frame b false
      { this with _timerPWMPin := b.digitalPinToTimer pin,
                  _flags := this._flags ||| SOFTWARE_MODE } hw
    exact ⟨d1, d2, d5, d7, d6, d10⟩

/-- The timer part of `begin()` sets `SOFTWARE_MODE` for a pin that is not on
a timer. -/
theorem timerSetup_software (b : Board) (pin : Nat) (this : smoothLED) (hw : Hardware)
    (htimer : b.digitalPinToTimer pin = b.NOT_ON_TIMER) :
    (smoothLED.begin.timerSetup b pin this hw).1._flags &&& SOFTWARE_MODE ≠ 0 := by
  unfold smoothLED.begin.timerSetup smoothLED.switchHardwarePWM
  dsimp only
  rw [if_neg (not_not.mpr htimer), if_pos htimer]
  dsimp only
  rw [or_and_mask]
  decide

/-- On an idle instance `set()` enables both ticks. -/
theorem set_idle_timers (b : Board) (alloc : Bool) (val speed delay : Nat) (led : smoothLED)
    (hw : Hardware) (h : led.idle) :
    (led.set b alloc val speed delay hw).2.OCIE0A = true ∧
    (led.set b alloc val speed delay hw).2.TOIE1 = true := by
  obtain ⟨h1, h2⟩ := h
  simp [smoothLED.set, h1, h2, pwmTimerOn, fadeTimerOn, restoreSREG, cli]

/-- The state that `begin()` leaves when its loop finds no other instance
with the pin: the call returns true, and the instance and the registers are
the result of `set(0)` after the timer part. -/
theorem begin_of_free (b : Board) (alloc : Bool) (i pin flags : Nat) (sys : System)
    (this : smoothLED) (hthis : sys._firstLink[i]? = some this)
    (hpin : pin ≤ b.NUM_DIGITAL_PINS)
    (hfree : ∀ k q, sys._firstLink[k]? = some q → k ≠ i → ¬ q.holdsPin b pin) :
    (smoothLED.begin b alloc i pin flags sys).1 = true ∧
    ∃ hw hw', (smoothLED.begin b alloc i pin flags sys).2._firstLink =
        sys._firstLink.set i
          ((smoothLED.begin.timerSetup b pin (smoothLED.begin.assign b pin flags this)
            hw).1.set b alloc 0 0 0 hw').1 ∧
      (smoothLED.begin b alloc i pin flags sys).2.hw =
        restoreSREG sys.hw.SREG_I
          ((smoothLED.begin.timerSetup b pin (smoothLED.begin.assign b pin flags this)
            hw).1.set b alloc 0 0 0 hw').2 := by
  obtain ⟨fb, hscan⟩ := scan_some_of_free
    (smoothLED.begin.assign b pin flags this)._portRegister
    (smoothLED.begin.assign b pin flags this)._registerBitMask i
    (sys._firstLink.set i (smoothLED.begin.assign b pin flags this)) 0 true
    (by
      intro j q hj hji
      rw [Nat.zero_add] at hji
      rw [List.getElem?_set_ne (Ne.symm hji)] at hj
      exact hfree j q hj hji)
  unfold smoothLED.begin
  simp only [hthis, if_neg (not_lt.mpr hpin), hscan]
  exact ⟨trivial, _, _, rfl, rfl⟩

/-- The call `begin()` returns false when another instance has the pin. -/
theorem begin_of_dup (b : Board) (alloc : Bool) (i j pin flags : Nat) (sys : System)
    (q : smoothLED) (hq : sys._firstLink[j]? = some q) (hij : i ≠ j)
    (hholds : q.holdsPin b pin) : (smoothLED.begin b alloc i pin flags sys).1 = false := by
  unfold smoothLED.begin
  cases hthis : sys._firstLink[i]? with
  | none => rfl
  | some this =>
    dsimp only
    split_ifs
    · rfl
    · have hscan := scan_none_of_dup
        (smoothLED.begin.assign b pin flags this)._portRegister
        (smoothLED.begin.assign b pin flags this)._registerBitMask i
        (sys._firstLink.set i (smoothLED.begin.assign b pin flags this)) 0 true
        j q (by rw [List.getElem?_set_ne hij]; exact hq) (by omega) hholds.1 hholds.2
      simp only [hscan]

/-- The instance after the timer part of `begin()` and `set(0)` has the pin. -/
theorem begin_result_holds (b : Board) (alloc : Bool) (pin flags : Nat) (this : smoothLED)
    (hw hw' : Hardware) :
    ((smoothLED.begin.timerSetup b pin (smoothLED.begin.assign b pin flags this)
      hw).1.set b alloc 0 0 0 hw').1.holdsPin b pin := by
  obtain ⟨s1, s2, _⟩ := set_keeps_pin b alloc 0 0 0
    (smoothLED.begin.timerSetup b pin (smoothLED.begin.assign b pin flags this) hw).1 hw'
  obtain ⟨t1, t2, _⟩ := timerSetup_frame b pin (smoothLED.begin.assign b pin flags this) hw
  exact ⟨s1.trans t1, s2.trans t2⟩

/-- What a call of `begin()` that returns true has established: the pin
passed the range check, no other instance has the pin, the instance itself
has it, and the other instances are as before. -/
theorem begin_true (b : Board) (alloc : Bool) (j pin flags : Nat) (sys : System)
    (h : (smoothLED.begin b alloc j pin flags sys).1 = true) :
    pin ≤ b.NUM_DIGITAL_PINS ∧
    (∀ k q, sys._firstLink[k]? = some q → k ≠ j → ¬ q.holdsPin b pin) ∧
    (∃ q, (smoothLED.begin b alloc j pin flags sys).2._firstLink[j]? = some q ∧
      q.holdsPin b pin) ∧
    (∀ k, k ≠ j →
      (smoothLED.begin b alloc j pin flags sys).2._firstLink[k]? = sys._firstLink[k]?) := by
  cases hthis : sys._firstLink[j]? with
  | none =>
    unfold smoothLED.begin at h
    simp [hthis] at h
  | some this =>
    have hpin : pin ≤ b.NUM_DIGITAL_PINS := by
      by_contra hgt
      unfold smoothLED.begin at h
      simp [hthis, not_le.mp hgt] at h
    have hfree : ∀ k q, sys._firstLink[k]? = some q → k ≠ j → ¬ q.holdsPin b pin := by
      intro k q hq hkj hholds
      rw [begin_of_dup b alloc j k pin flags sys q hq (Ne.symm hkj) hholds] at h
      exact absurd h (by decide)
    obtain ⟨_, hw, hw', hl, _⟩ := begin_of_free b alloc j pin flags sys this hthis hpin hfree
    have hj : j < sys._firstLink.length := (List.getElem?_eq_some.mp hthis).1
    refine ⟨hpin, hfree, ⟨_, by rw [hl, List.getElem?_set_self hj],
      begin_result_holds b alloc pin flags this hw hw'⟩, ?_⟩
    intro k hk
    rw [hl, List.getElem?_set_ne (Ne.symm hk)]

/-! ## Theorems: `begin()`, construction and destruction -/

/-- C17: software fallback. For a pin that passes the range check, that no
other instance of the registry has and that is not on a timer
(`digitalPinToTimer(pin) == NOT_ON_TIMER`), `begin(pin, flags)` returns true
for every value of `flags`, and afterwards the instance has the pin and the
flag `SOFTWARE_MODE`. -/
theorem C17_software_fallback (b : Board) (alloc : Bool) (sys : System) (i pin flags : Nat)
    (this : smoothLED) (hthis : sys._firstLink[i]? = some this)
    (hpin : pin < b.NUM_DIGITAL_PINS)
    (htimer : b.digitalPinToTimer pin = b.NOT_ON_TIMER)
    (hfree : ∀ k q, sys._firstLink[k]? = some q → k ≠ i → ¬ q.holdsPin b pin) :
    (smoothLED.begin b alloc i pin flags sys).1 = true ∧
    ∃ led, (smoothLED.begin b alloc i pin flags sys).2._firstLink[i]? = some led ∧
      led._flags &&& SOFTWARE_MODE ≠ 0 ∧ led.holdsPin b pin := by
  obtain ⟨htrue, hw, hw', hl, _⟩ := begin_of_free b alloc i pin flags sys this hthis
    (Nat.le_of_lt hpin) hfree
  have hi : i < sys._firstLink.length := (List.getElem?_eq_some.mp hthis).1
  refine ⟨htrue, _, by rw [hl, List.getElem?_set_self hi], ?_,
    begin_result_holds b alloc pin flags this hw hw'⟩
  rw [(set_keeps_pin b alloc 0 0 0 _ hw').2.2]
  exact timerSetup_software b pin _ hw htimer

/-- Witness of C17: `begin(13, 0)`, a request for hardware mode on a pin
without a timer, on a fresh instance. -/
theorem C17_software_fallback_witness :
    (smoothLED.begin {} true 0 13 0 { _firstLink := [{}] }).1 = true ∧
    ∃ led, (smoothLED.begin {} true 0 13 0 { _firstLink := [{}] }).2._firstLink[0]? =
        some led ∧
      led._flags &&& SOFTWARE_MODE ≠ 0 ∧ led.holdsPin {} 13 :=
  C17_software_fallback {} true { _firstLink := [{}] } 0 13 0 {} rfl (by decide) (by decide)
    (by
      intro k q hk hk0
      match k, hk, hk0 with
      | 0, _, hk0 => exact absurd rfl hk0
      | k + 1, hk, _ => simp at hk)

/-- C18 (code evaluated at the failing input): the range check of `begin` is
`pin > NUM_DIGITAL_PINS`. For a pin above `NUM_DIGITAL_PINS` the call returns
false and changes nothing; for `pin == NUM_DIGITAL_PINS`, which is not a pin
of the board either, the check passes: on a registry with one fresh instance
the call returns true, the instance takes the port register and bit mask
that the pin macros give for that number, and both ticks are enabled. -/
theorem C18_begin_pin_range (b : Board) (alloc : Bool) (flags : Nat) :
    (∀ (sys : System) (i pin : Nat), pin > b.NUM_DIGITAL_PINS →
      smoothLED.begin b alloc i pin flags sys = (false, sys)) ∧
    (smoothLED.begin b alloc 0 b.NUM_DIGITAL_PINS flags { _firstLink := [{}] }).1 = true ∧
    (∃ led, (smoothLED.begin b alloc 0 b.NUM_DIGITAL_PINS flags
        { _firstLink := [{}] }).2._firstLink[0]? = some led ∧
      led.holdsPin b b.NUM_DIGITAL_PINS) ∧
    (smoothLED.begin b alloc 0 b.NUM_DIGITAL_PINS flags { _firstLink := [{}] }).2.hw.TOIE1 =
      true := by
  have hfree : ∀ k q, ({ _firstLink := [{}] } : System)._firstLink[k]? = some q → k ≠ 0 →
      ¬ q.holdsPin b b.NUM_DIGITAL_PINS := by
    intro k q hk hk0
    match k, hk, hk0 with
    | 0, _, hk0 => exact absurd rfl hk0
    | k + 1, hk, _ => simp at hk
  obtain ⟨htrue, hw, hw', _, hhw⟩ := begin_of_free b alloc 0 b.NUM_DIGITAL_PINS flags
    { _firstLink := [{}] } {} rfl (le_refl _) hfree
  refine ⟨?_, htrue, (begin_true b alloc 0 _ flags _ htrue).2.2.1, ?_⟩
  · intro sys i pin hpin
    unfold smoothLED.begin
    cases sys._firstLink[i]? with
    | none => rfl
    | some this => simp only [if_pos hpin]
  · rw [hhw]
    obtain ⟨_, _, t3, t4, t5, _⟩ := timerSetup_frame b b.NUM_DIGITAL_PINS
      (smoothLED.begin.assign b b.NUM_DIGITAL_PINS flags {}) hw
    exact (set_idle_timers b alloc 0 0 0 _ hw' ⟨t3.trans t4.symm, t5⟩).2

/-- The loop that frees the stored commands ends with an empty list. -/
theorem freeSets_nil : ∀ q : List setStructure, freeSets q = []
  | [] => rfl
  | _ :: next => freeSets_nil next

/-- Counterexample to C19 as worded: in a registry of three channels the
destructor of the second leaves the first only (the third is removed as
well), and the destructor of the first leaves an empty registry and disables
both ticks although two channels are still alive. -/
theorem C19_destructor_counterexample :
    ((smoothLED.destructor 1 exampleThree).map fun r => r.2._firstLink) =
      some [exampleLED] ∧
    ((smoothLED.destructor 1 exampleThree).map fun r => r.2._firstLink) ≠
      some [exampleLED, examplePwmLED] ∧
    ((smoothLED.destructor 0 exampleThree).map
      fun r => (r.2._firstLink, r.2.hw.OCIE0A, r.2.hw.TOIE1)) = some ([], false, false) ∧
    exampleThree.hw.OCIE0A = true ∧ exampleThree.hw.TOIE1 = true := by
  decide

/-- C19 (amended): the destructor of the channel at position `i` empties the
pending queue of the channel and cuts the registry off at `i`. For the last
link, which is the case the code is written for (instances are destroyed in
the reverse order of their construction), this removes exactly that channel
and keeps every other channel in its place. Both tick sources are disabled
exactly when the registry is empty afterwards, that is for the first link;
otherwise the tick enables, like all other registers, are unchanged. -/
theorem C19_destructor (sys : System) (i : Nat) (led : smoothLED)
    (hled : sys._firstLink[i]? = some led) :
    ∃ dead sys', smoothLED.destructor i sys = some (dead, sys') ∧
      dead._nextSet = [] ∧
      sys'._firstLink = sys._firstLink.take i ∧
      (i + 1 = sys._firstLink.length → sys'._firstLink ++ [led] = sys._firstLink) ∧
      (sys'._firstLink = [] ↔ i = 0) ∧
      (i = 0 → sys'.hw.OCIE0A = false ∧ sys'.hw.TOIE1 = false) ∧
      (i ≠ 0 → sys'.hw = sys.hw) ∧
      { sys'.hw with OCIE0A := sys.hw.OCIE0A, TOIE1 := sys.hw.TOIE1 } = sys.hw := by
  have hi : i < sys._firstLink.length := (List.getElem?_eq_some.mp hled).1
  have hget : sys._firstLink[i] = led := (List.getElem?_eq_some.mp hled).2
  have hlast : i + 1 = sys._firstLink.length →
      sys._firstLink.take i ++ [led] = sys._firstLink := by
    intro h
    rw [← hget, ← List.concat_eq_append, List.take_concat_get _ _ hi, h, List.take_length]
  unfold smoothLED.destructor
  rw [hled]
  dsimp only
  by_cases h0 : i = 0
  · rw [if_pos h0]
    subst h0
    refine ⟨_, _, rfl, freeSets_nil _, rfl, hlast, ⟨fun _ => rfl, fun _ => rfl⟩,
      fun _ => ⟨rfl, rfl⟩, fun h => absurd rfl h, rfl⟩
  · rw [if_neg h0]
    refine ⟨_, _, rfl, freeSets_nil _, rfl, hlast, ⟨fun h => ?_, fun h => absurd h h0⟩,
      fun h => absurd h h0, fun _ => rfl, rfl⟩
    rcases List.take_eq_nil_iff.mp h with h1 | h1
    · exact h1
    · rw [h1] at hi
      exact absurd hi (by simp)

/-- Witness of C19 (amended): the destructor of the last of three channels. -/
theorem C19_destructor_witness :
    ∃ dead sys', smoothLED.destructor 2 exampleThree = some (dead, sys') ∧
      dead._nextSet = [] ∧ sys'._firstLink ++ [examplePwmLED] = exampleThree._firstLink ∧
      sys'.hw = exampleThree.hw := by
  obtain ⟨dead, sys', h1, h2, _, h4, _, _, h7, _⟩ :=
    C19_destructor exampleThree 2 examplePwmLED rfl
  exact ⟨dead, sys', h1, h2, h4 rfl, h7 (by decide)⟩

/-- C20: a released pin can be claimed again with no residual state. After
the destructor of a channel, `begin(pin)` on a newly constructed channel
returns true when the pin passes the range check of `begin` (as it did for
the destroyed channel) and no other channel of the registry has the pin; the
new channel then has the pin, level 0, target 0, no hold and an empty
queue. -/
theorem C20_reclaim_after_destroy (b : Board) (alloc : Bool) (sys : System)
    (j pin flags : Nat) (dead : smoothLED) (sys' : System)
    (hdestroy : smoothLED.destructor j sys = some (dead, sys'))
    (hpin : pin ≤ b.NUM_DIGITAL_PINS)
    (hfree : ∀ k q, sys._firstLink[k]? = some q → k ≠ j → ¬ q.holdsPin b pin) :
    (smoothLED.constructor sys')._firstLink[sys'._firstLink.length]? = some {} ∧
    (smoothLED.begin b alloc sys'._firstLink.length pin flags
      (smoothLED.constructor sys')).1 = true ∧
    ∃ led, (smoothLED.begin b alloc sys'._firstLink.length pin flags
        (smoothLED.constructor sys')).2._firstLink[sys'._firstLink.length]? = some led ∧
      led.holdsPin b pin ∧ led._currentLevel = 0 ∧ led._targetLevel = 0 ∧
      led._waitTime = 0 ∧ led._nextSet = [] := by
  have hl : sys'._firstLink = sys._firstLink.take j := by
    unfold smoothLED.destructor at hdestroy
    cases hj : sys._firstLink[j]? with
    | none => simp [hj] at hdestroy
    | some this =>
      simp only [hj] at hdestroy
      split_ifs at hdestroy with h0
      · simp only [Option.some.injEq, Prod.mk.injEq] at hdestroy
        rw [← hdestroy.2, h0]
        rfl
      · simp only [Option.some.injEq, Prod.mk.injEq] at hdestroy
        rw [← hdestroy.2]
  have hnew : (smoothLED.constructor sys')._firstLink[sys'._firstLink.length]? = some {} := by
    show (sys'._firstLink ++ [{}])[sys'._firstLink.length]? = some {}
    rw [List.getElem?_append_right (le_refl _), Nat.sub_self]
    rfl
  have hfree' : ∀ k q, (smoothLED.constructor sys')._firstLink[k]? = some q →
      k ≠ sys'._firstLink.length → ¬ q.holdsPin b pin := by
    intro k q hk hkn
    change (sys'._firstLink ++ [{}])[k]? = some q at hk
    rcases Nat.lt_or_gt_of_ne hkn with hlt | hgt
    · rw [List.getElem?_append_left hlt, hl] at hk
      have hkj : k < j := by
        rw [hl, List.length_take] at hlt
        omega
      rw [List.getElem?_take_of_lt hkj] at hk
      exact hfree k q hk (by omega)
    · rw [List.getElem?_append_right (by omega)] at hk
      have : k - sys'._firstLink.length = (k - sys'._firstLink.length - 1) + 1 := by omega
      rw [this] at hk
      simp at hk
  obtain ⟨htrue, hw, hw', hres, _⟩ := begin_of_free b alloc sys'._firstLink.length pin flags
    (smoothLED.constructor sys') {} hnew hpin hfree'
  have hn : sys'._firstLink.length < (smoothLED.constructor sys')._firstLink.length := by
    show _ < (sys'._firstLink ++ [({} : smoothLED)]).length
    simp
  obtain ⟨_, _, t3, t4, t5, t6⟩ := timerSetup_frame b pin (smoothLED.begin.assign b pin flags {})
    hw
  obtain ⟨f1, f2, f3, f4, _⟩ := set_idle_fields b alloc
    (smoothLED.begin.timerSetup b pin (smoothLED.begin.assign b pin flags {}) hw).1 hw' 0 0 0
    ⟨t3.trans t4.symm, t5⟩
  exact ⟨hnew, htrue, _, by rw [hres, List.getElem?_set_self hn],
    begin_result_holds b alloc pin flags {} hw hw', f4 rfl, f2, f3, f1.trans t6⟩

/-- Witness of C20: the channel `exampleLED` on pin 13 is destroyed, and
`begin(13)` on a new channel succeeds. -/
theorem C20_reclaim_after_destroy_witness :
    exampleLED.holdsPin {} 13 ∧
    (smoothLED.begin {} true 0 13 4
      (smoothLED.constructor
        { _firstLink := [],
          hw := restoreSREG true (pwmTimerOff (fadeTimerOff (cli {}))) })).1 = true ∧
    ∃ led, (smoothLED.begin {} true 0 13 4
        (smoothLED.constructor
          { _firstLink := [],
            hw := restoreSREG true (pwmTimerOff (fadeTimerOff (cli {}))) })).2._firstLink[0]? =
          some led ∧
      led.holdsPin {} 13 ∧ led._currentLevel = 0 ∧ led._targetLevel = 0 ∧
      led._waitTime = 0 ∧ led._nextSet = [] :=
  have h := C20_reclaim_after_destroy {} true { _firstLink := [exampleLED] } 0 13 4 exampleLED
    { _firstLink := [], hw := restoreSREG true (pwmTimerOff (fadeTimerOff (cli {}))) }
    rfl (by decide)
    (by
      intro k q hk hk0
      match k, hk, hk0 with
      | 0, _, hk0 => exact absurd rfl hk0
      | k + 1, hk, _ => simp at hk)
  ⟨by decide, h.2.1, h.2.2⟩

/-! ## Lemmas: the loop of the fade tick, branch by branch -/

/-- The instance that `switchHardwarePWM` returns does not depend on the
registers. -/
theorem switchHardwarePWM_led (b : Board) (state : Bool) (p : smoothLED) (hw hw' : Hardware) :
    (p.switchHardwarePWM b state hw).1 = (p.switchHardwarePWM b state hw').1 := by
  unfold smoothLED.switchHardwarePWM
  split_ifs <;> rfl

/-- The instance that the drive step returns does not depend on the
registers. -/
theorem output_led (b : Board) (p : smoothLED) (hw hw' : Hardware) :
    (smoothLED.faderISR.output b p hw).1 = (smoothLED.faderISR.output b p hw').1 := by
  unfold smoothLED.faderISR.output
  dsimp only
  rw [switchHardwarePWM_led b false _ hw hw', switchHardwarePWM_led b true _ hw hw']
  split_ifs <;> rfl

/-- The instance that the second half of the loop body returns depends on
the instance only. -/
theorem drive_led (b : Board) (p : smoothLED) (st st' : FaderState) :
    (smoothLED.faderISR.drive b p st).1 = (smoothLED.faderISR.drive b p st').1 :=
  output_led b _ st.hw st'.hw

/-- The instance that the loop body returns is the one `pass` gives. -/
theorem body_led (b : Board) (alloc : Bool) (p : smoothLED) (st : FaderState) :
    (smoothLED.faderISR.body b alloc p st).1 = smoothLED.faderISR.pass b p := by
  unfold smoothLED.faderISR.pass smoothLED.faderISR.body
  split_ifs with h0 h1 h2
  · rfl
  · exact drive_led b _ _ _
  · exact drive_led b _ _ _
  · split
    · dsimp only
      rw [set_idle_led b alloc true _ _ _ p st.hw {} ⟨not_not.mp h1, not_not.mp h2⟩]
    · exact drive_led b _ _ _

/-- The loop body skips an instance that `begin()` has not initialised. -/
theorem body_uninit (b : Board) (alloc : Bool) (p : smoothLED) (st : FaderState)
    (h0 : p._portRegister = none) : smoothLED.faderISR.body b alloc p st = (p, st, false) := by
  unfold smoothLED.faderISR.body
  rw [if_pos h0]

/-- The loop body on a fading instance: the fade step, then the drive step. -/
theorem body_fading (b : Board) (alloc : Bool) (p : smoothLED) (st : FaderState)
    (h0 : p._portRegister ≠ none) (h1 : p._currentLevel ≠ p._targetLevel) :
    smoothLED.faderISR.body b alloc p st =
      ((smoothLED.faderISR.drive b (smoothLED.faderISR.fade p)
          { st with turnFadeOff := false }).1,
       (smoothLED.faderISR.drive b (smoothLED.faderISR.fade p)
          { st with turnFadeOff := false }).2, false) := by
  unfold smoothLED.faderISR.body
  rw [if_neg h0, if_pos h1]

/-- The loop body on a holding instance: one millisecond less to wait, then
the drive step. -/
theorem body_holding (b : Board) (alloc : Bool) (p : smoothLED) (st : FaderState)
    (h0 : p._portRegister ≠ none) (h1 : p._currentLevel = p._targetLevel)
    (h2 : p._waitTime ≠ 0) :
    smoothLED.faderISR.body b alloc p st =
      ((smoothLED.faderISR.drive b { p with _waitTime := p._waitTime - 1 }
          { st with turnFadeOff := false }).1,
       (smoothLED.faderISR.drive b { p with _waitTime := p._waitTime - 1 }
          { st with turnFadeOff := false }).2, false) := by
  unfold smoothLED.faderISR.body
  rw [if_neg h0, if_neg (not_not.mpr h1), if_pos h2]

/-- The loop body on an instance that passes the test of `set()` and has a
stored command: the command is applied with `set()`, unlinked, and the loop
is left. -/
theorem body_popping (b : Board) (alloc : Bool) (p : smoothLED) (st : FaderState)
    (cmd : setStructure) (rest : List setStructure)
    (h0 : p._portRegister ≠ none) (hidle : p.idle) (hq : p._nextSet = cmd :: rest) :
    smoothLED.faderISR.body b alloc p st =
      ({ (p.set b alloc cmd.targetLevel cmd.changeSpeed cmd.delayMS st.hw).1 with
           _nextSet := rest },
       { st with hw := (p.set b alloc cmd.targetLevel cmd.changeSpeed cmd.delayMS st.hw).2,
                 turnFadeOff := false }, true) := by
  have hs := (set_idle_fields b alloc p st.hw cmd.targetLevel cmd.changeSpeed cmd.delayMS
    hidle).1
  unfold smoothLED.faderISR.body
  rw [if_neg h0, if_neg (not_not.mpr hidle.1), if_neg (not_not.mpr hidle.2)]
  simp only [hq]
  rw [hs, hq]
  rfl

/-- The loop body on an instance without work: the drive step only. -/
theorem body_resting (b : Board) (alloc : Bool) (p : smoothLED) (st : FaderState)
    (h0 : p._portRegister ≠ none) (hrest : p.atRest) :
    smoothLED.faderISR.body b alloc p st =
      ((smoothLED.faderISR.drive b p st).1, (smoothLED.faderISR.drive b p st).2, false) := by
  obtain ⟨h1, h2, h3⟩ := hrest
  unfold smoothLED.faderISR.body
  rw [if_neg h0, if_neg (not_not.mpr h1), if_neg (not_not.mpr h2)]
  simp only [h3]

/-- The loop body leaves the loop exactly on an initialised instance that
passes the test of `set()` and has a stored command. -/
theorem body_break_iff (b : Board) (alloc : Bool) (p : smoothLED) (st : FaderState) :
    (smoothLED.faderISR.body b alloc p st).2.2 = true ↔
      (p._portRegister ≠ none ∧ p.idle ∧ p._nextSet ≠ []) := by
  by_cases h0 : p._portRegister = none
  · rw [body_uninit b alloc p st h0]
    simp [h0]
  · by_cases h1 : p._currentLevel ≠ p._targetLevel
    · rw [body_fading b alloc p st h0 h1]
      simp [smoothLED.idle, h1]
    · have h1' : p._currentLevel = p._targetLevel := not_not.mp h1
      by_cases h2 : p._waitTime ≠ 0
      · rw [body_holding b alloc p st h0 h1' h2]
        simp [smoothLED.idle, h2]
      · have h2' : p._waitTime = 0 := not_not.mp h2
        cases hq : p._nextSet with
        | nil =>
          rw [body_resting b alloc p st h0 ⟨h1', h2', hq⟩]
          simp
        | cons cmd rest =>
          rw [body_popping b alloc p st cmd rest h0 ⟨h1', h2'⟩ hq]
          simp [smoothLED.idle, h0, h1', h2']

/-- A pass of the loop body that does not leave the loop keeps the queue. -/
theorem body_keeps_queue (b : Board) (alloc : Bool) (p : smoothLED) (st : FaderState)
    (h : (smoothLED.faderISR.body b alloc p st).2.2 = false) :
    (smoothLED.faderISR.body b alloc p st).1._nextSet = p._nextSet := by
  by_cases h0 : p._portRegister = none
  · rw [body_uninit b alloc p st h0]
  · by_cases h1 : p._currentLevel ≠ p._targetLevel
    · rw [body_fading b alloc p st h0 h1]
      exact (drive_frame b _ _).2.2.2.2.2.2.2.2.2.trans (fade_frame p).1
    · have h1' : p._currentLevel = p._targetLevel := not_not.mp h1
      by_cases h2 : p._waitTime ≠ 0
      · rw [body_holding b alloc p st h0 h1' h2]
        exact (drive_frame b _ _).2.2.2.2.2.2.2.2.2
      · have h2' : p._waitTime = 0 := not_not.mp h2
        cases hq : p._nextSet with
        | nil =>
          rw [body_resting b alloc p st h0 ⟨h1', h2', hq⟩]
          exact (drive_frame b _ _).2.2.2.2.2.2.2.2.2.trans hq
        | cons cmd rest =>
          rw [body_popping b alloc p st cmd rest h0 ⟨h1', h2'⟩ hq] at h
          simp at h

/-! ## Lemmas: the tick enables in the fade tick -/

/-- `switchHardwarePWM` writes neither tick enable. -/
theorem switchHardwarePWM_timers (b : Board) (state : Bool) (p : smoothLED) (hw : Hardware) :
    (p.switchHardwarePWM b state hw).2.OCIE0A = hw.OCIE0A ∧
    (p.switchHardwarePWM b state hw).2.TOIE1 = hw.TOIE1 := by
  unfold smoothLED.switchHardwarePWM
  split_ifs <;> exact ⟨rfl, rfl⟩

/-- A write to the PWM register writes neither tick enable. -/
theorem writePWMRegister_timers (p : smoothLED) (v : Nat) (hw : Hardware) :
    (writePWMRegister p v hw).OCIE0A = hw.OCIE0A ∧
    (writePWMRegister p v hw).TOIE1 = hw.TOIE1 := by
  unfold writePWMRegister
  split <;> exact ⟨rfl, rfl⟩

/-- The drive step writes neither tick enable. -/
theorem output_timers (b : Board) (p : smoothLED) (hw : Hardware) :
    (smoothLED.faderISR.output b p hw).2.OCIE0A = hw.OCIE0A ∧
    (smoothLED.faderISR.output b p hw).2.TOIE1 = hw.TOIE1 := by
  have hoff := switchHardwarePWM_timers b false
    { p with _flags := p._flags &&& (255 ^^^ PWM_ACTIVE) } hw
  have hon := switchHardwarePWM_timers b true { p with _flags := p._flags ||| PWM_ACTIVE } hw
  unfold smoothLED.faderISR.output
  dsimp only
  split_ifs
  · obtain ⟨⟨_, f2, f3, _⟩, _⟩ := pinOff_frame
      (smoothLED.switchHardwarePWM b false
        { p with _flags := p._flags &&& (255 ^^^ PWM_ACTIVE) } hw).1
      (smoothLED.switchHardwarePWM b false
        { p with _flags := p._flags &&& (255 ^^^ PWM_ACTIVE) } hw).2
    exact ⟨f2.trans hoff.1, f3.trans hoff.2⟩
  · obtain ⟨⟨_, f2, f3, _⟩, _⟩ := pinOn_frame
      (smoothLED.switchHardwarePWM b false
        { p with _flags := p._flags &&& (255 ^^^ PWM_ACTIVE) } hw).1
      (smoothLED.switchHardwarePWM b false
        { p with _flags := p._flags &&& (255 ^^^ PWM_ACTIVE) } hw).2
    exact ⟨f2.trans hoff.1, f3.trans hoff.2⟩
  all_goals first
    | exact ⟨(writePWMRegister_timers _ _ _).1.trans hon.1,
        (writePWMRegister_timers _ _ _).2.trans hon.2⟩
    | exact ⟨rfl, rfl⟩

/-- The flags and tick enables after the second half of the loop body. -/
theorem drive_flags (b : Board) (p : smoothLED) (st : FaderState) :
    (smoothLED.faderISR.drive b p st).2.turnFadeOff = st.turnFadeOff ∧
    (smoothLED.faderISR.drive b p st).2.turnPWMoff =
      (if (smoothLED.faderISR.drive b p st).1.softwareActive then false else st.turnPWMoff) ∧
    (smoothLED.faderISR.drive b p st).2.hw.OCIE0A = st.hw.OCIE0A ∧
    (smoothLED.faderISR.drive b p st).2.hw.TOIE1 = st.hw.TOIE1 :=
  ⟨rfl, rfl, (output_timers b _ st.hw).1, (output_timers b _ st.hw).2⟩

/-- The loop body never clears a tick enable. -/
theorem body_enables (b : Board) (alloc : Bool) (p : smoothLED) (st : FaderState) :
    (st.hw.OCIE0A = true → (smoothLED.faderISR.body b alloc p st).2.1.hw.OCIE0A = true) ∧
    (st.hw.TOIE1 = true → (smoothLED.faderISR.body b alloc p st).2.1.hw.TOIE1 = true) := by
  by_cases h0 : p._portRegister = none
  · rw [body_uninit b alloc p st h0]
    exact ⟨id, id⟩
  · by_cases h1 : p._currentLevel ≠ p._targetLevel
    · rw [body_fading b alloc p st h0 h1]
      obtain ⟨_, _, d3, d4⟩ := drive_flags b (smoothLED.faderISR.fade p)
        { st with turnFadeOff := false }
      exact ⟨fun h => d3.trans h, fun h => d4.trans h⟩
    · have h1' : p._currentLevel = p._targetLevel := not_not.mp h1
      by_cases h2 : p._waitTime ≠ 0
      · rw [body_holding b alloc p st h0 h1' h2]
        obtain ⟨_, _, d3, d4⟩ := drive_flags b { p with _waitTime := p._waitTime - 1 }
          { st with turnFadeOff := false }
        exact ⟨fun h => d3.trans h, fun h => d4.trans h⟩
      · have h2' : p._waitTime = 0 := not_not.mp h2
        cases hq : p._nextSet with
        | nil =>
          rw [body_resting b alloc p st h0 ⟨h1', h2', hq⟩]
          obtain ⟨_, _, d3, d4⟩ := drive_flags b p st
          exact ⟨fun h => d3.trans h, fun h => d4.trans h⟩
        | cons cmd rest =>
          rw [body_popping b alloc p st cmd rest h0 ⟨h1', h2'⟩ hq]
          have ht := set_idle_timers b alloc cmd.targetLevel cmd.changeSpeed cmd.delayMS p st.hw
            ⟨h1', h2'⟩
          exact ⟨fun _ => ht.1, fun _ => ht.2⟩

/-- A pass of the loop body that leaves `turnFadeOff` set found it set, did
not leave the loop, and an initialised instance was without work and is
changed in `_flags` and `_currentCIE` at most. -/
theorem body_turnFadeOff (b : Board) (alloc : Bool) (p : smoothLED) (st : FaderState)
    (h : (smoothLED.faderISR.body b alloc p st).2.1.turnFadeOff = true) :
    st.turnFadeOff = true ∧ (smoothLED.faderISR.body b alloc p st).2.2 = false ∧
    (p._portRegister ≠ none →
      p.atRest ∧ DriveFrame p (smoothLED.faderISR.body b alloc p st).1) := by
  by_cases h0 : p._portRegister = none
  · rw [body_uninit b alloc p st h0] at h ⊢
    exact ⟨h, rfl, fun hn => absurd h0 hn⟩
  · by_cases h1 : p._currentLevel ≠ p._targetLevel
    · rw [body_fading b alloc p st h0 h1] at h
      simp [smoothLED.faderISR.drive] at h
    · have h1' : p._currentLevel = p._targetLevel := not_not.mp h1
      by_cases h2 : p._waitTime ≠ 0
      · rw [body_holding b alloc p st h0 h1' h2] at h
        simp [smoothLED.faderISR.drive] at h
      · have h2' : p._waitTime = 0 := not_not.mp h2
        cases hq : p._nextSet with
        | nil =>
          rw [body_resting b alloc p st h0 ⟨h1', h2', hq⟩] at h ⊢
          exact ⟨h, rfl, fun _ => ⟨⟨h1', h2', hq⟩, drive_frame b p st⟩⟩
        | cons cmd rest =>
          rw [body_popping b alloc p st cmd rest h0 ⟨h1', h2'⟩ hq] at h
          simp at h

/-- A pass of the loop body that does not leave the loop and leaves
`turnPWMoff` set found it set, and an initialised instance is not in software
drive with the active-PWM flag set afterwards. -/
theorem body_turnPWMoff (b : Board) (alloc : Bool) (p : smoothLED) (st : FaderState)
    (hb : (smoothLED.faderISR.body b alloc p st).2.2 = false)
    (h : (smoothLED.faderISR.body b alloc p st).2.1.turnPWMoff = true) :
    st.turnPWMoff = true ∧
    (p._portRegister ≠ none → ¬ (smoothLED.faderISR.body b alloc p st).1.softwareActive) := by
  have key : ∀ (q : smoothLED) (st' : FaderState), st'.turnPWMoff = st.turnPWMoff →
      (smoothLED.faderISR.drive b q st').2.turnPWMoff = true →
      st.turnPWMoff = true ∧ ¬ (smoothLED.faderISR.drive b q st').1.softwareActive := by
    intro q st' hst hd
    rw [(drive_flags b q st').2.1] at hd
    by_cases hs : (smoothLED.faderISR.drive b q st').1.softwareActive
    · rw [if_pos hs] at hd
      exact absurd hd (by decide)
    · rw [if_neg hs] at hd
      exact ⟨hst ▸ hd, hs⟩
  by_cases h0 : p._portRegister = none
  · rw [body_uninit b alloc p st h0] at h
    exact ⟨h, fun hn => absurd h0 hn⟩
  · by_cases h1 : p._currentLevel ≠ p._targetLevel
    · rw [body_fading b alloc p st h0 h1] at h ⊢
      obtain ⟨k1, k2⟩ := key _ { st with turnFadeOff := false } rfl h
      exact ⟨k1, fun _ => k2⟩
    · have h1' : p._currentLevel = p._targetLevel := not_not.mp h1
      by_cases h2 : p._waitTime ≠ 0
      · rw [body_holding b alloc p st h0 h1' h2] at h ⊢
        obtain ⟨k1, k2⟩ := key _ { st with turnFadeOff := false } rfl h
        exact ⟨k1, fun _ => k2⟩
      · have h2' : p._waitTime = 0 := not_not.mp h2
        cases hq : p._nextSet with
        | nil =>
          rw [body_resting b alloc p st h0 ⟨h1', h2', hq⟩] at h ⊢
          obtain ⟨k1, k2⟩ := key _ st rfl h
          exact ⟨k1, fun _ => k2⟩
        | cons cmd rest =>
          rw [body_popping b alloc p st cmd rest h0 ⟨h1', h2'⟩ hq] at hb
          simp at hb

theorem atRest_frame {p q : smoothLED} (h : DriveFrame p q) (hp : p.atRest) : q.atRest := by
  obtain ⟨_, _, _, _, d5, d6, d7, _, _, d10⟩ := h
  obtain ⟨a1, a2, a3⟩ := hp
  exact ⟨d5.trans (a1.trans d7.symm), d6.trans a2, d10.trans a3⟩

/-- A run of the loop that ends with `turnFadeOff` set: the flag was set at
the start, every initialised instance was without work and is without work
at the end; if `turnPWMoff` is set as well, no initialised instance is in
software drive with the active-PWM flag set at the end. -/
theorem loop_turnFadeOff (b : Board) (alloc : Bool) :
    ∀ (l : List smoothLED) (st : FaderState),
      (smoothLED.faderISR.loop b alloc l st).2.turnFadeOff = true →
      st.turnFadeOff = true ∧
      (∀ p ∈ l, p._portRegister ≠ none → p.atRest) ∧
      (∀ p ∈ (smoothLED.faderISR.loop b alloc l st).1, p._portRegister ≠ none → p.atRest) ∧
      ((smoothLED.faderISR.loop b alloc l st).2.turnPWMoff = true →
        st.turnPWMoff = true ∧
        ∀ p ∈ (smoothLED.faderISR.loop b alloc l st).1, p._portRegister ≠ none →
          ¬ p.softwareActive)
  | [], st, h => ⟨h, by simp, by simp [smoothLED.faderISR.loop],
      fun h2 => ⟨h2, by simp [smoothLED.faderISR.loop]⟩⟩
  | q :: rest, st, h => by
    unfold smoothLED.faderISR.loop at h ⊢
    dsimp only at h ⊢
    by_cases hbr : (smoothLED.faderISR.body b alloc q st).2.2 = true
    · rw [if_pos hbr] at h
      have := (body_turnFadeOff b alloc q st h).2.1
      rw [hbr] at this
      exact absurd this (by decide)
    · rw [if_neg hbr] at h ⊢
      have hbr' : (smoothLED.faderISR.body b alloc q st).2.2 = false := by
        simpa using hbr
      obtain ⟨i1, i2, i3, i4⟩ := loop_turnFadeOff b alloc rest
        (smoothLED.faderISR.body b alloc q st).2.1 h
      obtain ⟨j1, _, j3⟩ := body_turnFadeOff b alloc q st i1
      have hport := body_portRegister b alloc q st
      refine ⟨j1, ?_, ?_, ?_⟩
      · intro p hp hinit
        rcases List.mem_cons.mp hp with rfl | hp
        · exact (j3 hinit).1
        · exact i2 p hp hinit
      · intro p hp hinit
        rcases List.mem_cons.mp hp with rfl | hp
        · rw [hport] at hinit
          exact atRest_frame (j3 hinit).2 (j3 hinit).1
        · exact i3 p hp hinit
      · intro h2
        obtain ⟨k1, k2⟩ := i4 h2
        obtain ⟨m1, m2⟩ := body_turnPWMoff b alloc q st hbr' k1
        refine ⟨m1, ?_⟩
        intro p hp hinit
        rcases List.mem_cons.mp hp with rfl | hp
        · rw [hport] at hinit
          exact m2 hinit
        · exact k2 p hp hinit

/-- A run of the loop over instances without work keeps `turnFadeOff`, and
keeps `turnPWMoff` when no initialised instance is in software drive with the
active-PWM flag set at the end. -/
theorem loop_atRest (b : Board) (alloc : Bool) :
    ∀ (l : List smoothLED) (st : FaderState),
      (∀ p ∈ l, p._portRegister ≠ none → p.atRest) →
      (smoothLED.faderISR.loop b alloc l st).2.turnFadeOff = st.turnFadeOff ∧
      (∀ p ∈ (smoothLED.faderISR.loop b alloc l st).1, p._portRegister ≠ none → p.atRest) ∧
      ((∀ p ∈ (smoothLED.faderISR.loop b alloc l st).1, p._portRegister ≠ none →
          ¬ p.softwareActive) →
        (smoothLED.faderISR.loop b alloc l st).2.turnPWMoff = st.turnPWMoff)
  | [], st, _ => ⟨rfl, by simp [smoothLED.faderISR.loop], fun _ => rfl⟩
  | q :: rest, st, h => by
    have hq : q._portRegister ≠ none → q.atRest := h q (List.mem_cons_self _ _)
    have hrest : ∀ p ∈ rest, p._portRegister ≠ none → p.atRest :=
      fun p hp => h p (List.mem_cons_of_mem _ hp)
    have hbody : (smoothLED.faderISR.body b alloc q st).2.2 = false ∧
        (smoothLED.faderISR.body b alloc q st).2.1.turnFadeOff = st.turnFadeOff ∧
        ((smoothLED.faderISR.body b alloc q st).1._portRegister ≠ none →
          (smoothLED.faderISR.body b alloc q st).1.atRest) ∧
        (((smoothLED.faderISR.body b alloc q st).1._portRegister ≠ none →
            ¬ (smoothLED.faderISR.body b alloc q st).1.softwareActive) →
          (smoothLED.faderISR.body b alloc q st).2.1.turnPWMoff = st.turnPWMoff) := by
      by_cases h0 : q._portRegister = none
      · rw [body_uninit b alloc q st h0]
        exact ⟨rfl, rfl, fun hn => absurd h0 hn, fun _ => rfl⟩
      · rw [body_resting b alloc q st h0 (hq h0)]
        refine ⟨rfl, rfl, fun _ => atRest_frame (drive_frame b q st) (hq h0), ?_⟩
        intro hs
        have hinit : (smoothLED.faderISR.drive b q st).1._portRegister ≠ none := by
          rw [(drive_frame b q st).1]
          exact h0
        dsimp only
        rw [(drive_flags b q st).2.1, if_neg (hs hinit)]
    obtain ⟨b1, b2, b3, b4⟩ := hbody
    obtain ⟨i1, i2, i3⟩ := loop_atRest b alloc rest
      (smoothLED.faderISR.body b alloc q st).2.1 hrest
    unfold smoothLED.faderISR.loop
    dsimp only
    rw [b1]
    simp only [Bool.false_eq_true, if_false]
    refine ⟨i1.trans b2, ?_, ?_⟩
    · intro p hp hinit
      rcases List.mem_cons.mp hp with rfl | hp
      · exact b3 hinit
      · exact i2 p hp hinit
    · intro hs
      rw [i3 (fun p hp => hs p (List.mem_cons_of_mem _ hp))]
      exact b4 (hs _ (List.mem_cons_self _ _))

/-- The loop never clears a tick enable. -/
theorem loop_enables (b : Board) (alloc : Bool) :
    ∀ (l : List smoothLED) (st : FaderState),
      (st.hw.OCIE0A = true → (smoothLED.faderISR.loop b alloc l st).2.hw.OCIE0A = true) ∧
      (st.hw.TOIE1 = true → (smoothLED.faderISR.loop b alloc l st).2.hw.TOIE1 = true)
  | [], _ => ⟨id, id⟩
  | q :: rest, st => by
    obtain ⟨b1, b2⟩ := body_enables b alloc q st
    obtain ⟨i1, i2⟩ := loop_enables b alloc rest (smoothLED.faderISR.body b alloc q st).2.1
    unfold smoothLED.faderISR.loop
    dsimp only
    split_ifs
    · exact ⟨b1, b2⟩
    · exact ⟨fun h => i1 (b1 h), fun h => i2 (b2 h)⟩

/-- The registers that `faderISR()` leaves, by the flags at the end of its
loop. -/
theorem faderISR_hw (b : Board) (alloc : Bool) (sys : System) :
    (smoothLED.faderISR b alloc sys).hw =
      if (smoothLED.faderISR.sweep b alloc sys).turnFadeOff then
        if (smoothLED.faderISR.sweep b alloc sys).turnPWMoff then
          pwmTimerOff (fadeTimerOff (smoothLED.faderISR.sweep b alloc sys).hw)
        else fadeTimerOff (smoothLED.faderISR.sweep b alloc sys).hw
      else (smoothLED.faderISR.sweep b alloc sys).hw := rfl

/-! ## Lemmas: the early exit of the fade tick -/

theorem loop_cons_break (b : Board) (alloc : Bool) (q : smoothLED) (rest : List smoothLED)
    (st : FaderState) (h : (smoothLED.faderISR.body b alloc q st).2.2 = true) :
    smoothLED.faderISR.loop b alloc (q :: rest) st =
      ((smoothLED.faderISR.body b alloc q st).1 :: rest,
       (smoothLED.faderISR.body b alloc q st).2.1) := by
  rw [smoothLED.faderISR.loop]
  dsimp only
  rw [if_pos h]

theorem loop_cons_next (b : Board) (alloc : Bool) (q : smoothLED) (rest : List smoothLED)
    (st : FaderState) (h : (smoothLED.faderISR.body b alloc q st).2.2 = false) :
    smoothLED.faderISR.loop b alloc (q :: rest) st =
      ((smoothLED.faderISR.body b alloc q st).1 ::
         (smoothLED.faderISR.loop b alloc rest (smoothLED.faderISR.body b alloc q st).2.1).1,
       (smoothLED.faderISR.loop b alloc rest (smoothLED.faderISR.body b alloc q st).2.1).2) := by
  rw [smoothLED.faderISR.loop]
  dsimp only
  rw [h]
  simp only [Bool.false_eq_true, if_false]

/-- A run of the loop in which the instance at position `k` loses a stored
command: the loop body left the loop at that instance, the instances behind
it are as they were, each instance before it went through the loop body once
without leaving the loop, and the run is the run over the first `k + 1`
instances. -/
theorem loop_pop (b : Board) (alloc : Bool) :
    ∀ (l : List smoothLED) (st : FaderState) (k : Nat) (p p' : smoothLED),
      l[k]? = some p → (smoothLED.faderISR.loop b alloc l st).1[k]? = some p' →
      p'._nextSet.length < p._nextSet.length →
      (∃ st', smoothLED.faderISR.body b alloc p st' =
        (p', (smoothLED.faderISR.loop b alloc l st).2, true)) ∧
      (∀ i, k < i → (smoothLED.faderISR.loop b alloc l st).1[i]? = l[i]?) ∧
      (∀ i q, i < k → l[i]? = some q →
        ∃ st', (smoothLED.faderISR.loop b alloc l st).1[i]? =
            some (smoothLED.faderISR.body b alloc q st').1 ∧
          (smoothLED.faderISR.body b alloc q st').2.2 = false) ∧
      smoothLED.faderISR.loop b alloc l st =
        ((smoothLED.faderISR.loop b alloc (l.take (k + 1)) st).1 ++ l.drop (k + 1),
         (smoothLED.faderISR.loop b alloc (l.take (k + 1)) st).2)
  | [], _, _, _, _, h, _, _ => by simp at h
  | q :: rest, st, 0, p, p', h, h', hlt => by
    simp only [List.getElem?_cons_zero, Option.some.injEq] at h
    subst h
    by_cases hbr : (smoothLED.faderISR.body b alloc q st).2.2 = true
    · rw [loop_cons_break b alloc q rest st hbr] at h' ⊢
      simp only [List.getElem?_cons_zero, Option.some.injEq] at h'
      subst h'
      refine ⟨⟨st, ?_⟩, ?_, ?_, ?_⟩
      · exact Prod.ext rfl (Prod.ext rfl hbr)
      · intro i hi
        obtain ⟨j, rfl⟩ : ∃ j, i = j + 1 := ⟨i - 1, by omega⟩
        simp
      · intro i q' hi
        omega
      · simp [loop_cons_break b alloc q [] st hbr]
    · have hbr' : (smoothLED.faderISR.body b alloc q st).2.2 = false := by simpa using hbr
      rw [loop_cons_next b alloc q rest st hbr'] at h'
      simp only [List.getElem?_cons_zero, Option.some.injEq] at h'
      subst h'
      rw [body_keeps_queue b alloc q st hbr'] at hlt
      exact absurd hlt (lt_irrefl _)
  | q :: rest, st, k + 1, p, p', h, h', hlt => by
    simp only [List.getElem?_cons_succ] at h
    by_cases hbr : (smoothLED.faderISR.body b alloc q st).2.2 = true
    · rw [loop_cons_break b alloc q rest st hbr] at h'
      simp only [List.getElem?_cons_succ] at h'
      rw [h] at h'
      simp only [Option.some.injEq] at h'
      subst h'
      exact absurd hlt (lt_irrefl _)
    · have hbr' : (smoothLED.faderISR.body b alloc q st).2.2 = false := by simpa using hbr
      rw [loop_cons_next b alloc q rest st hbr'] at h' ⊢
      simp only [List.getElem?_cons_succ] at h'
      obtain ⟨i1, i2, i3, i4⟩ := loop_pop b alloc rest
        (smoothLED.faderISR.body b alloc q st).2.1 k p p' h h' hlt
      refine ⟨i1, ?_, ?_, ?_⟩
      · intro i hi
        obtain ⟨j, rfl⟩ : ∃ j, i = j + 1 := ⟨i - 1, by omega⟩
        simp only [List.getElem?_cons_succ]
        exact i2 j (by omega)
      · intro i q' hi hq'
        cases i with
        | zero =>
          simp only [List.getElem?_cons_zero, Option.some.injEq] at hq'
          subst hq'
          exact ⟨st, by simp, hbr'⟩
        | succ j =>
          simp only [List.getElem?_cons_succ] at hq' ⊢
          exact i3 j q' (by omega) hq'
      · rw [List.take_succ_cons, loop_cons_next b alloc q _ st hbr', List.drop_succ_cons]
        rw [List.cons_append]
        have e1 := congrArg Prod.fst i4
        have e2 := congrArg Prod.snd i4
        dsimp only at e1 e2
        refine Prod.ext ?_ ?_
        · dsimp only
          rw [e1]
        · exact e2

/-! ## Lemmas: one instance through consecutive fade ticks -/

theorem pass_uninit (b : Board) (p : smoothLED) (h0 : p._portRegister = none) :
    smoothLED.faderISR.pass b p = p := by
  unfold smoothLED.faderISR.pass
  rw [body_uninit b true p _ h0]

/-- A pass over a fading instance is the fade step, `_flags` and
`_currentCIE` apart. -/
theorem pass_fading (b : Board) (p : smoothLED) (h0 : p._portRegister ≠ none)
    (h1 : p._currentLevel ≠ p._targetLevel) :
    DriveFrame (smoothLED.faderISR.fade p) (smoothLED.faderISR.pass b p) := by
  unfold smoothLED.faderISR.pass
  rw [body_fading b true p _ h0 h1]
  exact drive_frame b _ _

/-- A pass over a holding instance takes one millisecond off the hold. -/
theorem pass_holding (b : Board) (p : smoothLED) (h0 : p._portRegister ≠ none)
    (h1 : p._currentLevel = p._targetLevel) (h2 : p._waitTime ≠ 0) :
    DriveFrame { p with _waitTime := p._waitTime - 1 } (smoothLED.faderISR.pass b p) := by
  unfold smoothLED.faderISR.pass
  rw [body_holding b true p _ h0 h1 h2]
  exact drive_frame b _ _

/-- A pass over an instance that passes the test of `set()` and has a stored
command applies the command with `set()` and unlinks it. -/
theorem pass_popping (b : Board) (p : smoothLED) (cmd : setStructure)
    (rest : List setStructure) (h0 : p._portRegister ≠ none) (hidle : p.idle)
    (hq : p._nextSet = cmd :: rest) (alloc : Bool) (hw : Hardware) :
    smoothLED.faderISR.pass b p =
      { (p.set b alloc cmd.targetLevel cmd.changeSpeed cmd.delayMS hw).1 with
        _nextSet := rest } := by
  unfold smoothLED.faderISR.pass
  rw [body_popping b true p _ cmd rest h0 hidle hq]
  dsimp only
  rw [set_idle_led b true alloc _ _ _ p {} hw hidle]

/-- A pass over an instance without work changes `_flags` and `_currentCIE`
at most. -/
theorem pass_resting (b : Board) (p : smoothLED) (h0 : p._portRegister ≠ none)
    (hrest : p.atRest) : DriveFrame p (smoothLED.faderISR.pass b p) := by
  unfold smoothLED.faderISR.pass
  rw [body_resting b true p _ h0 hrest]
  exact drive_frame b _ _

theorem passes_shift (b : Board) (p : smoothLED) :
    ∀ n, smoothLED.faderISR.passes b n (smoothLED.faderISR.pass b p) =
      smoothLED.faderISR.passes b (n + 1) p
  | 0 => rfl
  | n + 1 => by
    show smoothLED.faderISR.pass b
      (smoothLED.faderISR.passes b n (smoothLED.faderISR.pass b p)) = _
    rw [passes_shift b p n]
    rfl

/-- The registry with one instance after one invocation of `faderISR()`. -/
theorem faderISR_single (b : Board) (alloc : Bool) (sys : System) (p : smoothLED)
    (h : sys._firstLink = [p]) :
    (smoothLED.faderISR b alloc sys)._firstLink = [smoothLED.faderISR.pass b p] := by
  unfold smoothLED.faderISR
  dsimp only
  rw [h, smoothLED.faderISR.loop]
  dsimp only
  split_ifs <;> simp [smoothLED.faderISR.loop, body_led]

/-- The registry with one instance after `n` invocations of `faderISR()`. -/
theorem faderTicks_single (b : Board) (alloc : Bool) (sys : System) (p : smoothLED)
    (h : sys._firstLink = [p]) :
    ∀ n, (faderTicks b alloc n sys)._firstLink = [smoothLED.faderISR.passes b n p]
  | 0 => h
  | n + 1 => faderISR_single b alloc _ _ (faderTicks_single b alloc sys p h n)

/-- An invocation of `faderISR()` takes each instance through the loop body
once, or leaves it as it is (an instance before it has popped a command). -/
theorem faderISR_pass_or_skip (b : Board) (alloc : Bool) (sys : System) (i : Nat)
    (p : smoothLED) (h : sys._firstLink[i]? = some p) :
    (smoothLED.faderISR b alloc sys)._firstLink[i]? = some (smoothLED.faderISR.pass b p) ∨
    (smoothLED.faderISR b alloc sys)._firstLink[i]? = some p := by
  obtain ⟨p', hp', _, hcase⟩ := loop_progress b alloc sys._firstLink
    { hw := sys.hw, turnPWMoff := true, turnFadeOff := true } i p h
  have hp'' : (smoothLED.faderISR b alloc sys)._firstLink[i]? = some p' := hp'
  rcases hcase with ⟨st', hst'⟩ | ⟨heq, _⟩
  · left
    rw [hp'', hst', body_led]
  · right
    rw [hp'', heq]

/-- The members after the fade step. -/
theorem fade_fields (p : smoothLED) :
    (smoothLED.faderISR.fade p)._portRegister = p._portRegister ∧
    (smoothLED.faderISR.fade p)._targetLevel = p._targetLevel ∧
    (smoothLED.faderISR.fade p)._changeDelays = p._changeDelays ∧
    (smoothLED.faderISR.fade p)._waitTime = p._waitTime ∧
    (smoothLED.faderISR.fade p)._nextSet = p._nextSet ∧
    (smoothLED.faderISR.fade p)._changeTicker =
      (if toInt16 (p._changeTicker - 128) ≤ 0
        then toInt16 (toInt16 (p._changeTicker - 128) + (p._changeDelays : Int))
        else toInt16 (p._changeTicker - 128)) ∧
    (smoothLED.faderISR.fade p)._currentLevel =
      (if toInt16 (p._changeTicker - 128) ≤ 0
        then (if p._currentLevel > p._targetLevel then p._currentLevel - 1
              else p._currentLevel + 1)
        else p._currentLevel) := by
  unfold smoothLED.faderISR.fade
  dsimp only
  split_ifs <;> exact ⟨rfl, rfl, rfl, rfl, rfl, rfl, rfl⟩

theorem passes_add (b : Board) (p : smoothLED) (n : Nat) :
    ∀ m, smoothLED.faderISR.passes b (m + n) p =
      smoothLED.faderISR.passes b m (smoothLED.faderISR.passes b n p)
  | 0 => by rw [Nat.zero_add]; rfl
  | m + 1 => by
    rw [Nat.add_right_comm]
    show smoothLED.faderISR.pass b (smoothLED.faderISR.passes b (m + n) p) = _
    rw [passes_add b p n m]
    rfl

/-- An initialised instance without work stays as it is under the fade tick,
`_flags` and `_currentCIE` apart. -/
theorem passes_resting (b : Board) (p : smoothLED) (h0 : p._portRegister ≠ none)
    (hrest : p.atRest) : ∀ n, DriveFrame p (smoothLED.faderISR.passes b n p)
  | 0 => driveFrame_refl p
  | n + 1 => by
    have ih := passes_resting b p h0 hrest n
    have h0' : (smoothLED.faderISR.passes b n p)._portRegister ≠ none := by
      rw [ih.1]
      exact h0
    exact driveFrame_trans ih (pass_resting b _ h0' (atRest_frame ih hrest))

/-- The fade from level 0 to level 255 with `_changeDelays == 501`, the pace
of `set(255, 1000, 0)`: after `n <= 995` passes the ticker is
`501 * _currentLevel - 128 * n` and lies in `0 .. 501`. -/
theorem fade_0_255_invariant (b : Board) (p : smoothLED) (h0 : p._portRegister ≠ none)
    (hcur : p._currentLevel = 0) (htar : p._targetLevel = 255) (hcd : p._changeDelays = 501)
    (hwait : p._waitTime = 0) (htick : p._changeTicker = 0) (hq : p._nextSet = []) :
    ∀ n, n ≤ 995 →
      (smoothLED.faderISR.passes b n p)._portRegister ≠ none ∧
      (smoothLED.faderISR.passes b n p)._targetLevel = 255 ∧
      (smoothLED.faderISR.passes b n p)._changeDelays = 501 ∧
      (smoothLED.faderISR.passes b n p)._waitTime = 0 ∧
      (smoothLED.faderISR.passes b n p)._nextSet = [] ∧
      (smoothLED.faderISR.passes b n p)._changeTicker =
        501 * ((smoothLED.faderISR.passes b n p)._currentLevel : Int) - 128 * (n : Int) ∧
      0 ≤ (smoothLED.faderISR.passes b n p)._changeTicker ∧
      (smoothLED.faderISR.passes b n p)._changeTicker ≤ 501 ∧
      (1 ≤ n → 0 < (smoothLED.faderISR.passes b n p)._changeTicker)
  | 0, _ => by
    show p._portRegister ≠ none ∧ p._targetLevel = 255 ∧ p._changeDelays = 501 ∧
      p._waitTime = 0 ∧ p._nextSet = [] ∧
      p._changeTicker = 501 * (p._currentLevel : Int) - 128 * ((0 : Nat) : Int) ∧
      0 ≤ p._changeTicker ∧ p._changeTicker ≤ 501 ∧ (1 ≤ 0 → 0 < p._changeTicker)
    rw [htick, hcur]
    exact ⟨h0, htar, hcd, hwait, hq, by norm_num, by norm_num, by norm_num,
      fun h => absurd h (by decide)⟩
  | n + 1, hn => by
    obtain ⟨i0, i1, i2, i3, i4, i5, i6, i7, _⟩ :=
      fade_0_255_invariant b p h0 hcur htar hcd hwait htick hq n (by omega)
    have hfading : (smoothLED.faderISR.passes b n p)._currentLevel ≠
        (smoothLED.faderISR.passes b n p)._targetLevel := by
      rw [i1]
      omega
    obtain ⟨d1, _, _, _, d5, d6, d7, d8, d9, d10⟩ :=
      pass_fading b (smoothLED.faderISR.passes b n p) i0 hfading
    obtain ⟨f1, f2, f3, f4, f5, f6, f7⟩ := fade_fields (smoothLED.faderISR.passes b n p)
    show (smoothLED.faderISR.pass b (smoothLED.faderISR.passes b n p))._portRegister ≠ none ∧
      (smoothLED.faderISR.pass b (smoothLED.faderISR.passes b n p))._targetLevel = 255 ∧
      (smoothLED.faderISR.pass b (smoothLED.faderISR.passes b n p))._changeDelays = 501 ∧
      (smoothLED.faderISR.pass b (smoothLED.faderISR.passes b n p))._waitTime = 0 ∧
      (smoothLED.faderISR.pass b (smoothLED.faderISR.passes b n p))._nextSet = [] ∧
      (smoothLED.faderISR.pass b (smoothLED.faderISR.passes b n p))._changeTicker =
        501 * ((smoothLED.faderISR.pass b (smoothLED.faderISR.passes b n p))._currentLevel : Int)
          - 128 * ((n + 1 : Nat) : Int) ∧
      0 ≤ (smoothLED.faderISR.pass b (smoothLED.faderISR.passes b n p))._changeTicker ∧
      (smoothLED.faderISR.pass b (smoothLED.faderISR.passes b n p))._changeTicker ≤ 501 ∧
      (1 ≤ n + 1 →
        0 < (smoothLED.faderISR.pass b (smoothLED.faderISR.passes b n p))._changeTicker)
    rw [d1, d5, d6, d7, d8, d9, d10, f1, f2, f3, f4, f5, f6, f7, i1, i2]
    refine ⟨i0, rfl, rfl, i3, i4, ?_⟩
    have hlt : (smoothLED.faderISR.passes b n p)._currentLevel < 255 := by omega
    have hdec : toInt16 ((smoothLED.faderISR.passes b n p)._changeTicker - 128) =
        (smoothLED.faderISR.passes b n p)._changeTicker - 128 := by
      unfold toInt16
      omega
    rw [hdec]
    by_cases hz : (smoothLED.faderISR.passes b n p)._changeTicker - 128 ≤ 0
    · have hadd : toInt16 ((smoothLED.faderISR.passes b n p)._changeTicker - 128 +
          ((501 : Nat) : Int)) =
          (smoothLED.faderISR.passes b n p)._changeTicker - 128 + 501 := by
        unfold toInt16
        omega
      rw [if_pos hz, if_pos hz, hadd, if_neg (by omega)]
      push_cast
      omega
    · rw [if_neg hz, if_neg hz]
      push_cast
      omega

/-- The pace that `set(255, 1000, 0)` stores at level 0, on every board. -/
theorem paceDelay_1000_255 (b : Board) : paceDelay b 1000 0 255 = 501 := by
  simp [paceDelay, udiv32, levelDelta, clampDelay, UINT16_MAX]

/-- The registry with one instance after a call on that instance. -/
theorem call_single (sys : System) (f : smoothLED → Hardware → smoothLED × Hardware)
    (led : smoothLED) (h : sys._firstLink = [led]) :
    (sys.call 0 f)._firstLink = [(f led sys.hw).1] := by
  simp [System.call, h]

/-! ## Theorems: end-to-end scenarios -/

/-- C21: a registry with one initialised channel that is idle at level 0 with
the pace accumulator 0 and nothing stored. After `set(255, 1000, 0)` and 500
invocations of `faderISR` the level is 128 (so it is 127 or 128, as claimed),
still on its way to 255; after 1000 invocations `_currentLevel == 255 ==
_targetLevel` with `_waitTime == 0` and nothing stored: the channel is idle. -/
theorem C21_fade_end_to_end (b : Board) (alloc alloc' : Bool) (sys : System) (led : smoothLED)
    (hsys : sys._firstLink = [led]) (h0 : led._portRegister ≠ none)
    (hcur : led._currentLevel = 0) (htar : led._targetLevel = 0) (hwait : led._waitTime = 0)
    (htick : led._changeTicker = 0) (hq : led._nextSet = []) :
    (∃ p, (faderTicks b alloc 500
        (sys.call 0 (smoothLED.set b alloc' 255 1000 0)))._firstLink = [p] ∧
      p._currentLevel = 128 ∧ p._targetLevel = 255) ∧
    (∃ p, (faderTicks b alloc 1000
        (sys.call 0 (smoothLED.set b alloc' 255 1000 0)))._firstLink = [p] ∧
      p._currentLevel = 255 ∧ p._targetLevel = 255 ∧ p._waitTime = 0 ∧ p._nextSet = [] ∧
      p.idle) := by
  have hcall := call_single sys (smoothLED.set b alloc' 255 1000 0) led hsys
  have hset : (led.set b alloc' 255 1000 0 sys.hw).1 =
      { led with _targetLevel := 255, _waitTime := 0, _changeDelays := 501 } := by
    have := paceDelay_1000_255 b
    simp [smoothLED.set, hcur, htar, hwait, this]
  rw [hset] at hcall
  have hinv := fade_0_255_invariant b
    { led with _targetLevel := 255, _waitTime := 0, _changeDelays := 501 }
    h0 hcur rfl rfl rfl htick hq
  constructor
  · refine ⟨_, faderTicks_single b alloc _ _ hcall 500, ?_⟩
    obtain ⟨_, i1, _, _, _, i5, i6, i7, i8⟩ := hinv 500 (by decide)
    have i8' := i8 (by decide)
    refine ⟨?_, i1⟩
    push_cast at i5
    omega
  · refine ⟨_, faderTicks_single b alloc _ _ hcall 1000, ?_⟩
    obtain ⟨i0, i1, _, i3, i4, i5, i6, i7, i8⟩ := hinv 995 (by decide)
    have i8' := i8 (by decide)
    have hlevel : (smoothLED.faderISR.passes b 995
        { led with _targetLevel := 255, _waitTime := 0, _changeDelays := 501 })._currentLevel
        = 255 := by
      push_cast at i5
      omega
    rw [show (1000 : Nat) = 5 + 995 from rfl, passes_add]
    obtain ⟨_, _, _, _, d5, d6, d7, _, _, d10⟩ := passes_resting b _ i0
      ⟨hlevel.trans i1.symm, i3, i4⟩ 5
    exact ⟨d5.trans hlevel, d7.trans i1, d6.trans i3, d10.trans i4,
      d5.trans (hlevel.trans (d7.trans i1).symm), d6.trans i3⟩

/-- Witness of C21: the channel `exampleLED`, alone in the registry. -/
theorem C21_fade_end_to_end_witness :
    (∃ p, (faderTicks {} true 500
        (exampleSystem.call 0 (smoothLED.set {} true 255 1000 0)))._firstLink = [p] ∧
      p._currentLevel = 128 ∧ p._targetLevel = 255) ∧
    (∃ p, (faderTicks {} true 1000
        (exampleSystem.call 0 (smoothLED.set {} true 255 1000 0)))._firstLink = [p] ∧
      p._currentLevel = 255 ∧ p._targetLevel = 255 ∧ p._waitTime = 0 ∧ p._nextSet = [] ∧
      p.idle) :=
  C21_fade_end_to_end {} true true exampleSystem exampleLED rfl (by decide) rfl rfl rfl rfl rfl

/-- An initialised instance at its target level counts its hold down, one
millisecond for each pass, and nothing else changes but `_flags` and
`_currentCIE`. -/
theorem hold_countdown (b : Board) (p : smoothLED) (h0 : p._portRegister ≠ none)
    (h1 : p._currentLevel = p._targetLevel) :
    ∀ k, k ≤ p._waitTime →
      (smoothLED.faderISR.passes b k p)._portRegister = p._portRegister ∧
      (smoothLED.faderISR.passes b k p)._currentLevel = p._currentLevel ∧
      (smoothLED.faderISR.passes b k p)._targetLevel = p._targetLevel ∧
      (smoothLED.faderISR.passes b k p)._waitTime = p._waitTime - k ∧
      (smoothLED.faderISR.passes b k p)._nextSet = p._nextSet
  | 0, _ => ⟨rfl, rfl, rfl, rfl, rfl⟩
  | k + 1, hk => by
    obtain ⟨i0, i1, i2, i3, i4⟩ := hold_countdown b p h0 h1 k (by omega)
    have h0' : (smoothLED.faderISR.passes b k p)._portRegister ≠ none := by
      rw [i0]
      exact h0
    obtain ⟨d1, _, _, _, d5, d6, d7, _, _, d10⟩ :=
      pass_holding b (smoothLED.faderISR.passes b k p) h0' (i1.trans (h1.trans i2.symm))
        (by omega)
    refine ⟨d1.trans i0, d5.trans i1, d7.trans i2, ?_, d10.trans i4⟩
    show (smoothLED.faderISR.pass b (smoothLED.faderISR.passes b k p))._waitTime = _
    rw [d6]
    show (smoothLED.faderISR.passes b k p)._waitTime - 1 = _
    omega

/-- Counterexample to C22 as stated: the channel of `exampleQueuedSystem` is
initialised and idle (`_currentLevel == _targetLevel == 10`, `_waitTime ==
0`) and has the command `set(20, 0, 0)` stored. `set(128, 0, 2)` is applied
and `set(0, 0, 0)` is stored behind the older command. After 2 invocations
of `faderISR` the level is still 128; invocation 3 pops the older command:
the level is 20, not 0, and the queue is not empty. And on the channel of
`exampleSystem`, which has nothing stored, the second call stores nothing
when its allocation fails. -/
theorem C22_stored_command_counterexample :
    (exampleQueuedSystem._firstLink.map
      fun p => (decide (p._portRegister ≠ none), p._currentLevel, p._targetLevel, p._waitTime,
        p._nextSet)) =
      [(true, 10, 10, 0, [{ targetLevel := 20, changeSpeed := 0, delayMS := 0 }])] ∧
    (((exampleQueuedSystem.call 0 (smoothLED.set {} true 128 0 2)).call 0
        (smoothLED.set {} true 0 0 0))._firstLink.map
      fun p => (p._currentLevel, p._targetLevel, p._waitTime, p._nextSet)) =
      [(128, 128, 2, [{ targetLevel := 20, changeSpeed := 0, delayMS := 0 },
                      { targetLevel := 0, changeSpeed := 0, delayMS := 0 }])] ∧
    ((faderTicks {} true 2 ((exampleQueuedSystem.call 0 (smoothLED.set {} true 128 0 2)).call 0
        (smoothLED.set {} true 0 0 0)))._firstLink.map
      fun p => (p._currentLevel, p._waitTime, p._nextSet.length)) = [(128, 0, 2)] ∧
    ((faderTicks {} true (2 + 1)
        ((exampleQueuedSystem.call 0 (smoothLED.set {} true 128 0 2)).call 0
          (smoothLED.set {} true 0 0 0)))._firstLink.map
      fun p => (p._currentLevel, p._targetLevel, p._nextSet)) =
      [(20, 20, [{ targetLevel := 0, changeSpeed := 0, delayMS := 0 }])] ∧
    (((exampleSystem.call 0 (smoothLED.set {} true 128 0 2)).call 0
        (smoothLED.set {} false 0 0 0))._firstLink.map
      fun p => (p._currentLevel, p._waitTime, p._nextSet)) = [(128, 2, [])] := by
  refine ⟨by decide, by decide, by decide, by decide, by decide⟩

/-- C22 (amended): a registry with one initialised idle channel with nothing
stored, and
any levels `a`, `c` and hold `h >= 1`. `set(a, 0, h)` followed at once by
`set(c, 0, 0)` (the allocation succeeding) applies the first command and
stores the second. Through the next `h` invocations of `faderISR` the level
stays `a` and the second command stays stored; invocation `h + 1` pops it:
`_currentLevel == _targetLevel == c`, no hold, empty queue, without a fade. -/
theorem C22_hold_then_immediate (b : Board) (alloc alloc' : Bool) (sys : System)
    (led : smoothLED) (a c h : Nat) (hsys : sys._firstLink = [led])
    (h0 : led._portRegister ≠ none) (hidle : led.idle) (hq : led._nextSet = [])
    (hh : 1 ≤ h) :
    (∃ p, ((sys.call 0 (smoothLED.set b alloc' a 0 h)).call 0
        (smoothLED.set b true c 0 0))._firstLink = [p] ∧
      p._currentLevel = a ∧ p._targetLevel = a ∧ p._waitTime = h ∧
      p._nextSet = [{ targetLevel := c, changeSpeed := 0, delayMS := 0 }]) ∧
    (∀ k, k ≤ h → ∃ p, (faderTicks b alloc k ((sys.call 0 (smoothLED.set b alloc' a 0 h)).call 0
        (smoothLED.set b true c 0 0)))._firstLink = [p] ∧
      p._currentLevel = a ∧ p._waitTime = h - k ∧
      p._nextSet = [{ targetLevel := c, changeSpeed := 0, delayMS := 0 }]) ∧
    (∃ p, (faderTicks b alloc (h + 1) ((sys.call 0 (smoothLED.set b alloc' a 0 h)).call 0
        (smoothLED.set b true c 0 0)))._firstLink = [p] ∧
      p._currentLevel = c ∧ p._targetLevel = c ∧ p._waitTime = 0 ∧ p._nextSet = []) := by
  obtain ⟨hi1, hi2⟩ := hidle
  have hcall1 := call_single sys (smoothLED.set b alloc' a 0 h) led hsys
  have hf : (led.set b alloc' a 0 h sys.hw).1._portRegister = led._portRegister ∧
      (led.set b alloc' a 0 h sys.hw).1._currentLevel = a ∧
      (led.set b alloc' a 0 h sys.hw).1._targetLevel = a ∧
      (led.set b alloc' a 0 h sys.hw).1._waitTime = h ∧
      (led.set b alloc' a 0 h sys.hw).1._nextSet = [] := by
    simp [smoothLED.set, hi1, hi2, hq]
  generalize (led.set b alloc' a 0 h sys.hw).1 = p1 at hcall1 hf
  obtain ⟨f0, f1, f2, f3, f4⟩ := hf
  have hbusy : ¬ p1.idle := by
    intro hc
    have := hc.2
    omega
  have hcall2 := call_single (sys.call 0 (smoothLED.set b alloc' a 0 h))
    (smoothLED.set b true c 0 0) p1 hcall1
  rw [set_busy_led b p1 _ { targetLevel := c, changeSpeed := 0, delayMS := 0 } hbusy] at hcall2
  dsimp only at hcall2
  have e0 : (p1.enqueue { targetLevel := c, changeSpeed := 0, delayMS := 0 })._portRegister =
      led._portRegister := f0
  have e1 : (p1.enqueue { targetLevel := c, changeSpeed := 0, delayMS := 0 })._currentLevel = a :=
    f1
  have e2 : (p1.enqueue { targetLevel := c, changeSpeed := 0, delayMS := 0 })._targetLevel = a :=
    f2
  have e3 : (p1.enqueue { targetLevel := c, changeSpeed := 0, delayMS := 0 })._waitTime = h := f3
  have e4 : (p1.enqueue { targetLevel := c, changeSpeed := 0, delayMS := 0 })._nextSet =
      [{ targetLevel := c, changeSpeed := 0, delayMS := 0 }] := by
    simp [smoothLED.enqueue, f4]
  generalize p1.enqueue { targetLevel := c, changeSpeed := 0, delayMS := 0 } = p2
    at hcall2 e0 e1 e2 e3 e4
  have hcount := hold_countdown b p2 (by rw [e0]; exact h0) (e1.trans e2.symm)
  refine ⟨⟨p2, hcall2, e1, e2, e3, e4⟩, ?_, ?_⟩
  · intro k hk
    obtain ⟨_, c1, _, c3, c4⟩ := hcount k (by omega)
    exact ⟨_, faderTicks_single b alloc _ _ hcall2 k, c1.trans e1, by omega, c4.trans e4⟩
  · obtain ⟨c0, c1, c2, c3, c4⟩ := hcount h (by omega)
    refine ⟨_, faderTicks_single b alloc _ _ hcall2 (h + 1), ?_⟩
    have hinit : (smoothLED.faderISR.passes b h p2)._portRegister ≠ none := by
      rw [c0, e0]
      exact h0
    have hidle' : (smoothLED.faderISR.passes b h p2).idle :=
      ⟨c1.trans (e1.trans (c2.trans e2).symm), by omega⟩
    rw [show smoothLED.faderISR.passes b (h + 1) p2 =
        smoothLED.faderISR.pass b (smoothLED.faderISR.passes b h p2) from rfl,
      pass_popping b _ _ [] hinit hidle' (c4.trans e4) true {}]
    obtain ⟨_, s2, s3, s4, _⟩ := set_idle_fields b true _ {} c 0 0 hidle'
    exact ⟨s4 rfl, s2, s3, rfl⟩

/-- Witness of C22: the channel at level 255, `a = 128`, `h = 50`, `c = 0`. -/
theorem C22_hold_then_immediate_witness :
    (∃ p, ((({ _firstLink := [exampleFullOnLED] } : System).call 0
        (smoothLED.set {} true 128 0 50)).call 0 (smoothLED.set {} true 0 0 0))._firstLink = [p] ∧
      p._currentLevel = 128 ∧ p._targetLevel = 128 ∧ p._waitTime = 50 ∧
      p._nextSet = [{ targetLevel := 0, changeSpeed := 0, delayMS := 0 }]) ∧
    (∃ p, (faderTicks {} true 50 ((({ _firstLink := [exampleFullOnLED] } : System).call 0
        (smoothLED.set {} true 128 0 50)).call 0
        (smoothLED.set {} true 0 0 0)))._firstLink = [p] ∧
      p._currentLevel = 128 ∧ p._waitTime = 50 - 50 ∧
      p._nextSet = [{ targetLevel := 0, changeSpeed := 0, delayMS := 0 }]) ∧
    (∃ p, (faderTicks {} true (50 + 1) ((({ _firstLink := [exampleFullOnLED] } : System).call 0
        (smoothLED.set {} true 128 0 50)).call 0
        (smoothLED.set {} true 0 0 0)))._firstLink = [p] ∧
      p._currentLevel = 0 ∧ p._targetLevel = 0 ∧ p._waitTime = 0 ∧ p._nextSet = []) :=
  have h := C22_hold_then_immediate {} true true { _firstLink := [exampleFullOnLED] }
    exampleFullOnLED 128 0 50 rfl (by decide) (by decide) rfl (by decide)
  ⟨h.1, h.2.1 50 (le_refl 50), h.2.2⟩

/-! ## Lemmas: convergence of a fade -/

/-- One fade step: the level stays between the old level and the target, and
unless the target is reached `fadeTime` has gone down. -/
theorem fade_step (p : smoothLED) (h : p._currentLevel ≠ p._targetLevel) :
    towards p._currentLevel (smoothLED.faderISR.fade p)._currentLevel p._targetLevel ∧
    ((smoothLED.faderISR.fade p)._currentLevel ≠ p._targetLevel →
      fadeTime (smoothLED.faderISR.fade p) < fadeTime p) := by
  obtain ⟨_, f2, _, _, _, f6, f7⟩ := fade_fields p
  have hb := tickerWait_le (toInt16 (toInt16 (p._changeTicker - 128) + (p._changeDelays : Int)))
  have h1 : 1 ≤ tickerWait p._changeTicker := by unfold tickerWait; omega
  unfold fadeTime towards
  rw [f2, f6, f7]
  by_cases hz : toInt16 (p._changeTicker - 128) ≤ 0
  · rw [if_pos hz, if_pos hz]
    unfold levelDelta
    split_ifs <;> omega
  · rw [if_neg hz, if_neg hz]
    refine ⟨⟨fun _ => ⟨le_refl _, by omega⟩, fun _ => ⟨by omega, le_refl _⟩⟩, fun _ => ?_⟩
    have : tickerWait (toInt16 (p._changeTicker - 128)) < tickerWait p._changeTicker := by
      unfold tickerWait
      have h3 : toInt16 (toInt16 (p._changeTicker - 128) - 128) =
          toInt16 (p._changeTicker - 128) - 128 := by
        unfold toInt16 at hz ⊢
        omega
      rw [h3]
      simp only [hz, if_false]
      split_ifs <;> omega
    omega

/-- The bound `fadeTime` is at most 257 passes for each level to go. -/
theorem fadeTime_le (p : smoothLED) (h : p._currentLevel ≠ p._targetLevel) :
    fadeTime p ≤ 257 * levelDelta p._currentLevel p._targetLevel := by
  have hb := tickerWait_le p._changeTicker
  unfold fadeTime levelDelta
  split_ifs <;> omega

/-- A fading initialised instance reaches its target within `fadeTime`
passes of the loop body, the target stays, and from pass to pass the level
stays between the previous level and the target. -/
theorem fade_converges (b : Board) :
    ∀ (k : Nat) (p : smoothLED), p._portRegister ≠ none →
      p._currentLevel ≠ p._targetLevel → fadeTime p ≤ k →
      ∃ n, 1 ≤ n ∧ n ≤ k ∧
        (smoothLED.faderISR.passes b n p)._currentLevel = p._targetLevel ∧
        (∀ m, m ≤ n → (smoothLED.faderISR.passes b m p)._targetLevel = p._targetLevel) ∧
        (∀ m, m < n → (smoothLED.faderISR.passes b m p)._currentLevel ≠ p._targetLevel) ∧
        (∀ m, m < n → towards (smoothLED.faderISR.passes b m p)._currentLevel
          (smoothLED.faderISR.passes b (m + 1) p)._currentLevel p._targetLevel)
  | 0, p, _, _, hk => by
    have : 1 ≤ tickerWait p._changeTicker := by unfold tickerWait; omega
    unfold fadeTime at hk
    omega
  | k + 1, p, h0, h1, hk => by
    obtain ⟨d1, _, _, _, d5, _, d7, _, d9, _⟩ := pass_fading b p h0 h1
    obtain ⟨s1, s2⟩ := fade_step p h1
    have ht : (smoothLED.faderISR.fade p)._targetLevel = p._targetLevel := (fade_fields p).2.1
    have hport : (smoothLED.faderISR.fade p)._portRegister = p._portRegister :=
      (fade_fields p).1
    have htime : fadeTime (smoothLED.faderISR.pass b p) =
        fadeTime (smoothLED.faderISR.fade p) := by
      unfold fadeTime
      rw [d5, d7, d9]
    by_cases hreach : (smoothLED.faderISR.fade p)._currentLevel = p._targetLevel
    · refine ⟨1, le_refl 1, by omega, d5.trans hreach, ?_, ?_, ?_⟩
      · intro m hm
        rcases Nat.le_one_iff_eq_zero_or_eq_one.mp hm with rfl | rfl
        · rfl
        · exact d7.trans ht
      · intro m hm
        obtain rfl : m = 0 := by omega
        exact h1
      · intro m hm
        obtain rfl : m = 0 := by omega
        show towards p._currentLevel (smoothLED.faderISR.pass b p)._currentLevel _
        rw [d5]
        exact s1
    · have hfading : (smoothLED.faderISR.pass b p)._currentLevel ≠
          (smoothLED.faderISR.pass b p)._targetLevel := by
        rw [d5, d7, ht]
        exact hreach
      obtain ⟨n, n1, n2, n3, n4, n5, n6⟩ := fade_converges b k (smoothLED.faderISR.pass b p)
        (by rw [d1, hport]; exact h0) hfading (by rw [htime]; have := s2 hreach; omega)
      have htar : (smoothLED.faderISR.pass b p)._targetLevel = p._targetLevel := d7.trans ht
      rw [htar] at n3 n4 n5 n6
      refine ⟨n + 1, by omega, by omega, ?_, ?_, ?_, ?_⟩
      · rw [← passes_shift]
        exact n3
      · intro m hm
        cases m with
        | zero => rfl
        | succ j =>
          rw [← passes_shift]
          exact n4 j (by omega)
      · intro m hm
        cases m with
        | zero => exact h1
        | succ j =>
          rw [← passes_shift]
          exact n5 j (by omega)
      · intro m hm
        cases m with
        | zero =>
          show towards p._currentLevel (smoothLED.faderISR.pass b p)._currentLevel _
          rw [d5]
          exact s1
        | succ j =>
          rw [← passes_shift, ← passes_shift]
          exact n6 j (by omega)

/-- C23: an initialised channel in any state with `_currentLevel !=
_targetLevel`, and no foreground call. An invocation of `faderISR` either
takes a channel through the loop body once (`pass`) or skips it; in a
registry of one every invocation processes the channel. After at most
`512 * |_targetLevel - _currentLevel|` invocations that process the channel
(257 for each level, in fact) `_currentLevel` equals `_targetLevel` for the
first time; the target stays, and from one invocation to the next the level
never moves away from the target and never passes it. -/
theorem C23_convergence (b : Board) (p : smoothLED) (h0 : p._portRegister ≠ none)
    (h1 : p._currentLevel ≠ p._targetLevel) :
    (∀ (alloc : Bool) (sys : System) (i : Nat) (q : smoothLED), sys._firstLink[i]? = some q →
      (smoothLED.faderISR b alloc sys)._firstLink[i]? = some (smoothLED.faderISR.pass b q) ∨
      (smoothLED.faderISR b alloc sys)._firstLink[i]? = some q) ∧
    (∀ (alloc : Bool) (sys : System) (n : Nat), sys._firstLink = [p] →
      (faderTicks b alloc n sys)._firstLink = [smoothLED.faderISR.passes b n p]) ∧
    ∃ n, 1 ≤ n ∧ n ≤ 257 * levelDelta p._currentLevel p._targetLevel ∧
      n ≤ 512 * levelDelta p._currentLevel p._targetLevel ∧
      (smoothLED.faderISR.passes b n p)._currentLevel = p._targetLevel ∧
      (∀ m, m ≤ n → (smoothLED.faderISR.passes b m p)._targetLevel = p._targetLevel) ∧
      (∀ m, m < n → (smoothLED.faderISR.passes b m p)._currentLevel ≠ p._targetLevel) ∧
      (∀ m, m < n → towards (smoothLED.faderISR.passes b m p)._currentLevel
        (smoothLED.faderISR.passes b (m + 1) p)._currentLevel p._targetLevel) := by
  refine ⟨fun alloc sys i q h => faderISR_pass_or_skip b alloc sys i q h,
    fun alloc sys n h => faderTicks_single b alloc sys p h n, ?_⟩
  obtain ⟨n, n1, n2, n3, n4, n5, n6⟩ := fade_converges b (fadeTime p) p h0 h1 (le_refl _)
  have hle := fadeTime_le p h1
  exact ⟨n, n1, by omega, by omega, n3, n4, n5, n6⟩

/-- Witness of C23: the channel `exampleLED` with the target nudged to 2. -/
theorem C23_convergence_witness :
    ∃ n, 1 ≤ n ∧ n ≤ 257 * levelDelta 0 2 ∧ n ≤ 512 * levelDelta 0 2 ∧
      (smoothLED.faderISR.passes {} n { exampleLED with _targetLevel := 2 })._currentLevel = 2 ∧
      (∀ m, m ≤ n → (smoothLED.faderISR.passes {} m
        { exampleLED with _targetLevel := 2 })._targetLevel = 2) ∧
      (∀ m, m < n → (smoothLED.faderISR.passes {} m
        { exampleLED with _targetLevel := 2 })._currentLevel ≠ 2) ∧
      (∀ m, m < n → towards
        (smoothLED.faderISR.passes {} m { exampleLED with _targetLevel := 2 })._currentLevel
        (smoothLED.faderISR.passes {} (m + 1) { exampleLED with _targetLevel := 2 })._currentLevel
        2) :=
  (C23_convergence {} { exampleLED with _targetLevel := 2 } (by decide) (by decide)).2.2

/-- C24 (code evaluated at the failing input): the channel `exampleLED`, idle
at level 0 with the pace accumulator 0, and `set(2, 1000, 0)`: the level
delta is 2 and `speed >= delta`. `set` stores `_changeDelays == 64000`. The
first invocation of `faderISR` moves the level to 1 and adds 64000 to the
accumulator -128, which the `int16_t` member holds as -1664; so the second
invocation moves the level again and the target is reached after 2
invocations, where the claimed bound is `1000 - ceil(1000 / 2) - 2 = 498`. -/
theorem C24_slow_fade_overflows :
    exampleLED.idle ∧ levelDelta exampleLED._currentLevel 2 = 2 ∧
    ((exampleSystem.call 0 (smoothLED.set {} true 2 1000 0))._firstLink.map
      fun p => (p._currentLevel, p._targetLevel, p._changeDelays, p._changeTicker)) =
      [(0, 2, 64000, 0)] ∧
    ((faderTicks {} true 1 (exampleSystem.call 0
        (smoothLED.set {} true 2 1000 0)))._firstLink.map
      fun p => (p._currentLevel, p._targetLevel, p._changeDelays, p._changeTicker)) =
      [(1, 2, 64000, -1664)] ∧
    ((faderTicks {} true 2 (exampleSystem.call 0
        (smoothLED.set {} true 2 1000 0)))._firstLink.map
      fun p => (p._currentLevel, p._targetLevel)) = [(2, 2)] ∧
    ¬ (1000 - (1000 + 2 - 1) / 2 - 2 ≤ 2) := by
  refine ⟨by decide, by decide, by decide, by decide, by decide, by decide⟩

/-- C28 (code evaluated at the failing input): the loop body of `faderISR` on
an initialised channel with `_currentLevel != _targetLevel` leaves
`_targetLevel`, `_waitTime` and the queue alone, subtracts 128 from the pace
accumulator and, when the result is `<= 0`, adds `_changeDelays` and moves
the level one unit towards the target; both operations are done in
`int16_t`. They are exact as long as the results fit 16 bits, which the code
does not ensure: after `set(2, 1000, 0)` on `exampleLED` the accumulator
-128 replenished by `_changeDelays == 64000` is stored as -1664, not 63872;
and the accumulator -32768 decremented by 128 is stored as 32640. -/
theorem C28_fade_step_wraps (b : Board) (alloc : Bool) :
    (∀ (p : smoothLED) (st : FaderState), p._portRegister ≠ none →
      p._currentLevel ≠ p._targetLevel →
      (smoothLED.faderISR.body b alloc p st).1._targetLevel = p._targetLevel ∧
      (smoothLED.faderISR.body b alloc p st).1._waitTime = p._waitTime ∧
      (smoothLED.faderISR.body b alloc p st).1._nextSet = p._nextSet ∧
      (smoothLED.faderISR.body b alloc p st).1._changeDelays = p._changeDelays ∧
      (smoothLED.faderISR.body b alloc p st).1._changeTicker =
        (if toInt16 (p._changeTicker - 128) ≤ 0
          then toInt16 (toInt16 (p._changeTicker - 128) + (p._changeDelays : Int))
          else toInt16 (p._changeTicker - 128)) ∧
      (smoothLED.faderISR.body b alloc p st).1._currentLevel =
        (if toInt16 (p._changeTicker - 128) ≤ 0
          then (if p._currentLevel > p._targetLevel then p._currentLevel - 1
                else p._currentLevel + 1)
          else p._currentLevel)) ∧
    (∀ t : Int, -32640 ≤ t → t ≤ 32767 → toInt16 (t - 128) = t - 128) ∧
    (∀ (t : Int) (d : Nat), -32768 ≤ t → t + d ≤ 32767 → toInt16 (t + d) = t + d) ∧
    (exampleLED.set b alloc 2 1000 0 {}).1._changeDelays = 64000 ∧
    (smoothLED.faderISR.body b alloc (exampleLED.set b alloc 2 1000 0 {}).1
      { hw := {} }).1._changeTicker = -1664 ∧
    (smoothLED.faderISR.body b alloc { exampleLED with _targetLevel := 2, _changeTicker := -32768 }
      { hw := {} }).1._changeTicker = 32640 ∧
    (smoothLED.faderISR.body b alloc { exampleLED with _targetLevel := 2, _changeTicker := -32768 }
      { hw := {} }).1._currentLevel = 0 := by
  have hmain : ∀ (p : smoothLED) (st : FaderState), p._portRegister ≠ none →
      p._currentLevel ≠ p._targetLevel →
      (smoothLED.faderISR.body b alloc p st).1._targetLevel = p._targetLevel ∧
      (smoothLED.faderISR.body b alloc p st).1._waitTime = p._waitTime ∧
      (smoothLED.faderISR.body b alloc p st).1._nextSet = p._nextSet ∧
      (smoothLED.faderISR.body b alloc p st).1._changeDelays = p._changeDelays ∧
      (smoothLED.faderISR.body b alloc p st).1._changeTicker =
        (if toInt16 (p._changeTicker - 128) ≤ 0
          then toInt16 (toInt16 (p._changeTicker - 128) + (p._changeDelays : Int))
          else toInt16 (p._changeTicker - 128)) ∧
      (smoothLED.faderISR.body b alloc p st).1._currentLevel =
        (if toInt16 (p._changeTicker - 128) ≤ 0
          then (if p._currentLevel > p._targetLevel then p._currentLevel - 1
                else p._currentLevel + 1)
          else p._currentLevel) := by
    intro p st h0 h1
    rw [body_led]
    obtain ⟨_, _, _, _, d5, d6, d7, d8, d9, d10⟩ := pass_fading b p h0 h1
    obtain ⟨_, f2, f3, f4, f5, f6, f7⟩ := fade_fields p
    exact ⟨d7.trans f2, d6.trans f4, d10.trans f5, d8.trans f3, d9.trans f6, d5.trans f7⟩
  have hset : (exampleLED.set b alloc 2 1000 0 {}).1 =
      { exampleLED with _targetLevel := 2, _changeDelays := 64000 } := by
    simp [smoothLED.set, exampleLED, paceDelay, udiv32, levelDelta, clampDelay, UINT16_MAX]
  refine ⟨hmain, ?_, ?_, ?_, ?_, ?_, ?_⟩
  · intro t h1 h2
    unfold toInt16
    omega
  · intro t d h1 h2
    unfold toInt16
    omega
  · rw [hset]
  · rw [hset, (hmain _ _ (by decide) (by decide)).2.2.2.2.1]
    decide
  · rw [(hmain _ _ (by decide) (by decide)).2.2.2.2.1]
    decide
  · rw [(hmain _ _ (by decide) (by decide)).2.2.2.2.2]
    decide

/-! ## Theorems: switching the ticks off -/

/-- C25: `faderISR` runs `fadeTimerOff` when the flag `turnFadeOff` has
survived its loop, and `pwmTimerOff` when `turnPWMoff` has survived as well;
an invocation that finds a tick enabled and returns with it disabled has
done so. If the invocation disables the millisecond tick, then on return
every initialised channel has `_currentLevel == _targetLevel`,
`_waitTime == 0` and an empty queue; if it disables the high-frequency tick,
then on return no initialised channel in software drive has the active-PWM
flag set. -/
theorem C25_disarm_only_without_work (b : Board) (alloc : Bool) (sys : System) :
    (sys.hw.OCIE0A = true → (smoothLED.faderISR b alloc sys).hw.OCIE0A = false →
      (smoothLED.faderISR.sweep b alloc sys).turnFadeOff = true) ∧
    (sys.hw.TOIE1 = true → (smoothLED.faderISR b alloc sys).hw.TOIE1 = false →
      (smoothLED.faderISR.sweep b alloc sys).turnFadeOff = true ∧
      (smoothLED.faderISR.sweep b alloc sys).turnPWMoff = true) ∧
    ((smoothLED.faderISR.sweep b alloc sys).turnFadeOff = true →
      (smoothLED.faderISR b alloc sys).hw.OCIE0A = false ∧
      ∀ p ∈ (smoothLED.faderISR b alloc sys)._firstLink, p._portRegister ≠ none →
        p._currentLevel = p._targetLevel ∧ p._waitTime = 0 ∧ p._nextSet = []) ∧
    ((smoothLED.faderISR.sweep b alloc sys).turnFadeOff = true →
      (smoothLED.faderISR.sweep b alloc sys).turnPWMoff = true →
      (smoothLED.faderISR b alloc sys).hw.TOIE1 = false ∧
      ∀ p ∈ (smoothLED.faderISR b alloc sys)._firstLink, p._portRegister ≠ none →
        p._flags &&& SOFTWARE_MODE ≠ 0 → p._flags &&& PWM_ACTIVE = 0) := by
  have hen := loop_enables b alloc sys._firstLink
    { hw := sys.hw, turnPWMoff := true, turnFadeOff := true }
  have hen1 : sys.hw.OCIE0A = true → (smoothLED.faderISR.sweep b alloc sys).hw.OCIE0A = true :=
    hen.1
  have hen2 : sys.hw.TOIE1 = true → (smoothLED.faderISR.sweep b alloc sys).hw.TOIE1 = true :=
    hen.2
  have hlists : (smoothLED.faderISR b alloc sys)._firstLink =
      (smoothLED.faderISR.loop b alloc sys._firstLink
        { hw := sys.hw, turnPWMoff := true, turnFadeOff := true }).1 := rfl
  refine ⟨?_, ?_, ?_, ?_⟩
  · intro h1 h2
    by_contra hf
    rw [faderISR_hw, if_neg hf] at h2
    rw [hen1 h1] at h2
    exact absurd h2 (by decide)
  · intro h1 h2
    by_cases hf : (smoothLED.faderISR.sweep b alloc sys).turnFadeOff = true
    · by_cases hp : (smoothLED.faderISR.sweep b alloc sys).turnPWMoff = true
      · exact ⟨hf, hp⟩
      · rw [faderISR_hw, if_pos hf, if_neg hp] at h2
        have h3 : (smoothLED.faderISR.sweep b alloc sys).hw.TOIE1 = false := h2
        rw [hen2 h1] at h3
        exact absurd h3 (by decide)
    · rw [faderISR_hw, if_neg hf] at h2
      rw [hen2 h1] at h2
      exact absurd h2 (by decide)
  · intro hf
    obtain ⟨_, _, i3, _⟩ := loop_turnFadeOff b alloc sys._firstLink
      { hw := sys.hw, turnPWMoff := true, turnFadeOff := true } hf
    refine ⟨?_, fun p hp hinit => i3 p (hlists ▸ hp) hinit⟩
    rw [faderISR_hw, if_pos hf]
    split_ifs <;> rfl
  · intro hf hp
    obtain ⟨_, _, _, i4⟩ := loop_turnFadeOff b alloc sys._firstLink
      { hw := sys.hw, turnPWMoff := true, turnFadeOff := true } hf
    obtain ⟨_, k2⟩ := i4 hp
    refine ⟨?_, ?_⟩
    · rw [faderISR_hw, if_pos hf, if_pos hp]
      rfl
    · intro p hmem hinit hsoft
      by_contra hact
      exact k2 p (hlists ▸ hmem) hinit ⟨hact, hsoft⟩

/-- Witness of C25: the invocation on `exampleRestSystem` disables both
ticks. -/
theorem C25_disarm_only_without_work_witness :
    (smoothLED.faderISR.sweep {} true exampleRestSystem).turnFadeOff = true ∧
    (smoothLED.faderISR.sweep {} true exampleRestSystem).turnPWMoff = true ∧
    ((smoothLED.faderISR {} true exampleRestSystem).hw.OCIE0A = false ∧
      ∀ p ∈ (smoothLED.faderISR {} true exampleRestSystem)._firstLink, p._portRegister ≠ none →
        p._currentLevel = p._targetLevel ∧ p._waitTime = 0 ∧ p._nextSet = []) ∧
    ((smoothLED.faderISR {} true exampleRestSystem).hw.TOIE1 = false ∧
      ∀ p ∈ (smoothLED.faderISR {} true exampleRestSystem)._firstLink, p._portRegister ≠ none →
        p._flags &&& SOFTWARE_MODE ≠ 0 → p._flags &&& PWM_ACTIVE = 0) :=
  ⟨by decide, by decide,
    (C25_disarm_only_without_work {} true exampleRestSystem).2.2.1 (by decide),
    (C25_disarm_only_without_work {} true exampleRestSystem).2.2.2 (by decide) (by decide)⟩

/-- Counterexample to C26 as stated: in `exampleHoldSystem` the hold of the
only channel ends in the invocation. After the sweep the channel is not
fading, not holding, has nothing stored and is not in active software PWM,
but the invocation has set `turnFadeOff` to false in the hold branch and
both ticks are still enabled. -/
theorem C26_idle_disarm_counterexample :
    exampleHoldSystem.hw.OCIE0A = true ∧ exampleHoldSystem.hw.TOIE1 = true ∧
    (∀ p ∈ (smoothLED.faderISR {} true exampleHoldSystem)._firstLink, p._portRegister ≠ none →
      (p._currentLevel = p._targetLevel ∧ p._waitTime = 0 ∧ p._nextSet = []) ∧
      ¬ (p._flags &&& PWM_ACTIVE ≠ 0 ∧ p._flags &&& SOFTWARE_MODE ≠ 0)) ∧
    (smoothLED.faderISR {} true exampleHoldSystem).hw.OCIE0A = true ∧
    (smoothLED.faderISR {} true exampleHoldSystem).hw.TOIE1 = true := by
  refine ⟨by decide, by decide, by decide, by decide, by decide⟩

/-- C26 (amended): if at the start of an invocation of `faderISR` no
initialised channel is fading, holding or has a stored command, then the
invocation has disabled the millisecond tick, and the channels are still so
on return; if in addition no initialised channel is in software drive with
the active-PWM flag set after the sweep, it has disabled the high-frequency
tick too. -/
theorem C26_idle_disarm (b : Board) (alloc : Bool) (sys : System)
    (hrest : ∀ p ∈ sys._firstLink, p._portRegister ≠ none →
      p._currentLevel = p._targetLevel ∧ p._waitTime = 0 ∧ p._nextSet = []) :
    (smoothLED.faderISR b alloc sys).hw.OCIE0A = false ∧
    (∀ p ∈ (smoothLED.faderISR b alloc sys)._firstLink, p._portRegister ≠ none →
      p._currentLevel = p._targetLevel ∧ p._waitTime = 0 ∧ p._nextSet = []) ∧
    ((∀ p ∈ (smoothLED.faderISR b alloc sys)._firstLink, p._portRegister ≠ none →
        ¬ (p._flags &&& PWM_ACTIVE ≠ 0 ∧ p._flags &&& SOFTWARE_MODE ≠ 0)) →
      (smoothLED.faderISR b alloc sys).hw.TOIE1 = false) := by
  obtain ⟨i1, i2, i3⟩ := loop_atRest b alloc sys._firstLink
    { hw := sys.hw, turnPWMoff := true, turnFadeOff := true } hrest
  have hf : (smoothLED.faderISR.sweep b alloc sys).turnFadeOff = true := i1
  refine ⟨?_, i2, ?_⟩
  · rw [faderISR_hw, if_pos hf]
    split_ifs <;> rfl
  · intro hs
    have hp : (smoothLED.faderISR.sweep b alloc sys).turnPWMoff = true := i3 hs
    rw [faderISR_hw, if_pos hf, if_pos hp]
    rfl

/-- Witness of C26 (amended): the invocation on `exampleRestSystem`. -/
theorem C26_idle_disarm_witness :
    (smoothLED.faderISR {} true exampleRestSystem).hw.OCIE0A = false ∧
    (∀ p ∈ (smoothLED.faderISR {} true exampleRestSystem)._firstLink, p._portRegister ≠ none →
      p._currentLevel = p._targetLevel ∧ p._waitTime = 0 ∧ p._nextSet = []) ∧
    (smoothLED.faderISR {} true exampleRestSystem).hw.TOIE1 = false :=
  have h := C26_idle_disarm {} true exampleRestSystem (by decide)
  ⟨h.1, h.2.1, h.2.2 (by decide)⟩

/-! ## Theorems: critical sections -/

/-- C27 (code evaluated at the failing input): run statement by statement,
each of the six operators is the operator of the embedding, and so is `set`.
Every statement of `set` that changes a member runs between `cli()` and
`SREG = originalSREG`, whatever the call. The operators have neither: called
with interrupts enabled on `exampleLED`, each of them writes `_targetLevel`
with the global interrupt enable bit set, and the bit is set throughout. -/
theorem C27_nudge_without_critical_section (led : smoothLED) (hw : Hardware) (value : Int) :
    execute smoothLED.operator_inc.statements (led, hw) = led.operator_inc hw ∧
    execute smoothLED.operator_dec.statements (led, hw) = led.operator_dec hw ∧
    execute (smoothLED.operator_plus.statements value) (led, hw) = led.operator_plus value hw ∧
    execute (smoothLED.operator_minus.statements value) (led, hw) =
      led.operator_minus value hw ∧
    execute (smoothLED.operator_plus_assign.statements value) (led, hw) =
      led.operator_plus_assign value hw ∧
    execute (smoothLED.operator_minus_assign.statements value) (led, hw) =
      led.operator_minus_assign value hw ∧
    (∀ (b : Board) (alloc : Bool) (val speed delay : Nat),
      execute (smoothLED.set.statements b alloc val speed delay led hw) (led, hw) =
        led.set b alloc val speed delay hw ∧
      writesMasked (smoothLED.set.statements b alloc val speed delay led hw) (led, hw) = true) ∧
    ({} : Hardware).SREG_I = true ∧
    writesMasked smoothLED.operator_inc.statements (exampleLED, {}) = false ∧
    writesMasked smoothLED.operator_dec.statements (exampleLED, {}) = false ∧
    writesMasked (smoothLED.operator_plus.statements 1) (exampleLED, {}) = false ∧
    writesMasked (smoothLED.operator_minus.statements 1) (exampleLED, {}) = false ∧
    writesMasked (smoothLED.operator_plus_assign.statements 1) (exampleLED, {}) = false ∧
    writesMasked (smoothLED.operator_minus_assign.statements 1) (exampleLED, {}) = false ∧
    (exampleLED.operator_inc {}).1._targetLevel ≠ exampleLED._targetLevel ∧
    (exampleLED.operator_inc {}).2.SREG_I = true := by
  refine ⟨rfl, rfl, rfl, rfl, rfl, rfl, ?_, rfl, by decide, by decide, by decide, by decide,
    by decide, by decide, by decide, rfl⟩
  intro b alloc val speed delay
  unfold smoothLED.set.statements smoothLED.set
  by_cases hidle : led._currentLevel = led._targetLevel ∧ led._waitTime = 0
  · simp only [if_pos hidle]
    by_cases hs : speed = 0
    · simp [execute, writesMasked, cli, restoreSREG, fadeTimerOn, pwmTimerOn, hs]
    · simp [execute, writesMasked, cli, restoreSREG, fadeTimerOn, pwmTimerOn, hs]
  · simp only [if_neg hidle]
    cases alloc <;> simp [execute, writesMasked, cli, restoreSREG]

/-! ## Theorems: the dequeue and the early exit -/

/-- The loop reaches the instance at position `k` when no instance before it
leaves the loop. -/
theorem loop_reach (b : Board) (alloc : Bool) :
    ∀ (l : List smoothLED) (st : FaderState) (k : Nat) (p : smoothLED), l[k]? = some p →
      (∀ i q, i < k → l[i]? = some q →
        ¬ (q._portRegister ≠ none ∧ q.idle ∧ q._nextSet ≠ [])) →
      (smoothLED.faderISR.loop b alloc l st).1[k]? = some (smoothLED.faderISR.pass b p)
  | [], _, _, _, h, _ => by simp at h
  | q :: rest, st, 0, p, h, _ => by
    simp only [List.getElem?_cons_zero, Option.some.injEq] at h
    subst h
    by_cases hbr : (smoothLED.faderISR.body b alloc q st).2.2 = true
    · rw [loop_cons_break b alloc q rest st hbr]
      simp [body_led]
    · rw [loop_cons_next b alloc q rest st (by simpa using hbr)]
      simp [body_led]
  | q :: rest, st, k + 1, p, h, hreach => by
    simp only [List.getElem?_cons_succ] at h
    have hbr : (smoothLED.faderISR.body b alloc q st).2.2 = false := by
      have := hreach 0 q (by omega) (by simp)
      rw [← body_break_iff b alloc q st] at this
      simpa using this
    rw [loop_cons_next b alloc q rest st hbr]
    simp only [List.getElem?_cons_succ]
    exact loop_reach b alloc rest _ k p h
      (fun i q' hi hq' => hreach (i + 1) q' (by omega) (by simpa using hq'))

/-- In an invocation of `faderISR()` in which the queue of the instance at
position `k` changes, that instance has lost the head of its queue. -/
theorem faderISR_queue_change (b : Board) (alloc : Bool) (sys : System) (k : Nat)
    (p p' : smoothLED) (hk : sys._firstLink[k]? = some p)
    (hk' : (smoothLED.faderISR b alloc sys)._firstLink[k]? = some p')
    (hne : p'._nextSet ≠ p._nextSet) : p'._nextSet.length < p._nextSet.length := by
  obtain ⟨p'', hp'', hstep⟩ := faderISR_tickStep b alloc sys k p hk
  rw [hk'] at hp''
  simp only [Option.some.injEq] at hp''
  subst hp''
  rcases hstep with ⟨s1, _⟩ | ⟨cmd, rest, hcons, _, heq⟩
  · exact absurd s1 hne
  · rw [heq true {}, hcons]
    simp

/-- C29: when `faderISR` reaches an initialised channel with `_currentLevel
== _targetLevel`, `_waitTime == 0` and the command `{v, s, d}` at the head of
its queue (no channel before it leaves the loop), the channel afterwards is
the channel that `set(v, s, d)` gives on it, with the rest of the old queue
as its queue: `set` takes the apply branch and stores nothing, target and
hold are `v` and `d`, the level is `v` for `s == 0` and otherwise unchanged
with the pace of `set`. No other channel of the registry has its queue
changed in the invocation; and in any invocation, a channel whose queue
changes has lost exactly one command and no other queue has changed. -/
theorem C29_dequeue (b : Board) (alloc : Bool) (sys : System) (k : Nat) (p : smoothLED)
    (v s d : Nat) (rest : List setStructure)
    (hk : sys._firstLink[k]? = some p)
    (hreach : ∀ i q, i < k → sys._firstLink[i]? = some q →
      ¬ (q._portRegister ≠ none ∧ q.idle ∧ q._nextSet ≠ []))
    (h0 : p._portRegister ≠ none) (h1 : p._currentLevel = p._targetLevel)
    (h2 : p._waitTime = 0)
    (hq : p._nextSet = { targetLevel := v, changeSpeed := s, delayMS := d } :: rest) :
    (∃ p', (smoothLED.faderISR b alloc sys)._firstLink[k]? = some p' ∧
      (∀ alloc' hw, p' = { (p.set b alloc' v s d hw).1 with _nextSet := rest } ∧
        (p.set b alloc' v s d hw).1._nextSet = p._nextSet) ∧
      p'._nextSet = rest ∧ p'._targetLevel = v ∧ p'._waitTime = d ∧
      (s = 0 → p'._currentLevel = v ∧ p'._changeDelays = p._changeDelays) ∧
      (s ≠ 0 → p'._currentLevel = p._currentLevel ∧
        p'._changeDelays = paceDelay b s p._currentLevel v) ∧
      p'._changeTicker = p._changeTicker) ∧
    (∀ i q, i ≠ k → sys._firstLink[i]? = some q →
      ∃ q', (smoothLED.faderISR b alloc sys)._firstLink[i]? = some q' ∧
        q'._nextSet = q._nextSet) ∧
    (∀ (i j : Nat) (q q' r r' : smoothLED), i ≠ j → sys._firstLink[i]? = some q →
      (smoothLED.faderISR b alloc sys)._firstLink[i]? = some q' →
      sys._firstLink[j]? = some r → (smoothLED.faderISR b alloc sys)._firstLink[j]? = some r' →
      q'._nextSet ≠ q._nextSet → q._nextSet.length = q'._nextSet.length + 1 ∧
        r'._nextSet = r._nextSet) := by
  have hone : ∀ (i j : Nat) (q q' r r' : smoothLED), i ≠ j → sys._firstLink[i]? = some q →
      (smoothLED.faderISR b alloc sys)._firstLink[i]? = some q' →
      sys._firstLink[j]? = some r → (smoothLED.faderISR b alloc sys)._firstLink[j]? = some r' →
      q'._nextSet ≠ q._nextSet → q._nextSet.length = q'._nextSet.length + 1 ∧
        r'._nextSet = r._nextSet := by
    intro i j q q' r r' hij hq1 hq2 hr1 hr2 hne
    have hlt := faderISR_queue_change b alloc sys i q q' hq1 hq2 hne
    have hlen : q._nextSet.length = q'._nextSet.length + 1 := by
      obtain ⟨p'', hp'', hstep⟩ := faderISR_tickStep b alloc sys i q hq1
      rw [hq2] at hp''
      simp only [Option.some.injEq] at hp''
      subst hp''
      rcases hstep with ⟨s1, _⟩ | ⟨cmd, rest', hcons, _, heq⟩
      · exact absurd s1 hne
      · rw [heq true {}, hcons]
        simp
    refine ⟨hlen, ?_⟩
    obtain ⟨_, l2, l3, _⟩ := loop_pop b alloc sys._firstLink
      { hw := sys.hw, turnPWMoff := true, turnFadeOff := true } i q q' hq1 hq2 hlt
    rcases Nat.lt_or_gt_of_ne hij with hlt' | hgt
    · have := l2 j hlt'
      have hr2' : (smoothLED.faderISR.loop b alloc sys._firstLink
          { hw := sys.hw, turnPWMoff := true, turnFadeOff := true }).1[j]? = some r' := hr2
      rw [this, hr1] at hr2'
      simp only [Option.some.injEq] at hr2'
      rw [← hr2']
    · obtain ⟨st', e1, e2⟩ := l3 j r hgt hr1
      have hr2' : (smoothLED.faderISR.loop b alloc sys._firstLink
          { hw := sys.hw, turnPWMoff := true, turnFadeOff := true }).1[j]? = some r' := hr2
      rw [e1] at hr2'
      simp only [Option.some.injEq] at hr2'
      rw [← hr2']
      exact body_keeps_queue b alloc r st' e2
  have hidle : p.idle := ⟨h1, h2⟩
  have hafter : (smoothLED.faderISR b alloc sys)._firstLink[k]? =
      some (smoothLED.faderISR.pass b p) :=
    loop_reach b alloc sys._firstLink _ k p hk hreach
  have hpass := pass_popping b p _ rest h0 hidle hq
  have hfields := set_idle_fields b true p {} v s d hidle
  have hpace : (p.set b true v s d {}).1._changeTicker = p._changeTicker ∧
      (s = 0 → (p.set b true v s d {}).1._changeDelays = p._changeDelays) ∧
      (s ≠ 0 → (p.set b true v s d {}).1._changeDelays = paceDelay b s p._currentLevel v) := by
    by_cases hs : s = 0 <;> simp [smoothLED.set, h1, h2, hs]
  have hqueue : (smoothLED.faderISR.pass b p)._nextSet = rest := by
    rw [hpass true {}]
  refine ⟨⟨_, hafter, ?_, hqueue, ?_, ?_, ?_, ?_, ?_⟩, ?_, hone⟩
  · intro alloc' hw
    exact ⟨hpass alloc' hw, (set_idle_fields b alloc' p hw v s d hidle).1⟩
  · rw [hpass true {}]
    exact hfields.2.1
  · rw [hpass true {}]
    exact hfields.2.2.1
  · intro hs
    rw [hpass true {}]
    exact ⟨hfields.2.2.2.1 hs, hpace.2.1 hs⟩
  · intro hs
    rw [hpass true {}]
    exact ⟨hfields.2.2.2.2 hs, hpace.2.2 hs⟩
  · rw [hpass true {}]
    exact hpace.1
  · intro i q hik hq1
    obtain ⟨q', hq', _⟩ := faderISR_tickStep b alloc sys i q hq1
    refine ⟨q', hq', ?_⟩
    by_contra hne
    have hkq : (smoothLED.faderISR.pass b p)._nextSet ≠ p._nextSet := by
      rw [hqueue, hq]
      intro hc
      have := congrArg List.length hc
      simp at this
    have := (hone k i p _ q q' (Ne.symm hik) hk hafter hq1 hq' hkq).2
    exact hne this

/-- Witness of C29: the second channel of `examplePopSystem`. -/
theorem C29_dequeue_witness :
    ∃ p', (smoothLED.faderISR {} true examplePopSystem)._firstLink[1]? = some p' ∧
      p'._nextSet = [] ∧ p'._targetLevel = 20 ∧ p'._waitTime = 0 ∧ p'._currentLevel = 20 :=
  have h := (C29_dequeue {} true examplePopSystem 1 exampleReadyLED 20 0 0 [] rfl
    (fun i q hi hq => by
      obtain rfl : i = 0 := by omega
      have hq' : q = exampleBusyLED := by
        have : examplePopSystem._firstLink[0]? = some exampleBusyLED := rfl
        rw [this] at hq
        exact (Option.some.inj hq).symm
      subst hq'
      decide)
    (by decide) rfl rfl rfl).1
  h.elim fun p' hp' => ⟨p', hp'.1, hp'.2.2.1, hp'.2.2.2.1, hp'.2.2.2.2.1,
    (hp'.2.2.2.2.2.1 rfl).1⟩

/-- C30: an invocation of `faderISR` in which the channel at position `k`
dequeues a command. Every channel behind it in registry order is left with
all its members as they were, and the invocation as a whole is the
invocation on the registry cut off behind position `k` with the later
channels appended untouched: the same registers result, so no output of a
later channel is updated by the loop. Every channel before position `k` has
gone through the loop body exactly once, without a dequeue. The channel
itself was idle with a stored command, and the millisecond tick stays
enabled. -/
theorem C30_early_exit (b : Board) (alloc : Bool) (sys : System) (k : Nat) (p p' : smoothLED)
    (hk : sys._firstLink[k]? = some p)
    (hk' : (smoothLED.faderISR b alloc sys)._firstLink[k]? = some p')
    (hpop : p'._nextSet.length < p._nextSet.length) :
    (∀ i, k < i → (smoothLED.faderISR b alloc sys)._firstLink[i]? = sys._firstLink[i]?) ∧
    (smoothLED.faderISR b alloc sys)._firstLink =
      (smoothLED.faderISR b alloc
        { sys with _firstLink := sys._firstLink.take (k + 1) })._firstLink ++
        sys._firstLink.drop (k + 1) ∧
    (smoothLED.faderISR b alloc sys).hw =
      (smoothLED.faderISR b alloc { sys with _firstLink := sys._firstLink.take (k + 1) }).hw ∧
    (∀ i q, i < k → sys._firstLink[i]? = some q →
      (smoothLED.faderISR b alloc sys)._firstLink[i]? = some (smoothLED.faderISR.pass b q) ∧
      (smoothLED.faderISR.pass b q)._nextSet = q._nextSet) ∧
    (p._portRegister ≠ none ∧ p.idle ∧ p._nextSet ≠ [] ∧ p' = smoothLED.faderISR.pass b p) ∧
    (smoothLED.faderISR b alloc sys).hw.OCIE0A = true := by
  obtain ⟨⟨st', l1⟩, l2, l3, l4⟩ := loop_pop b alloc sys._firstLink
    { hw := sys.hw, turnPWMoff := true, turnFadeOff := true } k p p' hk hk' hpop
  have hbreak : (smoothLED.faderISR.body b alloc p st').2.2 = true := by rw [l1]
  have hcond := (body_break_iff b alloc p st').mp hbreak
  have hfade : (smoothLED.faderISR.sweep b alloc sys).turnFadeOff = false := by
    obtain ⟨cmd, rest, hq⟩ := List.exists_cons_of_ne_nil hcond.2.2
    have hpopping := body_popping b alloc p st' cmd rest hcond.1 hcond.2.1 hq
    have : (smoothLED.faderISR.body b alloc p st').2.1.turnFadeOff = false := by rw [hpopping]
    rw [l1] at this
    exact this
  have hhw : (smoothLED.faderISR.sweep b alloc sys).hw.OCIE0A = true := by
    obtain ⟨cmd, rest, hq⟩ := List.exists_cons_of_ne_nil hcond.2.2
    have hpopping := body_popping b alloc p st' cmd rest hcond.1 hcond.2.1 hq
    have : (smoothLED.faderISR.body b alloc p st').2.1.hw.OCIE0A = true := by
      rw [hpopping]
      exact (set_idle_timers b alloc _ _ _ p st'.hw hcond.2.1).1
    rw [l1] at this
    exact this
  refine ⟨l2, ?_, ?_, ?_, ⟨hcond.1, hcond.2.1, hcond.2.2, ?_⟩, ?_⟩
  · exact congrArg Prod.fst l4
  · unfold smoothLED.faderISR
    dsimp only
    rw [congrArg Prod.snd l4]
  · intro i q hi hq
    obtain ⟨st'', e1, e2⟩ := l3 i q hi hq
    rw [body_led] at e1
    refine ⟨e1, ?_⟩
    rw [← body_led b alloc q st'']
    exact body_keeps_queue b alloc q st'' e2
  · have := congrArg Prod.fst l1
    rw [body_led] at this
    exact this.symm
  · rw [faderISR_hw, hfade]
    exact hhw

/-- Witness of C30: in `examplePopSystem` the second channel dequeues
`set(20, 0, 0)`; the third channel keeps its hold of three milliseconds. -/
theorem C30_early_exit_witness :
    (smoothLED.faderISR {} true examplePopSystem)._firstLink[1]? =
      some { exampleReadyLED with _currentLevel := 20, _targetLevel := 20, _nextSet := [] } ∧
    (smoothLED.faderISR {} true examplePopSystem)._firstLink[2]? = some exampleWaitingLED ∧
    (smoothLED.faderISR {} true examplePopSystem)._firstLink[0]? =
      some (smoothLED.faderISR.pass {} exampleBusyLED) ∧
    (smoothLED.faderISR {} true examplePopSystem).hw =
      (smoothLED.faderISR {} true
        { examplePopSystem with _firstLink := examplePopSystem._firstLink.take (1 + 1) }).hw :=
  have h := C30_early_exit {} true examplePopSystem 1 exampleReadyLED
    { exampleReadyLED with _currentLevel := 20, _targetLevel := 20, _nextSet := [] }
    rfl (by decide) (by decide)
  ⟨by decide, h.1 2 (by decide), (h.2.2.2.1 0 exampleBusyLED (by decide) rfl).1, h.2.2.1⟩

/-! ## Lemmas: the drive step, flag by flag -/

/-- The instance that `switchHardwarePWM` returns: the instance itself, or
the instance with `SOFTWARE_MODE` set. -/
theorem switchHardwarePWM_cases (b : Board) (state : Bool) (p : smoothLED) (hw : Hardware) :
    (p.switchHardwarePWM b state hw).1 = p ∨
    (p.switchHardwarePWM b state hw).1 = { p with _flags := p._flags ||| SOFTWARE_MODE } := by
  unfold smoothLED.switchHardwarePWM
  split_ifs
  all_goals first
    | exact Or.inl rfl
    | exact Or.inr rfl

/-- `switchHardwarePWM` writes neither a PORTn register nor a compare
register. -/
theorem switchHardwarePWM_registers (b : Board) (state : Bool) (p : smoothLED) (hw : Hardware) :
    (p.switchHardwarePWM b state hw).2.port = hw.port ∧
    (p.switchHardwarePWM b state hw).2.ocr = hw.ocr := by
  unfold smoothLED.switchHardwarePWM
  split_ifs <;> exact ⟨rfl, rfl⟩

/-- The flags after the drive step: a flag bit other than `PWM_ACTIVE` and
`SOFTWARE_MODE` (and below bit 8) is as before. -/
theorem output_flags (b : Board) (q : smoothLED) (hw : Hardware) (m : Nat)
    (h8 : PWM_ACTIVE &&& m = 0) (h4 : SOFTWARE_MODE &&& m = 0)
    (hm : (255 ^^^ PWM_ACTIVE) &&& m = m) :
    (smoothLED.faderISR.output b q hw).1._flags &&& m = q._flags &&& m := by
  have hclear : (q._flags &&& (255 ^^^ PWM_ACTIVE)) &&& m = q._flags &&& m := by
    rw [Nat.and_assoc, hm]
  have hset : (q._flags ||| PWM_ACTIVE) &&& m = q._flags &&& m :=
    or_and_disjoint _ _ _ h8
  rcases output_cases b q hw with h | h | h <;> rw [h]
  · rcases switchHardwarePWM_cases b false
      { q with _flags := q._flags &&& (255 ^^^ PWM_ACTIVE) } hw with h' | h' <;> rw [h']
    · exact hclear
    · exact (or_and_disjoint _ _ _ h4).trans hclear
  · rcases switchHardwarePWM_cases b true
      { q with _flags := q._flags ||| PWM_ACTIVE } hw with h' | h' <;> rw [h']
    · exact hset
    · exact (or_and_disjoint _ _ _ h4).trans hset
  · exact hset

/-- The drive step changes neither `_currentCIE` nor the level. -/
theorem output_keeps (b : Board) (q : smoothLED) (hw : Hardware) :
    (smoothLED.faderISR.output b q hw).1._currentCIE = q._currentCIE ∧
    (smoothLED.faderISR.output b q hw).1._currentLevel = q._currentLevel := by
  rcases output_cases b q hw with h | h | h <;> rw [h]
  · rcases switchHardwarePWM_cases b false
      { q with _flags := q._flags &&& (255 ^^^ PWM_ACTIVE) } hw with h' | h' <;> rw [h'] <;>
      exact ⟨rfl, rfl⟩
  · rcases switchHardwarePWM_cases b true
      { q with _flags := q._flags ||| PWM_ACTIVE } hw with h' | h' <;> rw [h'] <;>
      exact ⟨rfl, rfl⟩
  · exact ⟨rfl, rfl⟩

/-- No entry of the table is above 255. -/
theorem kcie_getD_lt (n : Nat) : kcie.getD n 0 < 256 := by
  have hall : ∀ x ∈ kcie, x < 256 := by
    set_option maxRecDepth 8000 in decide
  rcases Nat.lt_or_ge n kcie.length with h | h
  · rw [List.getD_eq_getElem _ _ h]
    exact hall _ (List.getElem_mem _)
  · rw [List.getD_eq_default _ _ h]
    decide

/-- The CIE step: the corrected level is the level with `NO_CIE_MODE`, the
entry of the table otherwise; it fits 8 bits when the level does. -/
theorem cie_value (p : smoothLED) :
    (p._flags &&& NO_CIE_MODE ≠ 0 →
      (smoothLED.faderISR.cie p)._currentCIE = p._currentLevel) ∧
    (p._flags &&& NO_CIE_MODE = 0 →
      (smoothLED.faderISR.cie p)._currentCIE = kcie.getD p._currentLevel 0) ∧
    (p._currentLevel ≤ 255 → (smoothLED.faderISR.cie p)._currentCIE ≤ 255) ∧
    (smoothLED.faderISR.cie p)._flags = p._flags ∧
    (smoothLED.faderISR.cie p)._currentLevel = p._currentLevel := by
  have hlt := kcie_getD_lt p._currentLevel
  have hword : pgm_read_word p._currentLevel % 256 = kcie.getD p._currentLevel 0 := by
    unfold pgm_read_word
    omega
  unfold smoothLED.faderISR.cie
  by_cases h : p._flags &&& NO_CIE_MODE ≠ 0
  · rw [if_pos h]
    exact ⟨fun _ => rfl, fun h' => absurd h' h, fun hl => hl, rfl, rfl⟩
  · rw [if_neg h]
    refine ⟨fun h' => absurd h' h, fun _ => hword, fun _ => ?_, rfl, rfl⟩
    show pgm_read_word p._currentLevel % 256 ≤ 255
    omega

/-- A pass of the loop body that does not dequeue is the drive step on the
instance `x` that the fade step, the hold step or no step leaves; `x` has
the flags, the pin and the PWM register of the instance. -/
theorem body_driven (b : Board) (alloc : Bool) (p : smoothLED) (st : FaderState)
    (h0 : p._portRegister ≠ none) (hno : ¬ (p.idle ∧ p._nextSet ≠ [])) :
    ∃ x : smoothLED, x._flags = p._flags ∧ x._portRegister = p._portRegister ∧
      x._registerBitMask = p._registerBitMask ∧ x._PWMRegister = p._PWMRegister ∧
      (smoothLED.faderISR.body b alloc p st).1 =
        (smoothLED.faderISR.output b (smoothLED.faderISR.cie x) st.hw).1 ∧
      (smoothLED.faderISR.body b alloc p st).2.1.hw =
        (smoothLED.faderISR.output b (smoothLED.faderISR.cie x) st.hw).2 := by
  by_cases h1 : p._currentLevel ≠ p._targetLevel
  · refine ⟨smoothLED.faderISR.fade p, ?_, ?_, ?_, ?_, ?_, ?_⟩
    any_goals rw [body_fading b alloc p st h0 h1]
    any_goals rfl
    all_goals
      unfold smoothLED.faderISR.fade
      dsimp only
      split_ifs <;> rfl
  · have h1' : p._currentLevel = p._targetLevel := not_not.mp h1
    by_cases h2 : p._waitTime ≠ 0
    · refine ⟨{ p with _waitTime := p._waitTime - 1 }, rfl, rfl, rfl, rfl, ?_, ?_⟩
      all_goals rw [body_holding b alloc p st h0 h1' h2]
      all_goals rfl
    · have h2' : p._waitTime = 0 := not_not.mp h2
      have hq : p._nextSet = [] := by
        by_contra hq
        exact hno ⟨⟨h1', h2'⟩, hq⟩
      refine ⟨p, rfl, rfl, rfl, rfl, ?_, ?_⟩
      all_goals rw [body_resting b alloc p st h0 ⟨h1', h2', hq⟩]
      all_goals rfl

/-- The drive step at the levels 0 and 255: the active-PWM flag is cleared,
no compare register is written, and the pin is driven off at level 0 and on
otherwise. -/
theorem output_extreme (b : Board) (q : smoothLED) (hw : Hardware)
    (hinit : q._portRegister ≠ none) (hmask : q._registerBitMask < 256)
    (h : q._currentLevel = 0 ∨ q._currentLevel = 255) :
    (smoothLED.faderISR.output b q hw).1._flags &&& PWM_ACTIVE = 0 ∧
    (smoothLED.faderISR.output b q hw).2.ocr = hw.ocr ∧
    (q._currentLevel = 0 →
      (smoothLED.faderISR.output b q hw).1.outputOff (smoothLED.faderISR.output b q hw).2) ∧
    (q._currentLevel ≠ 0 →
      (smoothLED.faderISR.output b q hw).1.outputOn (smoothLED.faderISR.output b q hw).2) := by
  obtain ⟨g1, g2, _, _, g5, _⟩ := switchHardwarePWM_frame b false
    { q with _flags := q._flags &&& (255 ^^^ PWM_ACTIVE) } hw
  obtain ⟨_, r2⟩ := switchHardwarePWM_registers b false
    { q with _flags := q._flags &&& (255 ^^^ PWM_ACTIVE) } hw
  have hflag : (smoothLED.switchHardwarePWM b false
      { q with _flags := q._flags &&& (255 ^^^ PWM_ACTIVE) } hw).1._flags &&& PWM_ACTIVE = 0 := by
    have hc : (q._flags &&& (255 ^^^ PWM_ACTIVE)) &&& PWM_ACTIVE = 0 :=
      clear_and_mask _ _ (by decide)
    rcases switchHardwarePWM_cases b false
      { q with _flags := q._flags &&& (255 ^^^ PWM_ACTIVE) } hw with h' | h' <;> rw [h']
    · exact hc
    · exact (or_and_disjoint _ _ _ (by decide)).trans hc
  unfold smoothLED.faderISR.output
  rw [if_pos h]
  dsimp only
  generalize smoothLED.switchHardwarePWM b false
    { q with _flags := q._flags &&& (255 ^^^ PWM_ACTIVE) } hw = r0 at g1 g2 g5 r2 hflag ⊢
  have g1' : r0.1._portRegister = q._portRegister := g1
  have g2' : r0.1._registerBitMask = q._registerBitMask := g2
  have g5' : r0.1._currentLevel = q._currentLevel := g5
  have hinit' : r0.1._portRegister ≠ none := by rw [g1']; exact hinit
  have hmask' : r0.1._registerBitMask < 256 := by rw [g2']; exact hmask
  by_cases hz : q._currentLevel = 0
  · rw [if_pos (g5'.trans hz)]
    refine ⟨hflag, ?_, fun _ => outputOff_pinOff r0.1 r0.2 hinit' hmask',
      fun hn => absurd hz hn⟩
    exact ((pinOff_frame r0.1 r0.2).1.2.2.2.1).trans r2
  · rw [if_neg (by rw [g5']; exact hz)]
    refine ⟨hflag, ?_, fun hn => absurd hn hz, fun _ => outputOn_pinOn r0.1 r0.2 hinit' hmask'⟩
    exact ((pinOn_frame r0.1 r0.2).1.2.2.2.1).trans r2

/-- The drive step at the levels 1 to 254: the active-PWM flag is set; in
software mode no register is written; in hardware mode the PWM register is
written with `driveValue` and no PORTn register is written. -/
theorem output_intermediate (b : Board) (q : smoothLED) (hw : Hardware)
    (h : ¬ (q._currentLevel = 0 ∨ q._currentLevel = 255)) :
    (smoothLED.faderISR.output b q hw).1._flags &&& PWM_ACTIVE ≠ 0 ∧
    (q._flags &&& SOFTWARE_MODE ≠ 0 → (smoothLED.faderISR.output b q hw).2 = hw) ∧
    (q._flags &&& SOFTWARE_MODE = 0 → ∀ a, q._PWMRegister = some a → q._currentCIE ≤ 255 →
      (smoothLED.faderISR.output b q hw).2.ocr a = driveValue q._flags q._currentCIE ∧
      (smoothLED.faderISR.output b q hw).2.port = hw.port) := by
  have hsoft : (q._flags ||| PWM_ACTIVE) &&& SOFTWARE_MODE = q._flags &&& SOFTWARE_MODE :=
    or_and_disjoint _ _ _ (by decide)
  have hset : (q._flags ||| PWM_ACTIVE) &&& PWM_ACTIVE = PWM_ACTIVE := or_and_mask _ _
  refine ⟨?_, ?_, ?_⟩
  · have hon : (smoothLED.switchHardwarePWM b true
        { q with _flags := q._flags ||| PWM_ACTIVE } hw).1._flags &&& PWM_ACTIVE =
        PWM_ACTIVE := by
      rcases switchHardwarePWM_cases b true
        { q with _flags := q._flags ||| PWM_ACTIVE } hw with h'' | h'' <;> rw [h'']
      · exact hset
      · exact (or_and_disjoint _ _ _ (by decide)).trans hset
    unfold smoothLED.faderISR.output
    rw [if_neg h]
    dsimp only
    by_cases hs : (q._flags ||| PWM_ACTIVE) &&& SOFTWARE_MODE = 0
    · rw [if_pos hs]
      split_ifs
      all_goals
        dsimp only
        rw [hon]
        decide
    · rw [if_neg hs]
      dsimp only
      rw [hset]
      decide
  · intro hs
    unfold smoothLED.faderISR.output
    rw [if_neg h, if_neg (by rw [hsoft]; exact hs)]
  · intro hs a ha hcie
    obtain ⟨r1, r2⟩ := switchHardwarePWM_registers b true
      { q with _flags := q._flags ||| PWM_ACTIVE } hw
    have hkeep : ∀ m, PWM_ACTIVE &&& m = 0 → SOFTWARE_MODE &&& m = 0 →
        (smoothLED.switchHardwarePWM b true
          { q with _flags := q._flags ||| PWM_ACTIVE } hw).1._flags &&& m = q._flags &&& m := by
      intro m h8 h4
      have hq : (q._flags ||| PWM_ACTIVE) &&& m = q._flags &&& m := or_and_disjoint _ _ _ h8
      rcases switchHardwarePWM_cases b true
        { q with _flags := q._flags ||| PWM_ACTIVE } hw with h'' | h'' <;> rw [h'']
      · exact hq
      · exact (or_and_disjoint _ _ _ h4).trans hq
    have hinv := hkeep INVERT_LED (by decide) (by decide)
    have htim := hkeep TIMER1_PIN (by decide) (by decide)
    obtain ⟨_, _, _, g4, _⟩ := switchHardwarePWM_frame b true
      { q with _flags := q._flags ||| PWM_ACTIVE } hw
    have hcie' : (smoothLED.switchHardwarePWM b true
        { q with _flags := q._flags ||| PWM_ACTIVE } hw).1._currentCIE = q._currentCIE := by
      rcases switchHardwarePWM_cases b true
        { q with _flags := q._flags ||| PWM_ACTIVE } hw with h'' | h'' <;> rw [h'']
    unfold smoothLED.faderISR.output
    rw [if_neg h, if_pos (by rw [hsoft]; exact hs)]
    dsimp only
    rw [hinv, htim, hcie']
    generalize smoothLED.switchHardwarePWM b true
      { q with _flags := q._flags ||| PWM_ACTIVE } hw = r0 at r1 r2 g4 ⊢
    have g4' : r0.1._PWMRegister = some a := g4.trans ha
    unfold driveValue writePWMRegister
    rw [g4']
    have e1 : toUInt16 ((255 - (q._currentCIE : Int)) * 4) = (255 - q._currentCIE) * 4 := by
      unfold toUInt16
      omega
    have e2 : toUInt8 (255 - (q._currentCIE : Int)) = 255 - q._currentCIE := by
      unfold toUInt8
      omega
    have e3 : (q._currentCIE <<< 2) % 65536 = q._currentCIE * 4 := by
      rw [Nat.shiftLeft_eq]
      omega
    split_ifs <;> simp [e1, e2, e3, r1]

/-! ## Theorems: what the fade tick drives -/

/-- C31: when the loop body of `faderISR` has run on an initialised channel
without dequeuing for it, `_currentCIE` is the new `_currentLevel` if the
channel has `NO_CIE_MODE` set (the pass does not change that flag), and the
entry `kcie[_currentLevel]` of the table otherwise. -/
theorem C31_corrected_level (b : Board) (alloc : Bool) (p : smoothLED) (st : FaderState)
    (h0 : p._portRegister ≠ none) (hno : ¬ (p.idle ∧ p._nextSet ≠ [])) :
    (smoothLED.faderISR.body b alloc p st).1._flags &&& NO_CIE_MODE =
      p._flags &&& NO_CIE_MODE ∧
    ((smoothLED.faderISR.body b alloc p st).1._flags &&& NO_CIE_MODE ≠ 0 →
      (smoothLED.faderISR.body b alloc p st).1._currentCIE =
        (smoothLED.faderISR.body b alloc p st).1._currentLevel) ∧
    ((smoothLED.faderISR.body b alloc p st).1._flags &&& NO_CIE_MODE = 0 →
      (smoothLED.faderISR.body b alloc p st).1._currentCIE =
        kcie.getD (smoothLED.faderISR.body b alloc p st).1._currentLevel 0 ∧
      ((smoothLED.faderISR.body b alloc p st).1._currentLevel ≤ 255 →
        kcie[(smoothLED.faderISR.body b alloc p st).1._currentLevel]? =
          some (smoothLED.faderISR.body b alloc p st).1._currentCIE)) := by
  obtain ⟨x, x1, _, _, _, x5, _⟩ := body_driven b alloc p st h0 hno
  obtain ⟨c1, c2, _, c4, c5⟩ := cie_value x
  obtain ⟨k1, k2⟩ := output_keeps b (smoothLED.faderISR.cie x) st.hw
  have hflag := output_flags b (smoothLED.faderISR.cie x) st.hw NO_CIE_MODE (by decide)
    (by decide) (by decide)
  rw [x5, hflag, k1, k2, c4, c5, x1]
  rw [x1] at c1 c2
  refine ⟨rfl, c1, fun hz => ⟨c2 hz, fun hl => ?_⟩⟩
  have hlen : x._currentLevel < kcie.length := by
    rw [kcie_length]
    omega
  rw [c2 hz, List.getD_eq_getElem _ _ hlen, List.getElem?_eq_getElem hlen]

/-- Witness of C31: the holding channel `exampleBusyLED`, at level 10. -/
theorem C31_corrected_level_witness :
    (smoothLED.faderISR.body {} true exampleBusyLED { hw := {} }).1._flags &&& NO_CIE_MODE =
      exampleBusyLED._flags &&& NO_CIE_MODE ∧
    ((smoothLED.faderISR.body {} true exampleBusyLED { hw := {} }).1._flags &&& NO_CIE_MODE ≠ 0 →
      (smoothLED.faderISR.body {} true exampleBusyLED { hw := {} }).1._currentCIE =
        (smoothLED.faderISR.body {} true exampleBusyLED { hw := {} }).1._currentLevel) ∧
    ((smoothLED.faderISR.body {} true exampleBusyLED { hw := {} }).1._flags &&& NO_CIE_MODE = 0 →
      (smoothLED.faderISR.body {} true exampleBusyLED { hw := {} }).1._currentCIE =
        kcie.getD (smoothLED.faderISR.body {} true exampleBusyLED { hw := {} }).1._currentLevel 0 ∧
      ((smoothLED.faderISR.body {} true exampleBusyLED { hw := {} }).1._currentLevel ≤ 255 →
        kcie[(smoothLED.faderISR.body {} true exampleBusyLED { hw := {} }).1._currentLevel]? =
          some (smoothLED.faderISR.body {} true exampleBusyLED { hw := {} }).1._currentCIE)) :=
  C31_corrected_level {} true exampleBusyLED { hw := {} } (by decide) (by decide)

/-- Counterexample to C32 as stated: the software PWM channel
`exampleDimmingLED`, not inverted, at level 181 with its pin high, idle with
the command `set(0, 0, 0)` stored. The invocation of `faderISR` that
processes it dequeues the command: the resulting level is 0, but the loop is
left before the drive step, so the active-PWM flag is still set and the pin
bit is still set. -/
theorem C32_extremes_counterexample :
    exampleDimmingLED._portRegister ≠ none ∧ exampleDimmingLED._flags &&& INVERT_LED = 0 ∧
    (smoothLED.faderISR.body {} true exampleDimmingLED
      { hw := exampleHighPorts }).1._currentLevel = 0 ∧
    (smoothLED.faderISR.body {} true exampleDimmingLED
      { hw := exampleHighPorts }).1._flags &&& PWM_ACTIVE ≠ 0 ∧
    (smoothLED.faderISR.body {} true exampleDimmingLED { hw := exampleHighPorts }).1.pinBits
      (smoothLED.faderISR.body {} true exampleDimmingLED
        { hw := exampleHighPorts }).2.1.hw = 16 ∧
    (smoothLED.faderISR {} true exampleDimmingSystem)._firstLink.map
      (fun p => (p._currentLevel, p._flags &&& PWM_ACTIVE)) = [(0, 8)] := by
  refine ⟨by decide, by decide, by decide, by decide, by decide, by decide⟩

/-- C32 (amended): when the loop body of `faderISR` has run on an initialised
channel without dequeuing for it and the resulting `_currentLevel` is 0 or
255, the active-PWM flag is clear, no compare register has been written, and
the pin bit is forced: cleared at level 0 and set at level 255 for a channel
without `INVERT_LED`, set at level 0 and cleared at level 255 with it. -/
theorem C32_extremes (b : Board) (alloc : Bool) (p : smoothLED) (st : FaderState)
    (h0 : p._portRegister ≠ none) (hmask : p._registerBitMask < 256)
    (hno : ¬ (p.idle ∧ p._nextSet ≠ []))
    (hlevel : (smoothLED.faderISR.body b alloc p st).1._currentLevel = 0 ∨
      (smoothLED.faderISR.body b alloc p st).1._currentLevel = 255) :
    (smoothLED.faderISR.body b alloc p st).1._flags &&& PWM_ACTIVE = 0 ∧
    (smoothLED.faderISR.body b alloc p st).2.1.hw.ocr = st.hw.ocr ∧
    (smoothLED.faderISR.body b alloc p st).1._flags &&& INVERT_LED = p._flags &&& INVERT_LED ∧
    ((smoothLED.faderISR.body b alloc p st).1._currentLevel = 0 →
      (smoothLED.faderISR.body b alloc p st).1.pinBits
          (smoothLED.faderISR.body b alloc p st).2.1.hw =
        if p._flags &&& INVERT_LED ≠ 0 then p._registerBitMask else 0) ∧
    ((smoothLED.faderISR.body b alloc p st).1._currentLevel = 255 →
      (smoothLED.faderISR.body b alloc p st).1.pinBits
          (smoothLED.faderISR.body b alloc p st).2.1.hw =
        if p._flags &&& INVERT_LED ≠ 0 then 0 else p._registerBitMask) := by
  obtain ⟨x, x1, x2, x3, _, x5, x6⟩ := body_driven b alloc p st h0 hno
  obtain ⟨_, _, _, c4, c5⟩ := cie_value x
  obtain ⟨_, k2⟩ := output_keeps b (smoothLED.faderISR.cie x) st.hw
  have hinv := output_flags b (smoothLED.faderISR.cie x) st.hw INVERT_LED (by decide)
    (by decide) (by decide)
  obtain ⟨d1, d2, _⟩ := output_frame b (smoothLED.faderISR.cie x) st.hw
  obtain ⟨e1, e2, _⟩ := cie_frame x
  rw [x5] at hlevel
  rw [x5, x6]
  have hinit' : (smoothLED.faderISR.cie x)._portRegister ≠ none := by
    rw [e1, x2]
    exact h0
  have hmask' : (smoothLED.faderISR.cie x)._registerBitMask < 256 := by
    rw [e2, x3]
    exact hmask
  obtain ⟨o1, o2, o3, o4⟩ := output_extreme b (smoothLED.faderISR.cie x) st.hw hinit' hmask'
    (by rw [← k2]; exact hlevel)
  have hflags : (smoothLED.faderISR.output b (smoothLED.faderISR.cie x) st.hw).1._flags &&&
      INVERT_LED = p._flags &&& INVERT_LED := by
    rw [hinv, c4, x1]
  have hm : (smoothLED.faderISR.output b (smoothLED.faderISR.cie x)
      st.hw).1._registerBitMask = p._registerBitMask := by
    rw [d2, e2, x3]
  refine ⟨o1, o2, hflags, ?_, ?_⟩
  · intro hz
    have := o3 (k2 ▸ hz)
    unfold smoothLED.outputOff at this
    rw [hflags, hm] at this
    exact this
  · intro hz
    have := o4 (by rw [← k2, hz]; decide)
    unfold smoothLED.outputOn at this
    rw [hflags, hm] at this
    exact this

/-- Witness of C32 (amended): the channel `exampleLED`, without work at
level 0. -/
theorem C32_extremes_witness :
    (smoothLED.faderISR.body {} true exampleLED { hw := exampleHighPorts }).1._flags &&&
      PWM_ACTIVE = 0 ∧
    (smoothLED.faderISR.body {} true exampleLED { hw := exampleHighPorts }).1.pinBits
        (smoothLED.faderISR.body {} true exampleLED { hw := exampleHighPorts }).2.1.hw =
      if exampleLED._flags &&& INVERT_LED ≠ 0 then exampleLED._registerBitMask else 0 :=
  have h := C32_extremes {} true exampleLED { hw := exampleHighPorts } (by decide)
    (by decide) (by decide) (by decide)
  ⟨h.1, h.2.2.2.1 (by decide)⟩

/-- Counterexample to C33 as stated: the hardware PWM channel
`exampleTimerLED` on TIMER1, idle at level 0 with the command `set(20, 0, 0)`
stored. The invocation of `faderISR` that processes it dequeues the command:
the resulting level is 20, but the loop is left before the drive step, so the
active-PWM flag is not set and the compare register at address 136 still
holds 0, not `kcie[20] * 4 = 8`. -/
theorem C33_intermediate_counterexample :
    exampleTimerLED._portRegister ≠ none ∧ exampleTimerLED._flags &&& SOFTWARE_MODE = 0 ∧
    exampleTimerLED._PWMRegister = some 136 ∧
    (smoothLED.faderISR.body {} true exampleTimerLED { hw := {} }).1._currentLevel = 20 ∧
    (smoothLED.faderISR.body {} true exampleTimerLED { hw := {} }).1._flags &&& PWM_ACTIVE = 0 ∧
    (smoothLED.faderISR.body {} true exampleTimerLED { hw := {} }).2.1.hw.ocr 136 = 0 ∧
    driveValue exampleTimerLED._flags (kcie.getD 20 0) = 8 ∧
    (smoothLED.faderISR {} true { _firstLink := [exampleTimerLED] })._firstLink.map
      (fun p => (p._currentLevel, p._flags &&& PWM_ACTIVE)) = [(20, 0)] := by
  refine ⟨by decide, by decide, by decide, by decide, by decide, by decide, by decide,
    by decide⟩

/-- C33 (amended): when the loop body of `faderISR` has run on an initialised
channel without dequeuing for it and the resulting `_currentLevel` is in
1..254, the active-PWM flag is set. For a channel in software mode no
register at all has been written, neither compare register nor PORTn. For a
channel in hardware mode its PWM register holds `_currentCIE`, or
`255 - _currentCIE` with `INVERT_LED`, multiplied by 4 for a pin of TIMER1
(`driveValue`), and no PORTn register has been written. -/
theorem C33_intermediate (b : Board) (alloc : Bool) (p : smoothLED) (st : FaderState)
    (h0 : p._portRegister ≠ none) (hno : ¬ (p.idle ∧ p._nextSet ≠ []))
    (hlevel : 1 ≤ (smoothLED.faderISR.body b alloc p st).1._currentLevel ∧
      (smoothLED.faderISR.body b alloc p st).1._currentLevel ≤ 254) :
    (smoothLED.faderISR.body b alloc p st).1._flags &&& PWM_ACTIVE ≠ 0 ∧
    (p._flags &&& SOFTWARE_MODE ≠ 0 →
      (smoothLED.faderISR.body b alloc p st).2.1.hw = st.hw) ∧
    (p._flags &&& SOFTWARE_MODE = 0 → ∀ a, p._PWMRegister = some a →
      (smoothLED.faderISR.body b alloc p st).2.1.hw.ocr a =
        driveValue p._flags (smoothLED.faderISR.body b alloc p st).1._currentCIE ∧
      (smoothLED.faderISR.body b alloc p st).2.1.hw.port = st.hw.port) := by
  obtain ⟨x, x1, _, _, x4, x5, x6⟩ := body_driven b alloc p st h0 hno
  obtain ⟨_, _, c3, c4, c5⟩ := cie_value x
  obtain ⟨k1, k2⟩ := output_keeps b (smoothLED.faderISR.cie x) st.hw
  obtain ⟨_, _, _, e4, _⟩ := cie_frame x
  rw [x5] at hlevel
  rw [x5, x6]
  rw [k2] at hlevel
  obtain ⟨o1, o2, o3⟩ := output_intermediate b (smoothLED.faderISR.cie x) st.hw
    (by omega)
  rw [c4, x1] at o2 o3
  refine ⟨o1, o2, fun hs a ha => ?_⟩
  rw [k1]
  exact o3 hs a (e4.trans (x4.trans ha)) (c3 (by omega))

/-- Witness of C33 (amended): a hardware PWM channel on TIMER1 without work
at level 20. -/
theorem C33_intermediate_witness :
    (smoothLED.faderISR.body {} true
      { exampleTimerLED with _currentLevel := 20, _targetLevel := 20, _nextSet := [] }
      { hw := {} }).1._flags &&& PWM_ACTIVE ≠ 0 ∧
    (smoothLED.faderISR.body {} true
      { exampleTimerLED with _currentLevel := 20, _targetLevel := 20, _nextSet := [] }
      { hw := {} }).2.1.hw.ocr 136 =
      driveValue exampleTimerLED._flags (smoothLED.faderISR.body {} true
        { exampleTimerLED with _currentLevel := 20, _targetLevel := 20, _nextSet := [] }
        { hw := {} }).1._currentCIE :=
  have h := C33_intermediate {} true
    { exampleTimerLED with _currentLevel := 20, _targetLevel := 20, _nextSet := [] }
    { hw := {} } (by decide) (by decide) (by decide)
  ⟨h.1, (h.2.2 (by decide) 136 rfl).1⟩

/-! ## Theorems: the pace accumulator, `setNow()` and a failed `begin()` -/

/-- C34 (code evaluated at the failing input): a freshly constructed channel,
`begin(13)`, `set(2, 1000, 0)` and one invocation of `faderISR`. `set` stores
`_changeDelays == 64000`; the invocation subtracts 128 from the accumulator 0
and adds 64000: the exact result 63872 is outside the range of `int16_t` and
the member holds -1664. With `set(255, 65535, 0)`, the slowest fade over the
whole range, the pace is 32896 and the exact result 32768 is stored as
-32768. -/
theorem C34_accumulator_overflows :
    ((smoothLED.begin {} true 0 13 0 (smoothLED.constructor {})).2._firstLink.map
      fun p => (p._changeTicker, p._changeDelays)) = [(0, 0)] ∧
    (((smoothLED.begin {} true 0 13 0 (smoothLED.constructor {})).2.call 0
        (smoothLED.set {} true 2 1000 0))._firstLink.map
      fun p => (p._changeTicker, p._changeDelays)) = [(0, 64000)] ∧
    (0 : Int) - 128 + 64000 = 63872 ∧ ¬ ((63872 : Int) ≤ 32767) ∧
    ((smoothLED.faderISR {} true ((smoothLED.begin {} true 0 13 0
        (smoothLED.constructor {})).2.call 0
        (smoothLED.set {} true 2 1000 0)))._firstLink.map
      fun p => p._changeTicker) = [-1664] ∧
    (((smoothLED.begin {} true 0 13 0 (smoothLED.constructor {})).2.call 0
        (smoothLED.set {} true 255 65535 0))._firstLink.map
      fun p => (p._changeTicker, p._changeDelays)) = [(0, 32896)] ∧
    (0 : Int) - 128 + 32896 = 32768 ∧ ¬ ((32768 : Int) ≤ 32767) ∧
    ((smoothLED.faderISR {} true ((smoothLED.begin {} true 0 13 0
        (smoothLED.constructor {})).2.call 0
        (smoothLED.set {} true 255 65535 0)))._firstLink.map
      fun p => p._changeTicker) = [-32768] := by
  refine ⟨by decide, by decide, by decide, by decide, by decide, by decide, by decide,
    by decide, by decide⟩

/-- C35: `setNow(val, speed, delay)` on any state is `set(val, speed, delay)`
on the state with the queue emptied, `_waitTime` zeroed and `_currentLevel`
replaced by `_targetLevel` (`specSetNow`), in the members of the channel and
in the registers. So the new target, hold and empty queue are those of the
request, and with `speed != 0` the fade starts at the old target level, with
the pace computed from it. -/
theorem C35_setNow_is_set (b : Board) (alloc : Bool) (val speed delay : Nat) (led : smoothLED)
    (hw : Hardware) :
    led.setNow b alloc val speed delay hw = specSetNow b alloc val speed delay led hw ∧
    (led.setNow b alloc val speed delay hw).1._targetLevel = val ∧
    (led.setNow b alloc val speed delay hw).1._waitTime = delay ∧
    (led.setNow b alloc val speed delay hw).1._nextSet = [] ∧
    (speed = 0 → (led.setNow b alloc val speed delay hw).1._currentLevel = val) ∧
    (speed ≠ 0 →
      (led.setNow b alloc val speed delay hw).1._currentLevel = led._targetLevel ∧
      (led.setNow b alloc val speed delay hw).1._changeDelays =
        paceDelay b speed led._targetLevel val) := by
  have heq : led.setNow b alloc val speed delay hw =
      specSetNow b alloc val speed delay led hw := by
    by_cases hs : speed = 0 <;>
      simp [smoothLED.setNow, specSetNow, smoothLED.set, cli, restoreSREG, pwmTimerOn,
        fadeTimerOn, hs]
  refine ⟨heq, ?_, ?_, ?_, ?_, ?_⟩
  · by_cases hs : speed = 0 <;> simp [smoothLED.setNow, smoothLED.set, hs]
  · by_cases hs : speed = 0 <;> simp [smoothLED.setNow, smoothLED.set, hs]
  · by_cases hs : speed = 0 <;> simp [smoothLED.setNow, smoothLED.set, hs]
  · intro hs
    simp [smoothLED.setNow, smoothLED.set, hs]
  · intro hs
    simp [smoothLED.setNow, smoothLED.set, hs]

/-- An instance without port register stays as it is under any sequence of
interrupts. -/
theorem isrTicks_uninit (b : Board) (alloc : Bool) (i : Nat) (led : smoothLED)
    (h0 : led._portRegister = none) :
    ∀ (ticks : List Bool) (sys : System), sys._firstLink[i]? = some led →
      (isrTicks b alloc ticks sys)._firstLink[i]? = some led
  | [], _, h => h
  | true :: rest, sys, h => by
    unfold isrTicks
    apply isrTicks_uninit b alloc i led h0 rest
    rcases faderISR_pass_or_skip b alloc sys i led h with h' | h'
    · rw [h', pass_uninit b led h0]
    · exact h'
  | false :: rest, sys, h => by
    unfold isrTicks
    exact isrTicks_uninit b alloc i led h0 rest (smoothLED.pwmISR sys) h

/-- The state that `begin()` leaves when another instance has the pin. -/
theorem begin_dup_state (b : Board) (alloc : Bool) (i j pin flags : Nat) (sys : System)
    (this q : smoothLED) (hthis : sys._firstLink[i]? = some this)
    (hpin : pin ≤ b.NUM_DIGITAL_PINS) (hq : sys._firstLink[j]? = some q) (hij : i ≠ j)
    (hholds : q.holdsPin b pin) :
    smoothLED.begin b alloc i pin flags sys =
      (false, { sys with
        _firstLink := sys._firstLink.set i
          { smoothLED.begin.assign b pin flags this with _portRegister := none },
        hw := restoreSREG sys.hw.SREG_I (cli sys.hw) }) := by
  have hscan := scan_none_of_dup
    (smoothLED.begin.assign b pin flags this)._portRegister
    (smoothLED.begin.assign b pin flags this)._registerBitMask i
    (sys._firstLink.set i (smoothLED.begin.assign b pin flags this)) 0 true
    j q (by rw [List.getElem?_set_ne hij]; exact hq) (by omega) hholds.1 hholds.2
  unfold smoothLED.begin
  simp only [hthis, if_neg (Nat.not_lt.mpr hpin), hscan]

/-- C36: a `begin(pin, flags)` call on an instance, whatever its members are
(so also after an earlier successful `begin()` on another pin), that fails
because another instance of the registry has the pin: the call returns
false, the instance has `_portRegister` null, its flags are `flags & B1111`
and its bit mask is that of the new pin; the other members and the other
instances are as they were. From then on the loop bodies of `faderISR` and
`pwmISR` skip the instance without writing a register, and after any
sequence of the two interrupts the instance is still the same. -/
theorem C36_failed_begin (b : Board) (alloc : Bool) (i j pin flags : Nat) (sys : System)
    (this q : smoothLED) (hthis : sys._firstLink[i]? = some this)
    (hpin : pin ≤ b.NUM_DIGITAL_PINS) (hq : sys._firstLink[j]? = some q) (hij : i ≠ j)
    (hholds : q.holdsPin b pin) :
    (smoothLED.begin b alloc i pin flags sys).1 = false ∧
    ∃ led, (smoothLED.begin b alloc i pin flags sys).2._firstLink = sys._firstLink.set i led ∧
      (smoothLED.begin b alloc i pin flags sys).2._firstLink[i]? = some led ∧
      led._portRegister = none ∧ led._flags = flags &&& 15 ∧
      led._registerBitMask = b.digitalPinToBitMask pin ∧
      led = { this with _portRegister := none, _flags := flags &&& 15,
                        _registerBitMask := b.digitalPinToBitMask pin } ∧
      (∀ (alloc' : Bool) (st : FaderState),
        smoothLED.faderISR.body b alloc' led st = (led, st, false)) ∧
      (∀ (c : Nat) (hw : Hardware), smoothLED.pwmISR.body c led hw = hw) ∧
      (∀ (alloc' : Bool) (ticks : List Bool),
        (isrTicks b alloc' ticks (smoothLED.begin b alloc i pin flags sys).2)._firstLink[i]? =
          some led) := by
  have hstate := begin_dup_state b alloc i j pin flags sys this q hthis hpin hq hij hholds
  have hi : i < sys._firstLink.length := (List.getElem?_eq_some.mp hthis).1
  rw [hstate]
  refine ⟨rfl, { smoothLED.begin.assign b pin flags this with _portRegister := none }, rfl,
    ?_, rfl, rfl, rfl, rfl, ?_, ?_, ?_⟩
  · simp [hi]
  · intro alloc' st
    exact body_uninit b alloc' _ st rfl
  · intro c hw
    simp [smoothLED.pwmISR.body]
  · intro alloc' ticks
    apply isrTicks_uninit b alloc' i _ rfl ticks
    simp [hi]

/-- Witness of C36: the second channel of `exampleTwoBegun`, initialised on
pin 12, calls `begin(13, INVERT_LED)` while the first channel has pin 13. -/
theorem C36_failed_begin_witness :
    (smoothLED.begin {} true 1 13 1 exampleTwoBegun).1 = false ∧
    ∃ led, (smoothLED.begin {} true 1 13 1 exampleTwoBegun).2._firstLink[1]? = some led ∧
      led._portRegister = none ∧ led._flags = 1 &&& 15 ∧
      (∀ (ticks : List Bool),
        (isrTicks {} true ticks (smoothLED.begin {} true 1 13 1 exampleTwoBegun).2)._firstLink[1]? =
          some led) :=
  have h := C36_failed_begin {} true 1 0 13 1 exampleTwoBegun
    { exampleLED with _registerBitMask := 16 } exampleLED (by decide) (by decide) (by decide)
    (by decide) (by decide)
  ⟨h.1, h.2.elim fun led hl => ⟨led, hl.2.1, hl.2.2.1, hl.2.2.2.1,
    fun ticks => hl.2.2.2.2.2.2.2.2 true ticks⟩⟩

/-! ## Lemmas: the channel that dequeues -/

/-- Setting the bits of an 8-bit mask and clearing them again is clearing
them. -/
theorem or_clear_mask (x m : Nat) (hm : m < 256) :
    (x ||| m) &&& (255 ^^^ m) = x &&& (255 ^^^ m) := by
  apply Nat.eq_of_testBit_eq
  intro i
  have h255 : (255 : Nat).testBit i = decide (i < 8) := Nat.testBit_two_pow_sub_one 8 i
  simp only [Nat.testBit_and, Nat.testBit_or, Nat.testBit_xor, h255]
  by_cases hi : i < 8
  · simp only [hi, decide_True]
    cases x.testBit i <;> cases m.testBit i <;> rfl
  · have hmi : m.testBit i = false :=
      Nat.testBit_lt_two_pow (lt_of_lt_of_le hm
        (Nat.pow_le_pow_right (show 2 > 0 by decide) (show 8 ≤ i by omega)))
    simp [hmi]

/-- Clearing the bits of a mask in an 8-bit value and setting them again is
setting them. -/
theorem clear_or_mask (x m : Nat) (hx : x < 256) : (x &&& (255 ^^^ m)) ||| m = x ||| m := by
  apply Nat.eq_of_testBit_eq
  intro i
  have h255 : (255 : Nat).testBit i = decide (i < 8) := Nat.testBit_two_pow_sub_one 8 i
  simp only [Nat.testBit_and, Nat.testBit_or, Nat.testBit_xor, h255]
  by_cases hi : i < 8
  · simp only [hi, decide_True]
    cases x.testBit i <;> cases m.testBit i <;> rfl
  · have hxi : x.testBit i = false :=
      Nat.testBit_lt_two_pow (lt_of_lt_of_le hx
        (Nat.pow_le_pow_right (show 2 > 0 by decide) (show 8 ≤ i by omega)))
    simp [hxi]

/-- C38: for a channel with the port register at address `a`, a non-empty
8-bit mask and an 8-bit register content. `pinOn` and `pinOff` write that
PORTn register only and leave every bit outside `_registerBitMask` as it
was; `pinOn` followed by `pinOff` leaves the registers as `pinOff` alone
does, and the reverse; without `INVERT_LED` `pinOn` sets the bits of the mask
and `pinOff` clears them, with `INVERT_LED` it is the other way round, so the
two always give opposite values. -/
theorem C38_pin_primitives (led : smoothLED) (hw : Hardware) (a : Nat)
    (hreg : led._portRegister = some a) (hmask : led._registerBitMask < 256)
    (hmask0 : led._registerBitMask ≠ 0) (hport : hw.port a < 256) :
    (PortFrame hw (led.pinOn hw) ∧ PortFrame hw (led.pinOff hw) ∧
      ∀ a', a' ≠ a → (led.pinOn hw).port a' = hw.port a' ∧
        (led.pinOff hw).port a' = hw.port a') ∧
    ((led.pinOn hw).port a &&& (255 ^^^ led._registerBitMask) =
        hw.port a &&& (255 ^^^ led._registerBitMask) ∧
      (led.pinOff hw).port a &&& (255 ^^^ led._registerBitMask) =
        hw.port a &&& (255 ^^^ led._registerBitMask)) ∧
    (led.pinOff (led.pinOn hw) = led.pinOff hw ∧ led.pinOn (led.pinOff hw) = led.pinOn hw) ∧
    (led._flags &&& INVERT_LED = 0 →
      led.pinBits (led.pinOn hw) = led._registerBitMask ∧ led.pinBits (led.pinOff hw) = 0) ∧
    (led._flags &&& INVERT_LED ≠ 0 →
      led.pinBits (led.pinOn hw) = 0 ∧ led.pinBits (led.pinOff hw) = led._registerBitMask) ∧
    led.pinBits (led.pinOn hw) ≠ led.pinBits (led.pinOff hw) := by
  have hinit : led._portRegister ≠ none := by rw [hreg]; exact Option.some_ne_none a
  have hon := outputOn_pinOn led hw hinit hmask
  have hoff := outputOff_pinOff led hw hinit hmask
  unfold smoothLED.outputOn at hon
  unfold smoothLED.outputOff at hoff
  have hother : ∀ a', a' ≠ a → led._portRegister ≠ some a' := by
    intro a' ha' hc
    rw [hreg] at hc
    exact ha' (Option.some.inj hc).symm
  refine ⟨⟨(pinOn_frame led hw).1, (pinOff_frame led hw).1, fun a' ha' =>
    ⟨(pinOn_frame led hw).2 a' (hother a' ha'), (pinOff_frame led hw).2 a' (hother a' ha')⟩⟩,
    ?_, ?_, ?_, ?_, ?_⟩
  · unfold smoothLED.pinOn smoothLED.pinOff
    simp only [hreg]
    split_ifs
    all_goals
      simp only [Function.update_same, Nat.and_assoc, Nat.and_self]
      refine ⟨?_, ?_⟩ <;> first
        | trivial
        | rfl
        | exact or_clear_mask _ _ hmask
  · unfold smoothLED.pinOn smoothLED.pinOff
    simp only [hreg]
    split_ifs
    all_goals
      simp only [Function.update_same, Function.update_idem]
      refine ⟨?_, ?_⟩ <;> first
        | rfl
        | rw [clear_or_mask _ _ hport]
        | rw [or_clear_mask _ _ hmask]
  · intro hinv
    rw [if_neg (not_not.mpr hinv)] at hon hoff
    exact ⟨hon, hoff⟩
  · intro hinv
    rw [if_pos hinv] at hon hoff
    exact ⟨hon, hoff⟩
  · rw [hon, hoff]
    split_ifs
    · exact fun h => hmask0 h.symm
    · exact hmask0

/-- Witness of C38: the channel `exampleLED` and a port with all bits set. -/
theorem C38_pin_primitives_witness :
    (exampleLED.pinOff (exampleLED.pinOn exampleHighPorts) = exampleLED.pinOff exampleHighPorts ∧
      exampleLED.pinOn (exampleLED.pinOff exampleHighPorts) =
        exampleLED.pinOn exampleHighPorts) ∧
    exampleLED.pinBits (exampleLED.pinOn exampleHighPorts) ≠
      exampleLED.pinBits (exampleLED.pinOff exampleHighPorts) :=
  have h := C38_pin_primitives exampleLED exampleHighPorts 37 rfl (by decide) (by decide)
    (by decide)
  ⟨h.2.2.1, h.2.2.2.2.2⟩

end SmoothLED
